import Mathlib

/-!
# Hotel management system: booking lifecycle and room availability

A shallow embedding of the date utilities (`DateUtils`), the booking model (`Booking`),
the transaction manager (`DatabaseManager`) and the room and booking repositories, followed
by the properties of the availability engine and of the booking lifecycle.

Conventions of the embedding:
* C++ `int` values are `Int`.
* A thrown exception is the `error` case of `Except`.
* The first part fixes the environment of the process. `std::mktime` / `localtime_r` are
  those of a zone with a fixed offset `utcOffset` (seconds east of UTC), which every date
  function takes as first argument; a `std::chrono::system_clock::time_point` is the number
  of seconds since the epoch, without a bound; and no statement and no commit of the server
  fails.
* Namespace `Env` has the same source functions with the environment as a parameter: the C
  library under the zone of the process, time points as 64-bit counts of nanoseconds, and
  the server. The properties that depend on the zone or on the server are stated there.
-/

namespace HotelManagement

/-! ## Calendar -/

/-- Broken-down time: the fields of `std::tm` that the program reads or writes. -/
structure Tm where
  tm_year : Int
  tm_mon : Int
  tm_mday : Int
  tm_hour : Int
  tm_min : Int
  tm_sec : Int
deriving DecidableEq

/-- A calendar date (year, month 1..12, day of month). It is also the value held by a
`date` column of the store. -/
structure CivilDate where
  year : Int
  month : Int
  day : Int
deriving DecidableEq

/-- Chronological order of calendar dates: lexicographic on year, month, day. -/
def CivilDate.before (a b : CivilDate) : Prop :=
  a.year < b.year ∨ (a.year = b.year ∧ (a.month < b.month ∨ (a.month = b.month ∧ a.day < b.day)))

instance (a b : CivilDate) : Decidable (CivilDate.before a b) := by
  unfold CivilDate.before; infer_instance

namespace DateUtils

/-- Source function `DateUtils::isLeapYear`. -/
def isLeapYear (year : Int) : Bool :=
  (year.tmod 4 == 0 && year.tmod 100 != 0) || (year.tmod 400 == 0)

/-- The table `daysInMonth[]` of `DateUtils::getDaysInMonth`. -/
def daysInMonth : List Int := [31, 28, 31, 30, 31, 30, 31, 31, 30, 31, 30, 31]

/-- Source function `DateUtils::getDaysInMonth`. -/
def getDaysInMonth (year month : Int) : Int :=
  if month < 1 ∨ month > 12 then 0
  else if month = 2 ∧ isLeapYear year = true then 29
  else daysInMonth.getD (month - 1).toNat 0

/-- Value of a decimal digit character. -/
def digitVal (c : Char) : Int := (c.toNat : Int) - 48

/-- The regular expression `^\d{4}-\d{2}-\d{2}$` under `std::regex_match`. -/
def matchesDateRegex (s : String) : Bool :=
  match s.data with
  | [y1, y2, y3, y4, s1, m1, m2, s2, d1, d2] =>
      y1.isDigit && y2.isDigit && y3.isDigit && y4.isDigit && s1 == '-' &&
      m1.isDigit && m2.isDigit && s2 == '-' && d1.isDigit && d2.isDigit
  | _ => false

/-- The extraction `iss >> std::get_time(&tm, "%Y-%m-%d")` into a zeroed `tm`, for the
strings on which the program runs it (those that matched `matchesDateRegex`); `none` is
`iss.fail()`. `%m` accepts 1..12 and `%d` accepts 1..31. -/
def getTimeDate (s : String) : Option Tm :=
  match s.data with
  | [y1, y2, y3, y4, _, m1, m2, _, d1, d2] =>
      let year := digitVal y1 * 1000 + digitVal y2 * 100 + digitVal y3 * 10 + digitVal y4
      let mon := digitVal m1 * 10 + digitVal m2
      let mday := digitVal d1 * 10 + digitVal d2
      if mon < 1 ∨ mon > 12 ∨ mday < 1 ∨ mday > 31 then none
      else some ⟨year - 1900, mon - 1, mday, 0, 0, 0⟩
  | _ => none

/-- Source function `DateUtils::isValidDate`. -/
def isValidDate (dateStr : String) : Bool :=
  if !matchesDateRegex dateStr then false
  else
    match getTimeDate dateStr with
    | none => false
    | some tm =>
        let year := tm.tm_year + 1900
        let month := tm.tm_mon + 1
        let day := tm.tm_mday
        if year < 1900 ∨ year > 2100 then false
        else if month < 1 ∨ month > 12 then false
        else if day < 1 ∨ day > getDaysInMonth year month then false
        else true

/-- Days from 1970-01-01 to January 1st of `year`. -/
def daysBeforeYear (year : Int) : Int :=
  365 * (year - 1970) + ((year - 1) / 4 - (year - 1) / 100 + (year - 1) / 400) - 477

/-- Days from January 1st to the first day of `month` (1..12) in a common year. -/
def monthStart : List Int := [0, 31, 59, 90, 120, 151, 181, 212, 243, 273, 304, 334]

/-- Days from January 1st of `year` to the first day of `month` (1..12) of that year. -/
def daysBeforeMonth (year month : Int) : Int :=
  monthStart.getD (month - 1).toNat 0 + (if month > 2 ∧ isLeapYear year = true then 1 else 0)

/-- Days from 1970-01-01 to the given proleptic Gregorian date. -/
def daysFromCivil (year month day : Int) : Int :=
  daysBeforeYear year + daysBeforeMonth year month + (day - 1)

/-- The C library's `mktime` on a broken-down time whose fields are in range (the only
ones the program passes), in a zone `utcOffset` seconds east of UTC: seconds since the
epoch. -/
def mktime (utcOffset : Int) (tm : Tm) : Int :=
  daysFromCivil (tm.tm_year + 1900) (tm.tm_mon + 1) tm.tm_mday * 86400
    + tm.tm_hour * 3600 + tm.tm_min * 60 + tm.tm_sec - utcOffset

/-- Source function `DateUtils::tmToTimePoint`: the time point as seconds since the epoch. -/
def tmToTimePoint (utcOffset : Int) (tm : Tm) : Int :=
  mktime utcOffset tm

/-- Source function `DateUtils::parseDate`. -/
def parseDate (utcOffset : Int) (dateStr : String) : Option Int :=
  if !isValidDate dateStr then none
  else
    match getTimeDate dateStr with
    | none => none
    | some tm => some (tmToTimePoint utcOffset tm)

/-- Source function `DateUtils::compareDates`. -/
def compareDates (utcOffset : Int) (date1 date2 : String) : Int :=
  match parseDate utcOffset date1, parseDate utcOffset date2 with
  | some tp1, some tp2 =>
      if tp1 < tp2 then -1
      else if tp1 > tp2 then 1
      else 0
  | _, _ => 0

/-- Days since 1970-01-01 to the proleptic Gregorian date (year, month, day): the
conversion done by the C library's `localtime_r`. -/
def civilFromDays (days : Int) : CivilDate :=
  let z := days + 719468
  let era := z / 146097
  let doe := z - era * 146097
  let yoe := (doe - doe / 1460 + doe / 36524 - doe / 146096) / 365
  let doy := doe - (365 * yoe + yoe / 4 - yoe / 100)
  let mp := (5 * doy + 2) / 153
  let d := doy - (153 * mp + 2) / 5 + 1
  let m := if mp < 10 then mp + 3 else mp - 9
  ⟨yoe + era * 400 + (if m ≤ 2 then 1 else 0), m, d⟩

/-- Source function `DateUtils::timePointToTm` (`localtime_r`) in a zone `utcOffset`
seconds east of UTC. -/
def timePointToTm (utcOffset : Int) (tp : Int) : Tm :=
  let loc := tp + utcOffset
  let c := civilFromDays (loc / 86400)
  let secs := loc % 86400
  ⟨c.year - 1900, c.month - 1, c.day, secs / 3600, secs % 3600 / 60, secs % 60⟩

/-- Decimal text of a number, padded with zeros on the left to `width` digits. -/
def zeroPad (width : Nat) (n : Int) : String :=
  let digits := Nat.repr n.toNat
  String.mk (List.replicate (width - digits.length) '0') ++ digits

/-- The text `std::put_time(&tm, "%Y-%m-%d")` writes, for a year from 0 on. -/
def putDate (tm : Tm) : String :=
  zeroPad 1 (tm.tm_year + 1900) ++ "-" ++ zeroPad 2 (tm.tm_mon + 1) ++ "-" ++ zeroPad 2 tm.tm_mday

/-- The text `std::put_time(&tm, "%H:%M:%S")` writes. -/
def putTime (tm : Tm) : String :=
  zeroPad 2 tm.tm_hour ++ ":" ++ zeroPad 2 tm.tm_min ++ ":" ++ zeroPad 2 tm.tm_sec

/-- Source function `DateUtils::formatDate`. -/
def formatDate (utcOffset : Int) (timePoint : Int) : String :=
  putDate (timePointToTm utcOffset timePoint)

/-- Source function `DateUtils::formatDateTime`. -/
def formatDateTime (utcOffset : Int) (timePoint : Int) : String :=
  let tm := timePointToTm utcOffset timePoint
  putDate tm ++ " " ++ putTime tm

/-- Source function `DateUtils::getCurrentDateTime`; `clock` is the reading of the system clock. -/
def getCurrentDateTime (utcOffset : Int) (clock : Int) : String :=
  formatDateTime utcOffset clock

/-- Source function `DateUtils::getCurrentDate`; `clock` is the reading of the system
clock. -/
def getCurrentDate (utcOffset : Int) (clock : Int) : String :=
  formatDate utcOffset clock

/-- Source function `DateUtils::daysBetween` on two time points: the cast of the difference
to whole hours and the division by 24 both truncate toward zero. -/
def daysBetweenPoints (start stop : Int) : Int :=
  ((stop - start).tdiv 3600).tdiv 24

/-- Source function `DateUtils::daysBetween` on two date strings. -/
def daysBetween (utcOffset : Int) (startDate endDate : String) : Int :=
  match parseDate utcOffset startDate, parseDate utcOffset endDate with
  | some start, some stop => daysBetweenPoints start stop
  | _, _ => 0

/-- Source function `DateUtils::addDays`: the time point is moved by `24 * days` hours and
formatted. -/
def addDays (utcOffset : Int) (dateStr : String) (days : Int) : String :=
  match parseDate utcOffset dateStr with
  | none => dateStr
  | some timePoint => formatDate utcOffset (timePoint + 3600 * (24 * days))

/-- Source function `DateUtils::subtractDays`. -/
def subtractDays (utcOffset : Int) (dateStr : String) (days : Int) : String :=
  addDays utcOffset dateStr (-days)

/-- The regular expression `^\d{4}-\d{2}-\d{2} \d{2}:\d{2}:\d{2}$` under
`std::regex_match`. -/
def matchesDateTimeRegex (s : String) : Bool :=
  match s.data with
  | [y1, y2, y3, y4, s1, m1, m2, s2, d1, d2, sp, h1, h2, c1, n1, n2, c2, x1, x2] =>
      y1.isDigit && y2.isDigit && y3.isDigit && y4.isDigit && s1 == '-' &&
      m1.isDigit && m2.isDigit && s2 == '-' && d1.isDigit && d2.isDigit && sp == ' ' &&
      h1.isDigit && h2.isDigit && c1 == ':' && n1.isDigit && n2.isDigit && c2 == ':' &&
      x1.isDigit && x2.isDigit
  | _ => false

/-- The extraction `iss >> std::get_time(&tm, "%Y-%m-%d %H:%M:%S")` into a zeroed `tm`, for
the strings on which the program runs it (those that matched `matchesDateTimeRegex`);
`none` is `iss.fail()`. `%m` accepts 1..12, `%d` 1..31, `%H` 0..23, `%M` 0..59 and `%S`
0..60. -/
def getTimeDateTime (s : String) : Option Tm :=
  match s.data with
  | [y1, y2, y3, y4, _, m1, m2, _, d1, d2, _, h1, h2, _, n1, n2, _, x1, x2] =>
      let year := digitVal y1 * 1000 + digitVal y2 * 100 + digitVal y3 * 10 + digitVal y4
      let mon := digitVal m1 * 10 + digitVal m2
      let mday := digitVal d1 * 10 + digitVal d2
      let hour := digitVal h1 * 10 + digitVal h2
      let min := digitVal n1 * 10 + digitVal n2
      let sec := digitVal x1 * 10 + digitVal x2
      if mon < 1 ∨ mon > 12 ∨ mday < 1 ∨ mday > 31 ∨ hour > 23 ∨ min > 59 ∨ sec > 60 then none
      else some ⟨year - 1900, mon - 1, mday, hour, min, sec⟩
  | _ => none

/-- Source function `DateUtils::isValidDateTime`. -/
def isValidDateTime (dateTimeStr : String) : Bool :=
  if !matchesDateTimeRegex dateTimeStr then false
  else
    match getTimeDateTime dateTimeStr with
    | none => false
    | some tm =>
        let year := tm.tm_year + 1900
        let month := tm.tm_mon + 1
        let day := tm.tm_mday
        let hour := tm.tm_hour
        let min := tm.tm_min
        let sec := tm.tm_sec
        if year < 1900 ∨ year > 2100 then false
        else if month < 1 ∨ month > 12 then false
        else if day < 1 ∨ day > getDaysInMonth year month then false
        else if hour < 0 ∨ hour > 23 then false
        else if min < 0 ∨ min > 59 then false
        else if sec < 0 ∨ sec > 59 then false
        else true

/-- Source function `DateUtils::parseDateTime`. -/
def parseDateTime (utcOffset : Int) (dateTimeStr : String) : Option Int :=
  if !isValidDateTime dateTimeStr then none
  else
    match getTimeDateTime dateTimeStr with
    | none => none
    | some tm => some (tmToTimePoint utcOffset tm)

/-- A date of the Gregorian calendar: month in 1..12 and day within the month. -/
def wellFormed (c : CivilDate) : Prop :=
  1 ≤ c.month ∧ c.month ≤ 12 ∧ 1 ≤ c.day ∧ c.day ≤ getDaysInMonth c.year c.month

/-- The calendar date a `YYYY-MM-DD` string denotes (`none` when the string is not a valid
date for `isValidDate`). -/
def calendarDate (s : String) : Option CivilDate :=
  if isValidDate s then
    (getTimeDate s).map fun tm => ⟨tm.tm_year + 1900, tm.tm_mon + 1, tm.tm_mday⟩
  else none

/-- The string `a` is a valid date that is chronologically before the valid date `b`. -/
def dateBefore (a b : String) : Prop :=
  match calendarDate a, calendarDate b with
  | some x, some y => x.before y
  | _, _ => False

instance (a b : String) : Decidable (dateBefore a b) := by
  unfold dateBefore; split <;> infer_instance

/-- The ASCII character of a decimal digit. -/
def asciiDigit (n : Nat) : Char := Char.ofNat (48 + n)

/-- The text `DDDD-DD-DD` with the given decimal digits. -/
def dateText (y1 y2 y3 y4 m1 m2 d1 d2 : Nat) : String :=
  String.mk [asciiDigit y1, asciiDigit y2, asciiDigit y3, asciiDigit y4, '-',
    asciiDigit m1, asciiDigit m2, '-', asciiDigit d1, asciiDigit d2]

/-- The text `DD:DD:DD` with the given decimal digits. -/
def timeText (h1 h2 n1 n2 x1 x2 : Nat) : String :=
  String.mk [asciiDigit h1, asciiDigit h2, ':', asciiDigit n1, asciiDigit n2, ':',
    asciiDigit x1, asciiDigit x2]

/-- The year, month and day are those of a date the program accepts: year in 1900..2100,
month in 1..12, day in 1..`getDaysInMonth`. -/
def dateInRange (year month day : Int) : Prop :=
  1900 ≤ year ∧ year ≤ 2100 ∧ 1 ≤ month ∧ month ≤ 12 ∧
    1 ≤ day ∧ day ≤ getDaysInMonth year month

/-- The string has exactly the form `DDDD-DD-DD` of ASCII digits and its year, month and
day are in range. -/
def isDateLiteral (s : String) : Prop :=
  ∃ y1 y2 y3 y4 m1 m2 d1 d2 : Nat,
    y1 < 10 ∧ y2 < 10 ∧ y3 < 10 ∧ y4 < 10 ∧ m1 < 10 ∧ m2 < 10 ∧ d1 < 10 ∧ d2 < 10 ∧
    s = dateText y1 y2 y3 y4 m1 m2 d1 d2 ∧
    dateInRange (1000 * y1 + 100 * y2 + 10 * y3 + y4) (10 * m1 + m2) (10 * d1 + d2)

/-- The string has exactly the form `DDDD-DD-DD DD:DD:DD` of ASCII digits, its date part is
in range, and hour, minute and second are in 0..23, 0..59, 0..59. -/
def isDateTimeLiteral (s : String) : Prop :=
  ∃ y1 y2 y3 y4 m1 m2 d1 d2 h1 h2 n1 n2 x1 x2 : Nat,
    y1 < 10 ∧ y2 < 10 ∧ y3 < 10 ∧ y4 < 10 ∧ m1 < 10 ∧ m2 < 10 ∧ d1 < 10 ∧ d2 < 10 ∧
    h1 < 10 ∧ h2 < 10 ∧ n1 < 10 ∧ n2 < 10 ∧ x1 < 10 ∧ x2 < 10 ∧
    s = dateText y1 y2 y3 y4 m1 m2 d1 d2 ++ " " ++ timeText h1 h2 n1 n2 x1 x2 ∧
    dateInRange (1000 * y1 + 100 * y2 + 10 * y3 + y4) (10 * m1 + m2) (10 * d1 + d2) ∧
    10 * h1 + h2 ≤ 23 ∧ 10 * n1 + n2 ≤ 59 ∧ 10 * x1 + x2 ≤ 59

end DateUtils

/-! ## Validators -/

namespace Validators

/-- One turn of the loop of `Validators::isValidCreditCard`, on the running `sum` and the
flag `alternate`, for the character `c` of the cleaned text. -/
def luhnStep (state : Int × Bool) (c : Char) : Int × Bool :=
  let digit : Int := (c.toNat : Int) - ('0'.toNat : Int)
  let digit := if state.2 then (if digit * 2 > 9 then digit * 2 - 9 else digit * 2) else digit
  (state.1 + digit, !state.2)

/-- Source function `Validators::isValidCreditCard`. The loop runs over the cleaned text
from its last character to its first. -/
def isValidCreditCard (cardNumber : String) : Bool :=
  let cleaned := cardNumber.data.filter Char.isDigit
  if cleaned.length < 13 ∨ cleaned.length > 19 then false
  else
    let final := cleaned.reverse.foldl luhnStep (0, false)
    final.1 % 10 == 0

/-- The decimal digits of a string, every other character dropped. -/
def decimalDigits (s : String) : List Nat :=
  (s.data.filter Char.isDigit).map fun c => c.toNat - 48

/-- The Luhn value of a digit at the given offset from the right: the digit at an even
offset, and at an odd offset twice the digit, less 9 when that exceeds 9. -/
def luhnTerm (offset digit : Nat) : Nat :=
  if offset % 2 = 0 then digit
  else if 2 * digit > 9 then 2 * digit - 9 else 2 * digit

/-- Sum of the Luhn values of the digits, the first of which stands at `offset`. -/
def luhnSumFrom (offset : Nat) : List Nat → Nat
  | [] => 0
  | d :: ds => luhnTerm offset d + luhnSumFrom (offset + 1) ds

/-- The Luhn sum of a sequence of digits, taken from the rightmost digit. -/
def luhnSum (digits : List Nat) : Nat :=
  luhnSumFrom 0 digits.reverse

end Validators

/-! ## Booking model -/

/-- Source type `enum class BookingStatus`. -/
inductive BookingStatus where
  | Pending
  | Confirmed
  | CheckedIn
  | CheckedOut
  | Cancelled
deriving DecidableEq

/-- Source type `struct Booking`. The amount is a `double` in the program; nothing modelled here
computes with it. -/
structure Booking where
  id : Int
  guestId : Int
  roomId : Int
  checkInDate : String
  checkOutDate : String
  actualCheckIn : String
  actualCheckOut : String
  numAdults : Int
  numChildren : Int
  status : BookingStatus
  specialRequests : String
  totalAmount : Rat
  createdAt : String
  updatedAt : String
deriving DecidableEq

namespace Booking

/-- Source function `Booking::isValid`. -/
def isValid (b : Booking) : Bool :=
  decide (b.guestId > 0) && decide (b.roomId > 0) &&
  !b.checkInDate.isEmpty && !b.checkOutDate.isEmpty &&
  decide (b.numAdults > 0)

/-- Source function `Booking::isActive`. -/
def isActive (b : Booking) : Bool :=
  b.status == BookingStatus.Confirmed || b.status == BookingStatus.CheckedIn

/-- Source function `Booking::canCheckIn`. -/
def canCheckIn (b : Booking) : Bool :=
  b.status == BookingStatus.Confirmed

/-- Source function `Booking::canCheckOut`. -/
def canCheckOut (b : Booking) : Bool :=
  b.status == BookingStatus.CheckedIn

/-- Source function `Booking::overlaps`. -/
def overlaps (utcOffset : Int) (b : Booking) (start stop : String) : Bool :=
  let compareStartEnd := DateUtils.compareDates utcOffset b.checkInDate stop
  let compareEndStart := DateUtils.compareDates utcOffset start b.checkOutDate
  decide (compareStartEnd < 0) && decide (compareEndStart < 0)

/-- Source function `Booking::statusToString` on a status value. -/
def statusToString (s : BookingStatus) : String :=
  match s with
  | .Pending => "pending"
  | .Confirmed => "confirmed"
  | .CheckedIn => "checked_in"
  | .CheckedOut => "checked_out"
  | .Cancelled => "cancelled"

/-- Source function `Booking::stringToStatus`. -/
def stringToStatus (statusStr : String) : BookingStatus :=
  if statusStr = "pending" then .Pending
  else if statusStr = "confirmed" then .Confirmed
  else if statusStr = "checked_in" then .CheckedIn
  else if statusStr = "checked_out" then .CheckedOut
  else if statusStr = "cancelled" then .Cancelled
  else .Pending

end Booking

/-! ## Room model -/

/-- Source type `enum class RoomStatus`. -/
inductive RoomStatus where
  | Available
  | Occupied
  | Maintenance
  | Reserved
deriving DecidableEq

namespace Room

/-- Source function `Room::statusToString` on a status value. -/
def statusToString (s : RoomStatus) : String :=
  match s with
  | .Available => "available"
  | .Occupied => "occupied"
  | .Maintenance => "maintenance"
  | .Reserved => "reserved"

/-- Source function `Room::stringToStatus`. -/
def stringToStatus (statusStr : String) : RoomStatus :=
  if statusStr = "available" then .Available
  else if statusStr = "occupied" then .Occupied
  else if statusStr = "maintenance" then .Maintenance
  else if statusStr = "reserved" then .Reserved
  else .Available

end Room

/-! ## Store

The table definitions are not part of the sources; the rows carry the columns the queries
name. No constraint, trigger or default other than the ones stated below is modelled. -/

/-- Modelled from the spec: a row of table `bookings` (section 6, persisted shape). The two
stay columns hold dates, the nullable columns are options, the status column holds text. -/
structure BookingRow where
  id : Int
  guest_id : Int
  room_id : Int
  check_in_date : CivilDate
  check_out_date : CivilDate
  actual_check_in : Option String
  actual_check_out : Option String
  num_adults : Int
  num_children : Int
  status : String
  special_requests : Option String
  total_amount : Option Rat
  created_at : String
  updated_at : String
deriving DecidableEq

/-- Modelled from the spec: a row of table `rooms` (section 6, persisted shape). -/
structure RoomRow where
  id : Int
  room_number : String
  room_type_id : Int
  floor_number : Int
  status : String
  notes : Option String
  created_at : String
  updated_at : String
deriving DecidableEq

/-- The state of the store: the rows of both tables and the last value drawn from the
sequence that numbers the bookings. The sequence is kept with the tables; no modelled
statement draws from it and then fails. -/
structure Tables where
  rooms : List RoomRow
  bookings : List BookingRow
  bookingSeq : Nat
deriving DecidableEq

/-- Conversion of a text parameter to the `date` type by the store, for `YYYY-MM-DD`
literals of the Gregorian calendar. Any other text raises here; the server also reads other
forms of dates, which `Env.sqlDate` leaves to the server. -/
def sqlDate (s : String) : Except String CivilDate :=
  if !DateUtils.matchesDateRegex s then .error "invalid input syntax for type date"
  else
    match DateUtils.getTimeDate s with
    | none => .error "date/time field value out of range"
    | some tm =>
        let c : CivilDate := ⟨tm.tm_year + 1900, tm.tm_mon + 1, tm.tm_mday⟩
        if c.year < 1 ∨ c.day > DateUtils.getDaysInMonth c.year c.month then
          .error "date/time field value out of range"
        else .ok c

/-- Text of a `date` value as the store returns it. -/
def sqlDateText (c : CivilDate) : String :=
  DateUtils.zeroPad 4 c.year ++ "-" ++ DateUtils.zeroPad 2 c.month ++ "-" ++
    DateUtils.zeroPad 2 c.day

/-- The SQL predicate `(s1, e1) OVERLAPS (s2, e2)` on non-null dates: each pair is put in
order, a pair with equal ends is a single instant, and periods sharing only an end point do
not overlap. -/
def sqlOverlaps (s1 e1 s2 e2 : CivilDate) : Bool :=
  let p1 := if e1.before s1 then (e1, s1) else (s1, e1)
  let p2 := if e2.before s2 then (e2, s2) else (s2, e2)
  if p2.1.before p1.1 then decide (p1.1.before p2.2)
  else if p1.1.before p2.1 then decide (p2.1.before p1.2)
  else true

/-- Source type `class DatabaseManager`: `connection` is `none` when the pointer is null or the
connection is closed, and otherwise gives the state of the store it is connected to. -/
structure DatabaseManager where
  connection : Option Tables
deriving DecidableEq

namespace DatabaseManager

/-- Source function `DatabaseManager::executeTransaction`. The function `func` is run on
the tables as the transaction (`pqxx::work`) sees them and returns its result, or the
exception it raised, together with the tables as its statements had written them by then.
On normal return `txn.commit()` makes these writes the state of the store; when `func`
raises, the transaction object is destroyed without a commit, which discards its writes, and
the exception is passed on. Here `BEGIN` and the commit do not raise;
`Env.DatabaseManager.executeTransaction` has their outcomes as parameters. -/
def executeTransaction {α : Type} (db : DatabaseManager)
    (func : Tables → Except String α × Tables) : Except String α × DatabaseManager :=
  match db.connection with
  | none => (.error "Database not connected", db)
  | some t =>
      match func t with
      | (.ok result, written) => (.ok result, ⟨some written⟩)
      | (.error e, _) => (.error e, db)

/-- Source function `DatabaseManager::executeReadTransaction`. -/
def executeReadTransaction {α : Type} (db : DatabaseManager)
    (func : Tables → Except String α) : Except String α :=
  match db.connection with
  | none => .error "Database not connected"
  | some t => func t

end DatabaseManager

/-! ## Repositories -/

/-- One statement run by `exec_params` inside a transaction: it returns its result and the
tables as it wrote them, or it raises and has written nothing. -/
def execStatement {α : Type} (t : Tables) (stmt : Except String (α × Tables)) :
    Except String α × Tables :=
  match stmt with
  | .ok (result, t2) => (.ok result, t2)
  | .error e => (.error e, t)

/-- The stored status is none of the literals `cancelled`, `checked_out`. -/
def statusBlocks (status : String) : Bool :=
  !(status == "cancelled" || status == "checked_out")

namespace RoomRepository

/-- Source function `RoomRepository::isRoomAvailable`. The `COUNT(*)` query is the number of
rows passing the three conditions of its `WHERE` clause, the casts `$2::date`, `$3::date`
are `sqlDate`, and any exception gives `false`. -/
def isRoomAvailable (db : DatabaseManager) (roomId : Int) (startDate endDate : String) : Bool :=
  match db.executeReadTransaction (fun t => do
      let s ← sqlDate startDate
      let e ← sqlDate endDate
      let count := (t.bookings.filter fun b =>
        b.room_id == roomId && statusBlocks b.status &&
          sqlOverlaps b.check_in_date b.check_out_date s e).length
      pure (count == 0)) with
  | .ok r => r
  | .error _ => false

/-- Source function `RoomRepository::getAvailableRoomIds`. The query keeps the rooms with
status text `available` for which no booking row passes the sub-query; any exception gives
the empty list. -/
def getAvailableRoomIds (db : DatabaseManager) (startDate endDate : String) : List Int :=
  match db.executeReadTransaction (fun t => do
      let s ← sqlDate startDate
      let e ← sqlDate endDate
      let result := t.rooms.filter fun r =>
        r.status == "available" &&
          !(t.bookings.any fun b =>
            b.room_id == r.id && statusBlocks b.status &&
              sqlOverlaps b.check_in_date b.check_out_date s e)
      pure (result.map fun r => r.id)) with
  | .ok r => r
  | .error _ => []

end RoomRepository

namespace BookingRepository

/-- Source function `BookingRepository::rowToBooking`. -/
def rowToBooking (row : BookingRow) : Booking :=
  { id := row.id
    guestId := row.guest_id
    roomId := row.room_id
    checkInDate := sqlDateText row.check_in_date
    checkOutDate := sqlDateText row.check_out_date
    actualCheckIn := row.actual_check_in.getD ""
    actualCheckOut := row.actual_check_out.getD ""
    numAdults := row.num_adults
    numChildren := row.num_children
    status := Booking.stringToStatus row.status
    specialRequests := row.special_requests.getD ""
    totalAmount := row.total_amount.getD 0
    createdAt := row.created_at
    updatedAt := row.updated_at }

/-- The row the `INSERT` statement of `BookingRepository::create` adds: the nine columns
it names take the parameters, the id comes from the sequence, the two actual times stay
null and the two row timestamps take the column default, whose value is `stamp`. -/
def insertedRow (stamp : String) (newId : Int) (checkIn checkOut : CivilDate)
    (booking : Booking) : BookingRow :=
  { id := newId
    guest_id := booking.guestId
    room_id := booking.roomId
    check_in_date := checkIn
    check_out_date := checkOut
    actual_check_in := none
    actual_check_out := none
    num_adults := booking.numAdults
    num_children := booking.numChildren
    status := Booking.statusToString booking.status
    special_requests := some booking.specialRequests
    total_amount := some booking.totalAmount
    created_at := stamp
    updated_at := stamp }

/-- Source function `BookingRepository::create`. The `INSERT ... RETURNING id` statement
converts the two date texts for their `date` columns (raising when it cannot), appends the
row and returns its id; any exception gives -1 and, the transaction being rolled back, the
store as it was. -/
def create (stamp : String) (db : DatabaseManager) (booking : Booking) : Int × DatabaseManager :=
  match db.executeTransaction (fun t => execStatement t do
      let checkIn ← sqlDate booking.checkInDate
      let checkOut ← sqlDate booking.checkOutDate
      let newId : Int := (t.bookingSeq + 1 : Nat)
      let row := insertedRow stamp newId checkIn checkOut booking
      pure (newId, { t with bookings := t.bookings ++ [row], bookingSeq := t.bookingSeq + 1 })) with
  | (.ok newId, db2) => (newId, db2)
  | (.error _, db2) => (-1, db2)

/-- Source function `BookingRepository::checkIn`; `clock` is the reading of the system
clock. The `UPDATE ... WHERE id = $2` statement rewrites the two columns of every row with
that id, and `affected_rows()` is the number of these rows. -/
def checkIn (utcOffset clock : Int) (db : DatabaseManager) (bookingId : Int) :
    Bool × DatabaseManager :=
  let now := DateUtils.getCurrentDateTime utcOffset clock
  match db.executeTransaction (fun t =>
      let affected := (t.bookings.filter fun b => b.id == bookingId).length
      let rows := t.bookings.map fun b =>
        if b.id = bookingId then { b with status := "checked_in", actual_check_in := some now }
        else b
      execStatement t (.ok (decide (affected > 0), { t with bookings := rows }))) with
  | (.ok r, db2) => (r, db2)
  | (.error _, db2) => (false, db2)

/-- Source function `BookingRepository::checkOut`; `clock` is the reading of the system
clock. The `UPDATE ... WHERE id = $2` statement rewrites the two columns of every row with
that id, and `affected_rows()` is the number of these rows. -/
def checkOut (utcOffset clock : Int) (db : DatabaseManager) (bookingId : Int) :
    Bool × DatabaseManager :=
  let now := DateUtils.getCurrentDateTime utcOffset clock
  match db.executeTransaction (fun t =>
      let affected := (t.bookings.filter fun b => b.id == bookingId).length
      let rows := t.bookings.map fun b =>
        if b.id = bookingId then { b with status := "checked_out", actual_check_out := some now }
        else b
      execStatement t (.ok (decide (affected > 0), { t with bookings := rows }))) with
  | (.ok r, db2) => (r, db2)
  | (.error _, db2) => (false, db2)

/-- Source function `BookingRepository::update`, whose body is `return false`. -/
def update (db : DatabaseManager) (_booking : Booking) : Bool × DatabaseManager :=
  (false, db)

/-- Source function `BookingRepository::deleteById`, whose body is `return false`. -/
def deleteById (db : DatabaseManager) (_id : Int) : Bool × DatabaseManager :=
  (false, db)

/-- Source function `BookingRepository::findByStatus`. -/
def findByStatus (db : DatabaseManager) (status : BookingStatus) : List Booking :=
  let statusStr := Booking.statusToString status
  match db.executeReadTransaction (fun t =>
      let result := t.bookings.filter fun b => b.status == statusStr
      .ok (result.map rowToBooking)) with
  | .ok r => r
  | .error _ => []

/-- Source function `BookingRepository::findByGuestId`, whose body is `return {}`. -/
def findByGuestId (_db : DatabaseManager) (_guestId : Int) : List Booking :=
  []

/-- Source function `BookingRepository::findByRoomId`, whose body is `return {}`. -/
def findByRoomId (_db : DatabaseManager) (_roomId : Int) : List Booking :=
  []

/-- Source function `BookingRepository::getActiveBookingsCount`. -/
def getActiveBookingsCount (db : DatabaseManager) : Int :=
  match db.executeReadTransaction (fun t =>
      let count := (t.bookings.filter fun b =>
        b.status == "confirmed" || b.status == "checked_in").length
      .ok (count : Int)) with
  | .ok r => r
  | .error _ => 0

/-- Source function `BookingRepository::getTodayCheckIns`, whose body is `return 0`. -/
def getTodayCheckIns (_db : DatabaseManager) : Int :=
  0

/-- Source function `BookingRepository::getTodayCheckOuts`, whose body is `return 0`. -/
def getTodayCheckOuts (_db : DatabaseManager) : Int :=
  0

end BookingRepository

/-- The bookings held by the store a manager is connected to. -/
def storedBookings (db : DatabaseManager) : List BookingRow :=
  match db.connection with
  | some t => t.bookings
  | none => []

/-- The timestamp invariant of the data model: the actual check-in time is set exactly
when the status is CheckedIn or CheckedOut, and the actual check-out time exactly when it is
CheckedOut. -/
def timestampInvariant (b : Booking) : Prop :=
  (b.actualCheckIn ≠ "" ↔ (b.status = .CheckedIn ∨ b.status = .CheckedOut)) ∧
  (b.actualCheckOut ≠ "" ↔ b.status = .CheckedOut)

instance (b : Booking) : Decidable (timestampInvariant b) := by
  unfold timestampInvariant; infer_instance

/-- The stored booking blocks its room: its status is neither Cancelled nor CheckedOut. -/
def rowBlocks (r : BookingRow) : Prop :=
  Booking.stringToStatus r.status ≠ .Cancelled ∧ Booking.stringToStatus r.status ≠ .CheckedOut

instance (r : BookingRow) : Decidable (rowBlocks r) := by
  unfold rowBlocks; infer_instance

/-- Two stored bookings are a double booking: same room, both blocking, and their
half-open stays overlap. -/
def doubleBooked (a b : BookingRow) : Prop :=
  a.room_id = b.room_id ∧ rowBlocks a ∧ rowBlocks b ∧
    a.check_in_date.before b.check_out_date ∧ b.check_in_date.before a.check_out_date

instance (a b : BookingRow) : Decidable (doubleBooked a b) := by
  unfold doubleBooked; infer_instance

/-- No two stored bookings are a double booking. -/
def noDoubleBooking (rows : List BookingRow) : Prop :=
  rows.Pairwise fun a b => ¬ doubleBooked a b

instance (rows : List BookingRow) : Decidable (noDoubleBooking rows) := by
  unfold noDoubleBooking; infer_instance

/-- A stored booking with the given id, room, stay and status text and no actual
check-in or check-out time (used for concrete instances). -/
def sampleRow (id roomId : Int) (checkIn checkOut : CivilDate) (status : String) : BookingRow :=
  ⟨id, 1, roomId, checkIn, checkOut, none, none, 1, 0, status, none, none, "", ""⟩

/-- A stored room with the given id and status text (used for concrete instances). -/
def sampleRoom (id : Int) (status : String) : RoomRow :=
  ⟨id, "", 1, 1, status, none, "", ""⟩

/-- A booking with the given stay and status on room 1 (used for concrete instances). -/
def sampleBooking (checkIn checkOut : String) (status : BookingStatus) : Booking :=
  ⟨1, 1, 1, checkIn, checkOut, "", "", 1, 0, status, "", 0, "", ""⟩


/-! ## The environment of the process

The definitions above fix the environment of the program: a time zone that has always been
`utcOffset` seconds east of UTC, time points counted in seconds without a bound, and a
server on which no statement and no commit fails, whose table accepts every row and which
reads no date text other than a `YYYY-MM-DD` literal. The definitions of namespace `Env` are
the same source functions with the environment as a parameter:

* the C library (`CLibrary`): `mktime`, whose result may depend on the calls made to it
  before in the same process, and `localtime_r`;
* time points as the 64-bit counts of nanoseconds of `std::chrono::system_clock`;
* the server (`Server`): whether `BEGIN`, a statement or the commit raises, how it reads a
  date text that is not a `YYYY-MM-DD` literal, and whether the table accepts a row.

The lemmas of section "Environment lemmas" show that in a zone with a fixed offset, and on
a server where nothing fails, the functions of `Env` return what the functions above
return. -/

namespace Env

/-! ### C library and time points -/

/-- The value a signed 64-bit operation leaves when its exact result is `n`. Overflow of a
signed operation is undefined in C++; the value modelled is the two's-complement one. -/
def wrap64 (n : Int) : Int :=
  (n + 9223372036854775808) % 18446744073709551616 - 9223372036854775808

/-- The value a signed 32-bit operation (`int`) leaves when its exact result is `n`, as
`wrap64`. -/
def wrap32 (n : Int) : Int :=
  (n + 2147483648) % 4294967296 - 2147483648

/-- The exact result `n` is a signed 64-bit value: the operation does not overflow. -/
def fits64 (n : Int) : Prop :=
  -9223372036854775808 ≤ n ∧ n ≤ 9223372036854775807

instance (n : Int) : Decidable (fits64 n) := by
  unfold fits64; infer_instance

/-- The C library calls of `DateUtils` as the process finds them. The result of `mktime`
may depend on the calls made to it before in the same process (the library starts from the
offset it found last), so `mktime` takes the arguments of the earlier calls, oldest first,
and then its own; -1 is also its error value. `localtime_r` is a function of the instant. -/
structure CLibrary where
  mktime : List Tm → Tm → Int
  localtime_r : Int → Tm

namespace CLibrary

/-- The C library of a process whose zone has always been `utcOffset` seconds east of
UTC. -/
def fixedOffset (utcOffset : Int) : CLibrary :=
  ⟨fun _ tm => HotelManagement.DateUtils.mktime utcOffset tm,
    HotelManagement.DateUtils.timePointToTm utcOffset⟩

/-- The C library of one recorded run of a process: the call number `n` of `mktime`
returns the answer number `n` of the record (and the error value -1 after the record), and
`localtime_r` is the given function. -/
def recorded (answers : List Int) (localtime_r : Int → Tm) : CLibrary :=
  ⟨fun calls _ => answers.getD calls.length (-1), localtime_r⟩

/-- The broken-down time holds midnight of a date the program accepts (year in 1900..2100,
month and day in range): what `parseDate` passes to `mktime`. -/
def holdsValidDate (tm : Tm) : Prop :=
  HotelManagement.DateUtils.dateInRange (tm.tm_year + 1900) (tm.tm_mon + 1) tm.tm_mday ∧
  tm.tm_hour = 0 ∧ tm.tm_min = 0 ∧ tm.tm_sec = 0

/-- The zone of the process has always been `utcOffset` seconds east of UTC, at most a day:
on the dates the program accepts `mktime` is the conversion of that offset, whatever was
called before, and so is `localtime_r` on the instants within 10^10 seconds of the epoch. -/
def hasFixedOffset (lib : CLibrary) (utcOffset : Int) : Prop :=
  -86400 ≤ utcOffset ∧ utcOffset ≤ 86400 ∧
  (∀ (calls : List Tm) (tm : Tm), holdsValidDate tm →
    lib.mktime calls tm = HotelManagement.DateUtils.mktime utcOffset tm) ∧
  (∀ t : Int, -10000000000 ≤ t → t ≤ 10000000000 →
    lib.localtime_r t = HotelManagement.DateUtils.timePointToTm utcOffset t)

/-- On the dates the program accepts, the result of `mktime` does not depend on the calls
made before. -/
def historyFree (lib : CLibrary) : Prop :=
  ∀ (calls1 calls2 : List Tm) (tm : Tm), holdsValidDate tm →
    lib.mktime calls1 tm = lib.mktime calls2 tm

end CLibrary

namespace DateUtils

/-- Source function `DateUtils::tmToTimePoint`: `mktime` on a copy of `tm`, and
`system_clock::from_time_t`, which multiplies the seconds into the 64-bit count of
nanoseconds of the time point. The second component is the list of `mktime` calls of the
process after the call. -/
def tmToTimePoint (lib : CLibrary) (calls : List Tm) (tm : Tm) : Int × List Tm :=
  (wrap64 (lib.mktime calls tm * 1000000000), calls ++ [tm])

/-- Source function `DateUtils::timePointToTm`: `system_clock::to_time_t`, which truncates
the count of nanoseconds to seconds toward zero, and `localtime_r`. -/
def timePointToTm (lib : CLibrary) (tp : Int) : Tm :=
  lib.localtime_r (tp.tdiv 1000000000)

/-- Source function `DateUtils::formatDate`. -/
def formatDate (lib : CLibrary) (timePoint : Int) : String :=
  HotelManagement.DateUtils.putDate (timePointToTm lib timePoint)

/-- Source function `DateUtils::parseDate`; `mktime` is called only on a valid date. -/
def parseDate (lib : CLibrary) (calls : List Tm) (dateStr : String) : Option Int × List Tm :=
  if !HotelManagement.DateUtils.isValidDate dateStr then (none, calls)
  else
    match HotelManagement.DateUtils.getTimeDate dateStr with
    | none => (none, calls)
    | some tm => ((some (tmToTimePoint lib calls tm).1), (tmToTimePoint lib calls tm).2)

/-- Source function `DateUtils::compareDates`: `date1` is parsed first, then `date2`. -/
def compareDates (lib : CLibrary) (calls : List Tm) (date1 date2 : String) : Int × List Tm :=
  let tp1 := parseDate lib calls date1
  let tp2 := parseDate lib tp1.2 date2
  match tp1.1, tp2.1 with
  | some v1, some v2 =>
      (if v1 < v2 then -1 else if v1 > v2 then 1 else 0, tp2.2)
  | _, _ => (0, tp2.2)

/-- Source function `DateUtils::daysBetween` on two time points: the 64-bit difference of
the two counts of nanoseconds, cast to whole hours and divided by 24, both toward zero. -/
def daysBetweenPoints (start stop : Int) : Int :=
  ((wrap64 (stop - start)).tdiv 3600000000000).tdiv 24

/-- Source function `DateUtils::daysBetween` on two date strings: `startDate` is parsed
first, then `endDate`. -/
def daysBetween (lib : CLibrary) (calls : List Tm) (startDate endDate : String) :
    Int × List Tm :=
  let start := parseDate lib calls startDate
  let stop := parseDate lib start.2 endDate
  match start.1, stop.1 with
  | some v1, some v2 => (daysBetweenPoints v1 v2, stop.2)
  | _, _ => (0, stop.2)

/-- Source function `DateUtils::addDays`: `24 * days` is an `int` product, the hours are
converted to the nanoseconds of the time point and added to it. -/
def addDays (lib : CLibrary) (calls : List Tm) (dateStr : String) (days : Int) :
    String × List Tm :=
  let timePoint := parseDate lib calls dateStr
  match timePoint.1 with
  | none => (dateStr, timePoint.2)
  | some v =>
      (formatDate lib (wrap64 (v + wrap64 (wrap32 (24 * days) * 3600000000000))), timePoint.2)

/-- Source function `DateUtils::subtractDays`. -/
def subtractDays (lib : CLibrary) (calls : List Tm) (dateStr : String) (days : Int) :
    String × List Tm :=
  addDays lib calls dateStr (wrap32 (-days))

end DateUtils

namespace Booking

/-- Source function `Booking::overlaps`: both comparisons are made, the one of the
check-in date with `stop` first. -/
def overlaps (lib : CLibrary) (calls : List Tm) (b : Booking) (start stop : String) :
    Bool × List Tm :=
  let compareStartEnd := DateUtils.compareDates lib calls b.checkInDate stop
  let compareEndStart := DateUtils.compareDates lib compareStartEnd.2 start b.checkOutDate
  (decide (compareStartEnd.1 < 0) && decide (compareEndStart.1 < 0), compareEndStart.2)

end Booking

/-! ### Server -/

/-- What `txn.commit()` does: the commit is done; or it raises and the server has rolled
the transaction back; or the connection is lost during the commit, it raises, and the
server has `applied` the transaction or not. -/
inductive CommitOutcome where
  | committed
  | failed (e : String)
  | inDoubt (e : String) (applied : Bool)
deriving DecidableEq

/-- What the server and the connection do to one repository call, outside the control of
the program: `BEGIN` raises (`beginFails`), `exec` or `exec_params` raises instead of
running the statement (`execFails`), the outcome of the commit, the reading of a date text
that is not a `YYYY-MM-DD` literal (`dateIn`), and the verdict of the definition of table
`bookings`, which is not among the sources, on a row to insert (`checkInsert`). -/
structure Server where
  beginFails : Option String
  execFails : Option String
  commit : CommitOutcome
  dateIn : String → Except String CivilDate
  checkInsert : Tables → BookingRow → Except String Unit

/-- A server on which no call raises and whose table accepts every row; it refuses the date
texts that are not `YYYY-MM-DD` literals. -/
def Server.accepting : Server :=
  ⟨none, none, .committed, fun _ => .error "invalid input syntax for type date",
    fun _ _ => .ok ()⟩

/-- The transaction object `pqxx::work txn(*connection)`: the tables when it was opened,
the tables as its statements have written them, and whether it is committed. -/
structure Work where
  opened : Tables
  current : Tables
  committed : Bool

namespace Work

/-- Construction of the transaction object on the tables of the store. -/
def start (t : Tables) : Work :=
  ⟨t, t, false⟩

/-- The call `txn.commit()`. -/
def commit (srv : Server) (txn : Work) : Except String Unit × Work :=
  match srv.commit with
  | .committed => (.ok (), { txn with committed := true })
  | .failed e => (.error e, txn)
  | .inDoubt e applied => (.error e, { txn with committed := applied })

/-- The tables of the store when the transaction object goes out of scope: the written ones
when it is committed; otherwise the transaction is rolled back, which restores the rows of
the tables but not the values drawn from a sequence. -/
def close (txn : Work) : Tables :=
  if txn.committed then txn.current
  else { txn.opened with bookingSeq := txn.current.bookingSeq }

end Work

namespace DatabaseManager

/-- Source function `DatabaseManager::executeTransaction`: the connection test, the
transaction object, `func(txn)` and `txn.commit()` inside `try`, the handler that raises
the exception again, and the end of the scope of `txn`. The function `func` is run on the
tables as the transaction sees them and returns its result, or the exception it raised,
together with the tables as its statements had written them by then. -/
def executeTransaction {α : Type} (srv : Server) (db : HotelManagement.DatabaseManager)
    (func : Tables → Except String α × Tables) :
    Except String α × HotelManagement.DatabaseManager :=
  match db.connection with
  | none => (.error "Database not connected", db)
  | some t =>
      match srv.beginFails with
      | some e => (.error e, db)
      | none =>
          match func (Work.start t).current with
          | (.ok result, written) =>
              match Work.commit srv { Work.start t with current := written } with
              | (.ok _, txn) => (.ok result, ⟨some txn.close⟩)
              | (.error e, txn) => (.error e, ⟨some txn.close⟩)
          | (.error e, written) =>
              (.error e, ⟨some (Work.close { Work.start t with current := written })⟩)

end DatabaseManager

/-- The call `txn.exec` or `txn.exec_params`: it raises what the server raises, and
otherwise runs the statement on the tables. -/
def exec {α : Type} (srv : Server) (t : Tables)
    (statement : Tables → Except String α × Tables) : Except String α × Tables :=
  match srv.execFails with
  | some e => (.error e, t)
  | none => statement t

/-- Conversion of a text parameter to the `date` type by the server: a `YYYY-MM-DD` text is
read as the date of the Gregorian calendar it writes, and any other text as the server
reads it. -/
def sqlDate (srv : Server) (s : String) : Except String CivilDate :=
  if HotelManagement.DateUtils.matchesDateRegex s then HotelManagement.sqlDate s
  else srv.dateIn s

/-- The column value is read by `as<int>()` without a conversion error: it is a 32-bit
value, from -2147483648 to 2147483647. -/
def asInt (n : Int) : Bool :=
  match n with
  | .ofNat k => Nat.ble k 2147483647
  | .negSucc k => Nat.ble k 2147483647

namespace BookingRepository

/-- Source function `BookingRepository::rowToBooking`; `as<int>()` raises on a value that
is not an `int`. -/
def rowToBooking (row : BookingRow) : Except String Booking :=
  if asInt row.id && asInt row.guest_id && asInt row.room_id && asInt row.num_adults &&
      asInt row.num_children then
    .ok (HotelManagement.BookingRepository.rowToBooking row)
  else .error "conversion error"

/-- The loop of `findAll` and `findByStatus` over the rows of the result, which stops at
the first conversion that raises. -/
def rowsToBookings : List BookingRow → Except String (List Booking)
  | [] => .ok []
  | row :: rest =>
      match rowToBooking row with
      | .error e => .error e
      | .ok booking =>
          match rowsToBookings rest with
          | .error e => .error e
          | .ok bookings => .ok (booking :: bookings)

/-- Source function `BookingRepository::findById`. -/
def findById (srv : Server) (db : HotelManagement.DatabaseManager) (id : Int) :
    Option Booking :=
  match db.executeReadTransaction (fun t =>
      match srv.execFails with
      | some e => .error e
      | none =>
          match t.bookings.filter fun b => b.id == id with
          | [] => .ok none
          | row :: _ => (rowToBooking row).map some) with
  | .ok r => r
  | .error _ => none

/-- Source function `BookingRepository::findAll`. -/
def findAll (srv : Server) (db : HotelManagement.DatabaseManager) : List Booking :=
  match db.executeReadTransaction (fun t =>
      match srv.execFails with
      | some e => .error e
      | none =>
          rowsToBookings (t.bookings.insertionSort fun a b =>
            ¬ a.check_in_date.before b.check_in_date)) with
  | .ok r => r
  | .error _ => []

/-- Source function `BookingRepository::findByStatus`. -/
def findByStatus (srv : Server) (db : HotelManagement.DatabaseManager)
    (status : BookingStatus) : List Booking :=
  let statusStr := HotelManagement.Booking.statusToString status
  match db.executeReadTransaction (fun t =>
      match srv.execFails with
      | some e => .error e
      | none => rowsToBookings (t.bookings.filter fun b => b.status == statusStr)) with
  | .ok r => r
  | .error _ => []

/-- The `INSERT ... RETURNING id` statement of `BookingRepository::create` on the server:
the two date texts are converted for their `date` columns, an id is drawn from the
sequence, and the row is appended when the definition of the table accepts it. -/
def insertStatement (srv : Server) (stamp : String) (booking : Booking) (t : Tables) :
    Except String Int × Tables :=
  match sqlDate srv booking.checkInDate, sqlDate srv booking.checkOutDate with
  | .ok checkIn, .ok checkOut =>
      let newId : Int := (t.bookingSeq : Int) + 1
      let row := HotelManagement.BookingRepository.insertedRow stamp newId checkIn checkOut
        booking
      match srv.checkInsert t row with
      | .ok _ =>
          (.ok newId, { t with bookings := t.bookings ++ [row], bookingSeq := t.bookingSeq + 1 })
      | .error e => (.error e, { t with bookingSeq := t.bookingSeq + 1 })
  | .error e, _ => (.error e, t)
  | .ok _, .error e => (.error e, t)

/-- Source function `BookingRepository::create`. -/
def create (srv : Server) (stamp : String) (db : HotelManagement.DatabaseManager)
    (booking : Booking) : Int × HotelManagement.DatabaseManager :=
  match DatabaseManager.executeTransaction srv db (fun t =>
      match exec srv t (insertStatement srv stamp booking) with
      | (.ok newId, written) =>
          if asInt newId then (.ok newId, written) else (.error "conversion error", written)
      | (.error e, written) => (.error e, written)) with
  | (.ok newId, db2) => (newId, db2)
  | (.error _, db2) => (-1, db2)

/-- The `UPDATE bookings SET status = ..., <column> = $1 WHERE id = $2` statement of
`checkIn` and `checkOut`: it rewrites the rows with that id by `assign` and returns
`affected_rows() > 0`. -/
def updateStatement (assign : BookingRow → BookingRow) (bookingId : Int) (t : Tables) :
    Except String Bool × Tables :=
  (.ok (decide ((t.bookings.filter fun b => b.id == bookingId).length > 0)),
    { t with bookings := t.bookings.map fun b => if b.id = bookingId then assign b else b })

/-- Source function `BookingRepository::checkIn`; `clock` is the reading of the system
clock. -/
def checkIn (srv : Server) (utcOffset clock : Int) (db : HotelManagement.DatabaseManager)
    (bookingId : Int) : Bool × HotelManagement.DatabaseManager :=
  let now := HotelManagement.DateUtils.getCurrentDateTime utcOffset clock
  match DatabaseManager.executeTransaction srv db (fun t =>
      exec srv t (updateStatement
        (fun b => { b with status := "checked_in", actual_check_in := some now })
        bookingId)) with
  | (.ok r, db2) => (r, db2)
  | (.error _, db2) => (false, db2)

/-- Source function `BookingRepository::checkOut`; `clock` is the reading of the system
clock. -/
def checkOut (srv : Server) (utcOffset clock : Int) (db : HotelManagement.DatabaseManager)
    (bookingId : Int) : Bool × HotelManagement.DatabaseManager :=
  let now := HotelManagement.DateUtils.getCurrentDateTime utcOffset clock
  match DatabaseManager.executeTransaction srv db (fun t =>
      exec srv t (updateStatement
        (fun b => { b with status := "checked_out", actual_check_out := some now })
        bookingId)) with
  | (.ok r, db2) => (r, db2)
  | (.error _, db2) => (false, db2)

end BookingRepository

/-! ### Recorded runs

The answers of `mktime` of glibc 2.36 with the zone data 2023c, for a `tm` that holds the
date, midnight and `tm_isdst = 0` (what `std::get_time` leaves in a zeroed `tm`). In
`Pacific/Apia` the local date 2011-12-30 was skipped and summer time was in force; in
`Asia/Kathmandu`, which never had summer time, the offset went from +05:30 to +05:45 at the
start of 1986. -/

/-- One process in `Pacific/Apia`: `mktime` on 2011-12-31, 2012-01-01, 2011-12-25 and
2012-01-05, in this order. The runs recorded for this zone do not call `localtime_r`,
which is given the offset +14:00. -/
def apiaTurnOfYear : CLibrary :=
  CLibrary.recorded [1325329200, 1325329200, 1324810800, 1325674800]
    (HotelManagement.DateUtils.timePointToTm 50400)

/-- One process in `Pacific/Apia`: `mktime` on 2011-12-30, 2011-12-29, 2011-12-29 and
2011-12-30, in this order. -/
def apiaSkippedDay : CLibrary :=
  CLibrary.recorded [1325239200, 1325156400, 1325156400, 1325152800]
    (HotelManagement.DateUtils.timePointToTm 50400)

/-- One process in `Pacific/Apia`: `mktime` on 2011-12-20, 2012-01-05, 2011-12-30,
2011-12-29 and then on 2011-12-30, 2011-12-29, 2011-12-20, 2012-01-05. -/
def apiaTwoStays : CLibrary :=
  CLibrary.recorded [1324378800, 1325674800, 1325239200, 1325156400,
      1325152800, 1325156400, 1324378800, 1325674800]
    (HotelManagement.DateUtils.timePointToTm 50400)

/-- One process in `Pacific/Apia`: `mktime` on 2011-12-30, 2011-12-28, 2011-12-28 and
2011-12-30, in this order. -/
def apiaTwoDays : CLibrary :=
  CLibrary.recorded [1325239200, 1325070000, 1325070000, 1325152800]
    (HotelManagement.DateUtils.timePointToTm 50400)

/-- One process in `Asia/Kathmandu`: `mktime` on 1985-12-31 and then on 1986-01-01, where
it returns its error value; `localtime_r` is the conversion of the offset +05:30, which was
in force from 1920 to the end of 1985. -/
def kathmanduNewYear : CLibrary :=
  CLibrary.recorded [504815400, -1] (HotelManagement.DateUtils.timePointToTm 19800)

/-- One process in `Asia/Kathmandu`: `mktime` on 1986-01-01 twice, where it returns its
error value, and then on 1970-01-02; `localtime_r` as in `kathmanduNewYear`. -/
def kathmanduFirstDay : CLibrary :=
  CLibrary.recorded [-1, -1, 66600] (HotelManagement.DateUtils.timePointToTm 19800)

end Env


/-! ## Calendar lemmas -/

namespace DateUtils

theorem tmod_eq_zero_iff_emod (y n : Int) : y.tmod n = 0 ↔ y % n = 0 := by
  rw [← Int.dvd_iff_tmod_eq_zero, Int.dvd_iff_emod_eq_zero]

theorem isLeapYear_iff (y : Int) :
    isLeapYear y = true ↔ (y % 4 = 0 ∧ y % 100 ≠ 0) ∨ y % 400 = 0 := by
  simp [isLeapYear, tmod_eq_zero_iff_emod]

theorem daysBeforeYear_succ (y : Int) :
    daysBeforeYear (y + 1) = daysBeforeYear y + 365 + (if isLeapYear y = true then 1 else 0) := by
  have h := isLeapYear_iff y
  unfold daysBeforeYear
  by_cases hl : isLeapYear y = true
  · rw [if_pos hl]
    have := h.mp hl
    omega
  · rw [if_neg hl]
    have : ¬ ((y % 4 = 0 ∧ y % 100 ≠ 0) ∨ y % 400 = 0) := fun c => hl (h.mpr c)
    omega

theorem daysBeforeYear_mono (y z : Int) (h : y ≤ z) : daysBeforeYear y ≤ daysBeforeYear z := by
  unfold daysBeforeYear
  omega

/-- Length and first day of each month, in a form linear in the leap-day flag. -/
theorem month_table (y m : Int) (hm : 1 ≤ m ∧ m ≤ 12) (l : Int)
    (hl : l = if isLeapYear y = true then 1 else 0) :
    (m = 1 ∧ daysBeforeMonth y m = 0 ∧ getDaysInMonth y m = 31) ∨
    (m = 2 ∧ daysBeforeMonth y m = 31 ∧ getDaysInMonth y m = 28 + l) ∨
    (m = 3 ∧ daysBeforeMonth y m = 59 + l ∧ getDaysInMonth y m = 31) ∨
    (m = 4 ∧ daysBeforeMonth y m = 90 + l ∧ getDaysInMonth y m = 30) ∨
    (m = 5 ∧ daysBeforeMonth y m = 120 + l ∧ getDaysInMonth y m = 31) ∨
    (m = 6 ∧ daysBeforeMonth y m = 151 + l ∧ getDaysInMonth y m = 30) ∨
    (m = 7 ∧ daysBeforeMonth y m = 181 + l ∧ getDaysInMonth y m = 31) ∨
    (m = 8 ∧ daysBeforeMonth y m = 212 + l ∧ getDaysInMonth y m = 31) ∨
    (m = 9 ∧ daysBeforeMonth y m = 243 + l ∧ getDaysInMonth y m = 30) ∨
    (m = 10 ∧ daysBeforeMonth y m = 273 + l ∧ getDaysInMonth y m = 31) ∨
    (m = 11 ∧ daysBeforeMonth y m = 304 + l ∧ getDaysInMonth y m = 30) ∨
    (m = 12 ∧ daysBeforeMonth y m = 334 + l ∧ getDaysInMonth y m = 31) := by
  obtain ⟨hm1, hm12⟩ := hm
  subst hl
  by_cases h : isLeapYear y = true <;>
  interval_cases m <;>
  simp [getDaysInMonth, daysBeforeMonth, daysInMonth, monthStart, h]

/-- The day of the year (from 0) of a valid month and day is below the length of the year,
and it orders the dates of one year chronologically. -/
theorem ordinal_facts (y m d m2 d2 : Int)
    (hm : 1 ≤ m ∧ m ≤ 12) (hd : 1 ≤ d ∧ d ≤ getDaysInMonth y m)
    (hm2 : 1 ≤ m2 ∧ m2 ≤ 12) (hd2 : 1 ≤ d2 ∧ d2 ≤ getDaysInMonth y m2) :
    0 ≤ daysBeforeMonth y m + (d - 1) ∧
    daysBeforeMonth y m + (d - 1) < 365 + (if isLeapYear y = true then 1 else 0) ∧
    (m < m2 → daysBeforeMonth y m + (d - 1) < daysBeforeMonth y m2 + (d2 - 1)) := by
  have t1 := month_table y m hm _ rfl
  have t2 := month_table y m2 hm2 _ rfl
  have hl : 0 ≤ (if isLeapYear y = true then (1 : Int) else 0) ∧
      (if isLeapYear y = true then (1 : Int) else 0) ≤ 1 := by split <;> omega
  generalize (if isLeapYear y = true then (1 : Int) else 0) = l at t1 t2 hl ⊢
  generalize daysBeforeMonth y m = a at *
  generalize daysBeforeMonth y m2 = a2 at *
  generalize getDaysInMonth y m = b at *
  generalize getDaysInMonth y m2 = b2 at *
  omega

/-- The day number is strictly monotone for the chronological order of dates. -/
theorem daysFromCivil_lt_iff (x y : CivilDate) (hx : wellFormed x) (hy : wellFormed y) :
    daysFromCivil x.year x.month x.day < daysFromCivil y.year y.month y.day ↔ x.before y := by
  obtain ⟨xy, xm, xd⟩ := x
  obtain ⟨yy, ym, yd⟩ := y
  simp only [wellFormed] at hx hy
  simp only [CivilDate.before, daysFromCivil]
  have fx := ordinal_facts xy xm xd xm xd ⟨hx.1, hx.2.1⟩ ⟨hx.2.2.1, hx.2.2.2⟩
    ⟨hx.1, hx.2.1⟩ ⟨hx.2.2.1, hx.2.2.2⟩
  have fy := ordinal_facts yy ym yd ym yd ⟨hy.1, hy.2.1⟩ ⟨hy.2.2.1, hy.2.2.2⟩
    ⟨hy.1, hy.2.1⟩ ⟨hy.2.2.1, hy.2.2.2⟩
  have sx := daysBeforeYear_succ xy
  have sy := daysBeforeYear_succ yy
  rcases lt_trichotomy xy yy with h | h | h
  · have := daysBeforeYear_mono (xy + 1) yy (by omega)
    omega
  · subst h
    have fxy := ordinal_facts xy xm xd ym yd ⟨hx.1, hx.2.1⟩ ⟨hx.2.2.1, hx.2.2.2⟩
      ⟨hy.1, hy.2.1⟩ ⟨hy.2.2.1, hy.2.2.2⟩
    have fyx := ordinal_facts xy ym yd xm xd ⟨hy.1, hy.2.1⟩ ⟨hy.2.2.1, hy.2.2.2⟩
      ⟨hx.1, hx.2.1⟩ ⟨hx.2.2.1, hx.2.2.2⟩
    rcases lt_trichotomy xm ym with g | g | g
    · have := fxy.2.2 g
      omega
    · subst g
      omega
    · have := fyx.2.2 g
      omega
  · have := daysBeforeYear_mono (yy + 1) xy (by omega)
    omega

/-- A valid date string denotes a well-formed calendar date, and `parseDate` returns local
midnight of that date. -/
theorem parseDate_of_calendarDate (utcOffset : Int) (s : String) (c : CivilDate)
    (h : calendarDate s = some c) :
    wellFormed c ∧ 1900 ≤ c.year ∧ c.year ≤ 2100 ∧
    parseDate utcOffset s = some (daysFromCivil c.year c.month c.day * 86400 - utcOffset) := by
  unfold calendarDate at h
  by_cases hv : isValidDate s = true
  · rw [if_pos hv] at h
    cases hg : getTimeDate s with
    | none => rw [hg] at h; simp at h
    | some tm =>
      rw [hg] at h
      simp only [Option.map_some', Option.some.injEq] at h
      subst h
      have hz : tm.tm_hour = 0 ∧ tm.tm_min = 0 ∧ tm.tm_sec = 0 := by
        unfold getTimeDate at hg
        split at hg
        · simp only at hg
          split at hg
          · simp at hg
          · simp only [Option.some.injEq] at hg
            subst hg
            simp
        · simp at hg
      have hv2 := hv
      unfold isValidDate at hv2
      rw [hg] at hv2
      simp only [wellFormed, parseDate, hv, hg, tmToTimePoint, mktime, hz.1, hz.2.1, hz.2.2]
      split at hv2
      · simp at hv2
      · simp only at hv2
        split at hv2
        · simp at hv2
        · split at hv2
          · simp at hv2
          · split at hv2
            · simp at hv2
            · refine ⟨by omega, by omega, by omega, ?_⟩
              simp
  · rw [if_neg hv] at h
    simp at h

theorem parseDate_none_of_calendarDate (utcOffset : Int) (s : String)
    (h : calendarDate s = none) : parseDate utcOffset s = none := by
  unfold calendarDate at h
  unfold parseDate
  by_cases hv : isValidDate s = true
  · rw [if_pos hv] at h
    cases hg : getTimeDate s with
    | none => simp [hv]
    | some tm => rw [hg] at h; simp at h
  · simp [hv]

/-- The comparison is negative exactly when both strings are valid dates and the first is
chronologically before the second. -/
theorem compareDates_neg_iff (utcOffset : Int) (a b : String) :
    compareDates utcOffset a b < 0 ↔ dateBefore a b := by
  unfold compareDates dateBefore
  cases ha : calendarDate a with
  | none => simp [parseDate_none_of_calendarDate utcOffset a ha]
  | some x =>
    cases hb : calendarDate b with
    | none =>
      rw [parseDate_none_of_calendarDate utcOffset b hb]
      cases parseDate utcOffset a <;> simp
    | some y =>
      obtain ⟨wx, _, _, px⟩ := parseDate_of_calendarDate utcOffset a x ha
      obtain ⟨wy, _, _, py⟩ := parseDate_of_calendarDate utcOffset b y hb
      rw [px, py]
      simp only
      rw [← daysFromCivil_lt_iff x y wx wy]
      split
      · constructor
        · intro _; omega
        · intro _; omega
      · split
        · constructor
          · intro h; omega
          · intro h; omega
        · constructor
          · intro h; omega
          · intro h; omega

theorem sqlDate_of_calendarDate (s : String) (c : CivilDate) (h : calendarDate s = some c) :
    sqlDate s = .ok c := by
  obtain ⟨w, hy, _, _⟩ := parseDate_of_calendarDate 0 s c h
  unfold calendarDate at h
  by_cases hv : isValidDate s = true
  · rw [if_pos hv] at h
    cases hg : getTimeDate s with
    | none => rw [hg] at h; simp at h
    | some tm =>
      rw [hg] at h
      simp only [Option.map_some', Option.some.injEq] at h
      have hr : matchesDateRegex s = true := by
        unfold isValidDate at hv
        by_contra hn
        simp [hn] at hv
      subst h
      have h1 : ¬ (tm.tm_year + 1900 < 1 ∨
          tm.tm_mday > getDaysInMonth (tm.tm_year + 1900) (tm.tm_mon + 1)) := by
        have := w.2.2.2
        simp only at this hy
        omega
      unfold sqlDate
      simp only [hr, hg]
      simp only [if_neg h1]
      simp
  · rw [if_neg hv] at h
    simp at h

end DateUtils

/-! ## Order of calendar dates and the overlap predicate -/

theorem CivilDate.before_asymm (a b : CivilDate) (h : a.before b) : ¬ b.before a := by
  unfold CivilDate.before at *
  omega

theorem CivilDate.before_trans (a b c : CivilDate) (h1 : a.before b) (h2 : b.before c) :
    a.before c := by
  unfold CivilDate.before at *
  omega

theorem CivilDate.eq_of_not_before (a b : CivilDate) (h1 : ¬ a.before b) (h2 : ¬ b.before a) :
    a = b := by
  obtain ⟨ay, am, ad⟩ := a
  obtain ⟨bY, bm, bd⟩ := b
  simp only [CivilDate.before] at h1 h2
  simp only [CivilDate.mk.injEq]
  omega

/-- On two periods that both run forward, `OVERLAPS` is the half-open interval test. -/
theorem sqlOverlaps_iff (s1 e1 s2 e2 : CivilDate) (h1 : s1.before e1) (h2 : s2.before e2) :
    sqlOverlaps s1 e1 s2 e2 = true ↔ s1.before e2 ∧ s2.before e1 := by
  have n1 := CivilDate.before_asymm s1 e1 h1
  have n2 := CivilDate.before_asymm s2 e2 h2
  simp only [sqlOverlaps, if_neg n1, if_neg n2]
  by_cases c1 : s2.before s1
  · have := CivilDate.before_trans s2 s1 e1 c1 h1
    simp [c1, this]
  · by_cases c2 : s1.before s2
    · have := CivilDate.before_trans s1 s2 e2 c2 h2
      simp [c1, c2, this]
    · have e := CivilDate.eq_of_not_before s1 s2 c2 c1
      subst e
      simp [c1, h1, h2]

theorem statusBlocks_iff (status : String) :
    statusBlocks status = true ↔
      Booking.stringToStatus status ≠ .Cancelled ∧ Booking.stringToStatus status ≠ .CheckedOut := by
  unfold statusBlocks Booking.stringToStatus
  split_ifs with h1 h2 h3 h4 h5 <;> simp_all

/-! ## Claims -/

/-- C2: same-day turnover is never a conflict. For a booking with valid dates and
check-in before check-out and a valid range with start before end, `overlaps` is false when
the range starts on the check-out date or ends on the check-in date; the booking
2026-03-01 to 2026-03-05 does not overlap 2026-03-05 to 2026-03-06 and does overlap
2026-03-04 to 2026-03-10. -/
theorem overlaps_same_day_turnover :
    (∀ (utcOffset : Int) (b : Booking) (start stop : String),
      DateUtils.dateBefore b.checkInDate b.checkOutDate → DateUtils.dateBefore start stop →
      (start = b.checkOutDate ∨ stop = b.checkInDate) →
      b.overlaps utcOffset start stop = false) ∧
    (∀ utcOffset : Int,
      (sampleBooking "2026-03-01" "2026-03-05" .Confirmed).overlaps utcOffset
        "2026-03-05" "2026-03-06" = false ∧
      (sampleBooking "2026-03-01" "2026-03-05" .Confirmed).overlaps utcOffset
        "2026-03-04" "2026-03-10" = true) := by
  have key : ∀ (utcOffset : Int) (b : Booking) (start stop : String),
      b.overlaps utcOffset start stop = true ↔
        DateUtils.dateBefore b.checkInDate stop ∧ DateUtils.dateBefore start b.checkOutDate := by
    intro utcOffset b start stop
    unfold Booking.overlaps
    simp only [Bool.and_eq_true, decide_eq_true_eq, DateUtils.compareDates_neg_iff]
  have irrefl : ∀ a : String, ¬ DateUtils.dateBefore a a := by
    intro a h
    unfold DateUtils.dateBefore at h
    split at h
    · next x y hx hy =>
        rw [hx] at hy
        cases hy
        exact CivilDate.before_asymm x x h h
    · exact h
  refine ⟨?_, ?_⟩
  · intro utcOffset b start stop _ _ hturn
    rw [Bool.eq_false_iff]
    intro hov
    have := (key utcOffset b start stop).mp hov
    rcases hturn with h | h
    · subst h
      exact irrefl _ this.2
    · subst h
      exact irrefl _ this.1
  · intro utcOffset
    constructor
    · rw [Bool.eq_false_iff]
      intro hov
      have := (key _ _ _ _).mp hov
      revert this
      decide
    · rw [key]
      decide


/-- C2, instance: the stay 2026-03-01 to 2026-03-05 and the range that starts on its
check-out date, 2026-03-05 to 2026-03-06. -/
theorem overlaps_same_day_turnover_witness :
    (sampleBooking "2026-03-01" "2026-03-05" .Confirmed).overlaps 0 "2026-03-05" "2026-03-06"
      = false :=
  overlaps_same_day_turnover.1 0 (sampleBooking "2026-03-01" "2026-03-05" .Confirmed)
    "2026-03-05" "2026-03-06" (by decide) (by decide) (Or.inl rfl)

/-- The availability query on a connected store, for valid dates: no row of the room with
a blocking status satisfies `OVERLAPS`. -/
theorem isRoomAvailable_eq (t : Tables) (roomId : Int) (startDate endDate : String)
    (s e : CivilDate)
    (hs : DateUtils.calendarDate startDate = some s)
    (he : DateUtils.calendarDate endDate = some e) :
    RoomRepository.isRoomAvailable ⟨some t⟩ roomId startDate endDate = true ↔
      ∀ b ∈ t.bookings, b.room_id = roomId → statusBlocks b.status = true →
        sqlOverlaps b.check_in_date b.check_out_date s e = false := by
  unfold RoomRepository.isRoomAvailable DatabaseManager.executeReadTransaction
  simp only [DateUtils.sqlDate_of_calendarDate startDate s hs,
    DateUtils.sqlDate_of_calendarDate endDate e he]
  simp [bind, Except.bind, pure, Except.pure, List.filter_eq_nil_iff]

/-- The room query on a connected store, for valid dates. -/
theorem getAvailableRoomIds_eq (t : Tables) (startDate endDate : String) (s e : CivilDate)
    (hs : DateUtils.calendarDate startDate = some s)
    (he : DateUtils.calendarDate endDate = some e) (id : Int) :
    id ∈ RoomRepository.getAvailableRoomIds ⟨some t⟩ startDate endDate ↔
      ∃ r ∈ t.rooms, r.id = id ∧ r.status = "available" ∧
        ∀ b ∈ t.bookings, b.room_id = r.id → statusBlocks b.status = true →
          sqlOverlaps b.check_in_date b.check_out_date s e = false := by
  unfold RoomRepository.getAvailableRoomIds DatabaseManager.executeReadTransaction
  simp only [DateUtils.sqlDate_of_calendarDate startDate s hs,
    DateUtils.sqlDate_of_calendarDate endDate e he]
  simp only [bind, Except.bind, pure, Except.pure, List.mem_map, List.mem_filter,
    Bool.and_eq_true, Bool.not_eq_true', List.any_eq_false, beq_iff_eq, not_and,
    Bool.not_eq_true]
  constructor
  · rintro ⟨r, ⟨hr, hst, hb⟩, hid⟩
    exact ⟨r, hr, hid, hst, fun b hb1 hb2 hb3 => hb b hb1 ⟨hb2, hb3⟩⟩
  · rintro ⟨r, hr, hid, hst, hb⟩
    exact ⟨r, ⟨hr, hst, fun b hb1 hb2 => hb b hb1 hb2.1 hb2.2⟩, hid⟩

theorem checkIn_connected (utcOffset clock : Int) (t : Tables) (bookingId : Int) :
    BookingRepository.checkIn utcOffset clock ⟨some t⟩ bookingId =
      (decide ((t.bookings.filter fun b => b.id == bookingId).length > 0),
        ⟨some { t with bookings := t.bookings.map fun b =>
          if b.id = bookingId then
            { b with status := "checked_in"
                     actual_check_in := some (DateUtils.getCurrentDateTime utcOffset clock) }
          else b }⟩) := rfl

theorem checkOut_connected (utcOffset clock : Int) (t : Tables) (bookingId : Int) :
    BookingRepository.checkOut utcOffset clock ⟨some t⟩ bookingId =
      (decide ((t.bookings.filter fun b => b.id == bookingId).length > 0),
        ⟨some { t with bookings := t.bookings.map fun b =>
          if b.id = bookingId then
            { b with status := "checked_out"
                     actual_check_out := some (DateUtils.getCurrentDateTime utcOffset clock) }
          else b }⟩) := rfl

theorem no_row_affected_iff (l : List BookingRow) (bookingId : Int) :
    decide ((l.filter fun b => b.id == bookingId).length > 0) = false ↔
      ∀ b ∈ l, b.id ≠ bookingId := by
  simp [List.filter_eq_nil_iff]

theorem map_update_unchanged (l : List BookingRow) (bookingId : Int) (f : BookingRow → BookingRow)
    (h : ∀ b ∈ l, b.id ≠ bookingId) :
    (l.map fun b => if b.id = bookingId then f b else b) = l := by
  have : (l.map fun b => if b.id = bookingId then f b else b) = l.map id := by
    apply List.map_congr_left
    intro b hb
    simp [h b hb]
  rw [this, List.map_id]

/-- The current timestamp is never the empty text. -/
theorem getCurrentDateTime_ne_empty (utcOffset clock : Int) :
    DateUtils.getCurrentDateTime utcOffset clock ≠ "" := by
  intro h
  have := congrArg String.length h
  simp only [DateUtils.getCurrentDateTime, DateUtils.formatDateTime, String.length_append] at this
  have one : " ".length = 1 := by decide
  have zero : "".length = 0 := by decide
  omega

theorem row_affected_of_mem (l : List BookingRow) (bookingId : Int) (r : BookingRow)
    (hr : r ∈ l) (hid : r.id = bookingId) :
    decide ((l.filter fun b => b.id == bookingId).length > 0) = true := by
  rw [decide_eq_true_eq]
  apply List.length_pos_of_mem (a := r)
  simp [List.mem_filter, hr, hid]

/-- C6, as stated, fails: `checkIn` on a Pending booking returns true, and afterwards the
stored booking has status CheckedIn and the current timestamp as actual check-in time. -/
theorem checkIn_pending_succeeds :
    Booking.stringToStatus (sampleRow 1 1 ⟨2026, 3, 1⟩ ⟨2026, 3, 5⟩ "pending").status = .Pending ∧
    (BookingRepository.checkIn 0 1772366400
      ⟨some ⟨[], [sampleRow 1 1 ⟨2026, 3, 1⟩ ⟨2026, 3, 5⟩ "pending"], 1⟩⟩ 1).1 = true ∧
    (storedBookings (BookingRepository.checkIn 0 1772366400
        ⟨some ⟨[], [sampleRow 1 1 ⟨2026, 3, 1⟩ ⟨2026, 3, 5⟩ "pending"], 1⟩⟩ 1).2).map
      (fun b => ((BookingRepository.rowToBooking b).status,
        (BookingRepository.rowToBooking b).actualCheckIn)) =
      [(BookingStatus.CheckedIn, "2026-03-01 12:00:00")] := by
  decide

/-- C6, amended: `checkIn(id)` and `checkOut(id)` do not look at the status. Each returns
false exactly when no stored booking has that id (in particular when the store is not
connected), and a call that returns false leaves the whole store unchanged. On a connected
store holding a booking with that id, whatever its status, `checkIn` returns true and
afterwards the booking has status CheckedIn and actual check-in time equal to the current
timestamp, and `checkOut` returns true and afterwards the booking has status CheckedOut and
actual check-out time equal to the current timestamp; the other columns of the booking, the
bookings with another id, the rooms and the sequence are unchanged. -/
theorem checkIn_checkOut_ignore_status (utcOffset clock : Int) (db : DatabaseManager)
    (bookingId : Int) :
    ((BookingRepository.checkIn utcOffset clock db bookingId).1 = false ↔
        ∀ b ∈ storedBookings db, b.id ≠ bookingId) ∧
    ((BookingRepository.checkIn utcOffset clock db bookingId).1 = false →
        (BookingRepository.checkIn utcOffset clock db bookingId).2 = db) ∧
    ((BookingRepository.checkOut utcOffset clock db bookingId).1 = false ↔
        ∀ b ∈ storedBookings db, b.id ≠ bookingId) ∧
    ((BookingRepository.checkOut utcOffset clock db bookingId).1 = false →
        (BookingRepository.checkOut utcOffset clock db bookingId).2 = db) ∧
    (∀ (t : Tables) (i : Nat) (r : BookingRow), db.connection = some t →
      t.bookings[i]? = some r → r.id = bookingId →
      (BookingRepository.checkIn utcOffset clock db bookingId).1 = true ∧
      ∃ t2 r2, (BookingRepository.checkIn utcOffset clock db bookingId).2 = ⟨some t2⟩ ∧
        t2.rooms = t.rooms ∧ t2.bookingSeq = t.bookingSeq ∧
        t2.bookings.length = t.bookings.length ∧
        t2.bookings[i]? = some r2 ∧
        r2 = { r with status := "checked_in"
                      actual_check_in := some (DateUtils.getCurrentDateTime utcOffset clock) } ∧
        BookingRepository.rowToBooking r2 =
          { BookingRepository.rowToBooking r with
              status := .CheckedIn
              actualCheckIn := DateUtils.getCurrentDateTime utcOffset clock } ∧
        ∀ (j : Nat) (q : BookingRow), t.bookings[j]? = some q → q.id ≠ bookingId →
          t2.bookings[j]? = some q) ∧
    (∀ (t : Tables) (i : Nat) (r : BookingRow), db.connection = some t →
      t.bookings[i]? = some r → r.id = bookingId →
      (BookingRepository.checkOut utcOffset clock db bookingId).1 = true ∧
      ∃ t2 r2, (BookingRepository.checkOut utcOffset clock db bookingId).2 = ⟨some t2⟩ ∧
        t2.rooms = t.rooms ∧ t2.bookingSeq = t.bookingSeq ∧
        t2.bookings.length = t.bookings.length ∧
        t2.bookings[i]? = some r2 ∧
        r2 = { r with status := "checked_out"
                      actual_check_out := some (DateUtils.getCurrentDateTime utcOffset clock) } ∧
        BookingRepository.rowToBooking r2 =
          { BookingRepository.rowToBooking r with
              status := .CheckedOut
              actualCheckOut := DateUtils.getCurrentDateTime utcOffset clock } ∧
        ∀ (j : Nat) (q : BookingRow), t.bookings[j]? = some q → q.id ≠ bookingId →
          t2.bookings[j]? = some q) := by
  obtain ⟨c⟩ := db
  cases c with
  | none =>
    refine ⟨?_, ?_, ?_, ?_, ?_, ?_⟩
    · simp [storedBookings, BookingRepository.checkIn, DatabaseManager.executeTransaction]
    · intro _; rfl
    · simp [storedBookings, BookingRepository.checkOut, DatabaseManager.executeTransaction]
    · intro _; rfl
    · intro t i r ht; cases ht
    · intro t i r ht; cases ht
  | some t =>
    rw [checkIn_connected, checkOut_connected]
    simp only [storedBookings]
    refine ⟨no_row_affected_iff _ _, ?_, no_row_affected_iff _ _, ?_, ?_, ?_⟩
    · intro h
      rw [map_update_unchanged _ _ _ ((no_row_affected_iff _ _).mp h)]
    · intro h
      rw [map_update_unchanged _ _ _ ((no_row_affected_iff _ _).mp h)]
    · intro t1 i r ht hr hid
      simp only [Option.some.injEq] at ht
      subst ht
      have hmem := List.getElem?_mem hr
      refine ⟨row_affected_of_mem _ _ r hmem hid, _, _, rfl, rfl, rfl, ?_, ?_, rfl, ?_, ?_⟩
      · simp
      · simp [hr, hid]
      · rfl
      · intro j q hq hne
        simp [hq, hne]
    · intro t1 i r ht hr hid
      simp only [Option.some.injEq] at ht
      subst ht
      have hmem := List.getElem?_mem hr
      refine ⟨row_affected_of_mem _ _ r hmem hid, _, _, rfl, rfl, rfl, ?_, ?_, rfl, ?_, ?_⟩
      · simp
      · simp [hr, hid]
      · rfl
      · intro j q hq hne
        simp [hq, hne]

/-- C6, amended, instance: the store holds the Pending booking 1; checking in booking 7
fails and leaves the store unchanged, and checking in booking 1 returns true. -/
theorem checkIn_checkOut_ignore_status_witness :
    (BookingRepository.checkIn 0 1772366400
        ⟨some ⟨[], [sampleRow 1 1 ⟨2026, 3, 1⟩ ⟨2026, 3, 5⟩ "pending"], 1⟩⟩ 7).2 =
      ⟨some ⟨[], [sampleRow 1 1 ⟨2026, 3, 1⟩ ⟨2026, 3, 5⟩ "pending"], 1⟩⟩ ∧
    (BookingRepository.checkIn 0 1772366400
        ⟨some ⟨[], [sampleRow 1 1 ⟨2026, 3, 1⟩ ⟨2026, 3, 5⟩ "pending"], 1⟩⟩ 1).1 = true :=
  ⟨(checkIn_checkOut_ignore_status 0 1772366400
      ⟨some ⟨[], [sampleRow 1 1 ⟨2026, 3, 1⟩ ⟨2026, 3, 5⟩ "pending"], 1⟩⟩ 7).2.1 (by decide),
    ((checkIn_checkOut_ignore_status 0 1772366400
      ⟨some ⟨[], [sampleRow 1 1 ⟨2026, 3, 1⟩ ⟨2026, 3, 5⟩ "pending"], 1⟩⟩ 1).2.2.2.2.1
      ⟨[], [sampleRow 1 1 ⟨2026, 3, 1⟩ ⟨2026, 3, 5⟩ "pending"], 1⟩ 0
      (sampleRow 1 1 ⟨2026, 3, 1⟩ ⟨2026, 3, 5⟩ "pending") rfl rfl rfl).1⟩

/-- The two outcomes of `create`: failure with the store untouched, or one row appended. -/
theorem create_cases (stamp : String) (db : DatabaseManager) (booking : Booking) :
    BookingRepository.create stamp db booking = (-1, db) ∨
    ∃ t ci co, db.connection = some t ∧ sqlDate booking.checkInDate = .ok ci ∧
      sqlDate booking.checkOutDate = .ok co ∧
      BookingRepository.create stamp db booking =
        (((t.bookingSeq + 1 : Nat) : Int),
          ⟨some { t with
            bookings := t.bookings ++
              [BookingRepository.insertedRow stamp ((t.bookingSeq + 1 : Nat) : Int) ci co booking]
            bookingSeq := t.bookingSeq + 1 }⟩) := by
  obtain ⟨c⟩ := db
  cases c with
  | none => left; rfl
  | some t =>
    cases h1 : sqlDate booking.checkInDate with
    | error e =>
      left
      simp [BookingRepository.create, DatabaseManager.executeTransaction, execStatement, h1, bind, Except.bind]
    | ok ci =>
      cases h2 : sqlDate booking.checkOutDate with
      | error e =>
        left
        simp [BookingRepository.create, DatabaseManager.executeTransaction, execStatement, h1, h2, bind,
          Except.bind]
      | ok co =>
        right
        refine ⟨t, ci, co, rfl, rfl, rfl, ?_⟩
        simp [BookingRepository.create, DatabaseManager.executeTransaction, execStatement, h1, h2, bind,
          Except.bind, pure, Except.pure]

theorem stringToStatus_statusToString (s : BookingStatus) :
    Booking.stringToStatus (Booking.statusToString s) = s := by
  cases s <;> decide

/-- C8, as stated, fails: `checkIn` on a CheckedOut booking leaves it CheckedIn. -/
theorem checkIn_leaves_checked_out :
    (storedBookings
        ⟨some ⟨[], [{ sampleRow 1 1 ⟨2026, 3, 1⟩ ⟨2026, 3, 5⟩ "checked_out" with
            actual_check_in := some "2026-03-01 14:00:00"
            actual_check_out := some "2026-03-05 10:00:00" }], 1⟩⟩).map
      (fun b => (BookingRepository.rowToBooking b).status) = [BookingStatus.CheckedOut] ∧
    (storedBookings (BookingRepository.checkIn 0 1772798400
        ⟨some ⟨[], [{ sampleRow 1 1 ⟨2026, 3, 1⟩ ⟨2026, 3, 5⟩ "checked_out" with
            actual_check_in := some "2026-03-01 14:00:00"
            actual_check_out := some "2026-03-05 10:00:00" }], 1⟩⟩ 1).2).map
      (fun b => (BookingRepository.rowToBooking b).status) = [BookingStatus.CheckedIn] := by
  decide

/-- C8, amended: `create`, `update` and `deleteById` leave every stored booking as it is,
and `checkIn(id)` and `checkOut(id)` leave as it is every stored booking whose id is not
`id`; so a CheckedOut or Cancelled booking keeps its status under all of these. -/
theorem stored_booking_kept (db : DatabaseManager) (i : Nat) (r : BookingRow)
    (h : (storedBookings db)[i]? = some r) :
    (∀ (stamp : String) (b : Booking),
      (storedBookings (BookingRepository.create stamp db b).2)[i]? = some r) ∧
    (∀ b : Booking, (storedBookings (BookingRepository.update db b).2)[i]? = some r) ∧
    (∀ id : Int, (storedBookings (BookingRepository.deleteById db id).2)[i]? = some r) ∧
    (∀ (utcOffset clock id : Int), r.id ≠ id →
      (storedBookings (BookingRepository.checkIn utcOffset clock db id).2)[i]? = some r ∧
      (storedBookings (BookingRepository.checkOut utcOffset clock db id).2)[i]? = some r) := by
  refine ⟨?_, fun _ => h, fun _ => h, ?_⟩
  · intro stamp b
    rcases create_cases stamp db b with hc | ⟨t, ci, co, ht, _, _, hc⟩
    · rw [hc]; exact h
    · rw [hc]
      simp only [storedBookings, ht] at h ⊢
      have hi : i < t.bookings.length := (List.getElem?_eq_some.mp h).1
      rw [List.getElem?_append_left hi]
      exact h
  · intro utcOffset clock id hne
    obtain ⟨c⟩ := db
    cases c with
    | none => simp [storedBookings] at h
    | some t =>
      rw [checkIn_connected, checkOut_connected]
      simp only [storedBookings] at h ⊢
      simp [h, hne]

/-- C8, amended, instance: a Cancelled booking with id 1 is untouched by the creation of
another booking and by the check-in and check-out of booking 2. -/
theorem stored_booking_kept_witness :
    (storedBookings (BookingRepository.create ""
        ⟨some ⟨[], [sampleRow 1 1 ⟨2026, 3, 1⟩ ⟨2026, 3, 5⟩ "cancelled",
          sampleRow 2 1 ⟨2026, 3, 5⟩ ⟨2026, 3, 8⟩ "confirmed"], 2⟩⟩
        (sampleBooking "2026-03-08" "2026-03-09" .Pending)).2)[0]? =
      some (sampleRow 1 1 ⟨2026, 3, 1⟩ ⟨2026, 3, 5⟩ "cancelled") ∧
    (storedBookings (BookingRepository.checkIn 0 1772366400
        ⟨some ⟨[], [sampleRow 1 1 ⟨2026, 3, 1⟩ ⟨2026, 3, 5⟩ "cancelled",
          sampleRow 2 1 ⟨2026, 3, 5⟩ ⟨2026, 3, 8⟩ "confirmed"], 2⟩⟩ 2).2)[0]? =
      some (sampleRow 1 1 ⟨2026, 3, 1⟩ ⟨2026, 3, 5⟩ "cancelled") :=
  ⟨(stored_booking_kept
      ⟨some ⟨[], [sampleRow 1 1 ⟨2026, 3, 1⟩ ⟨2026, 3, 5⟩ "cancelled",
        sampleRow 2 1 ⟨2026, 3, 5⟩ ⟨2026, 3, 8⟩ "confirmed"], 2⟩⟩ 0
      (sampleRow 1 1 ⟨2026, 3, 1⟩ ⟨2026, 3, 5⟩ "cancelled") rfl).1 ""
      (sampleBooking "2026-03-08" "2026-03-09" .Pending),
    ((stored_booking_kept
      ⟨some ⟨[], [sampleRow 1 1 ⟨2026, 3, 1⟩ ⟨2026, 3, 5⟩ "cancelled",
        sampleRow 2 1 ⟨2026, 3, 5⟩ ⟨2026, 3, 8⟩ "confirmed"], 2⟩⟩ 0
      (sampleRow 1 1 ⟨2026, 3, 1⟩ ⟨2026, 3, 5⟩ "cancelled") rfl).2.2.2 0 1772366400 2
      (by decide)).1⟩

/-- C9, as stated, fails: the invariant holds on a store with one Confirmed booking, and
after `checkOut` on it the booking is CheckedOut with no actual check-in time. -/
theorem checkOut_breaks_timestamp_invariant :
    (∀ r ∈ storedBookings
        ⟨some ⟨[], [sampleRow 1 1 ⟨2026, 3, 1⟩ ⟨2026, 3, 5⟩ "confirmed"], 1⟩⟩,
      timestampInvariant (BookingRepository.rowToBooking r)) ∧
    ¬ (∀ r ∈ storedBookings (BookingRepository.checkOut 0 1772366400
        ⟨some ⟨[], [sampleRow 1 1 ⟨2026, 3, 1⟩ ⟨2026, 3, 5⟩ "confirmed"], 1⟩⟩ 1).2,
      timestampInvariant (BookingRepository.rowToBooking r)) := by
  decide

/-- C9, amended: on a store in which the timestamp invariant holds for every booking, it
still holds for every booking after `create` of a booking whose status is neither CheckedIn
nor CheckedOut, after `checkIn(id)` when no booking with that id is CheckedOut, and after
`checkOut(id)` when every booking with that id is CheckedIn or CheckedOut. -/
theorem timestampInvariant_preserved (db : DatabaseManager)
    (hinv : ∀ r ∈ storedBookings db, timestampInvariant (BookingRepository.rowToBooking r)) :
    (∀ (stamp : String) (b : Booking), b.status ≠ .CheckedIn → b.status ≠ .CheckedOut →
      ∀ r ∈ storedBookings (BookingRepository.create stamp db b).2,
        timestampInvariant (BookingRepository.rowToBooking r)) ∧
    (∀ (utcOffset clock id : Int),
      (∀ r ∈ storedBookings db, r.id = id → Booking.stringToStatus r.status ≠ .CheckedOut) →
      ∀ r ∈ storedBookings (BookingRepository.checkIn utcOffset clock db id).2,
        timestampInvariant (BookingRepository.rowToBooking r)) ∧
    (∀ (utcOffset clock id : Int),
      (∀ r ∈ storedBookings db, r.id = id →
        Booking.stringToStatus r.status = .CheckedIn ∨
          Booking.stringToStatus r.status = .CheckedOut) →
      ∀ r ∈ storedBookings (BookingRepository.checkOut utcOffset clock db id).2,
        timestampInvariant (BookingRepository.rowToBooking r)) := by
  refine ⟨?_, ?_, ?_⟩
  · intro stamp b h1 h2 r hr
    rcases create_cases stamp db b with hc | ⟨t, ci, co, ht, _, _, hc⟩
    · rw [hc] at hr
      exact hinv r hr
    · rw [hc] at hr
      simp only [storedBookings, ht] at hinv
      simp only [storedBookings, List.mem_append, List.mem_singleton] at hr
      rcases hr with hr | hr
      · exact hinv r hr
      · subst hr
        simp [timestampInvariant, BookingRepository.rowToBooking, BookingRepository.insertedRow,
          stringToStatus_statusToString, h1, h2]
  · intro utcOffset clock id hst r hr
    obtain ⟨c⟩ := db
    cases c with
    | none =>
      simp [storedBookings, BookingRepository.checkIn, DatabaseManager.executeTransaction] at hr
    | some t =>
      rw [checkIn_connected] at hr
      simp only [storedBookings, List.mem_map] at hr hinv hst
      obtain ⟨q, hq, rfl⟩ := hr
      by_cases hid : q.id = id
      · have hi := hinv q hq
        have hs := hst q hq hid
        have now := getCurrentDateTime_ne_empty utcOffset clock
        simp only [timestampInvariant, BookingRepository.rowToBooking] at hi
        have hout : q.actual_check_out.getD "" = "" := by
          by_contra hne
          exact hs (hi.2.mp hne)
        have cin : Booking.stringToStatus "checked_in" = .CheckedIn := by decide
        simp [timestampInvariant, BookingRepository.rowToBooking, hid, hout, now, cin]
      · simp only [if_neg hid]
        exact hinv q hq
  · intro utcOffset clock id hst r hr
    obtain ⟨c⟩ := db
    cases c with
    | none =>
      simp [storedBookings, BookingRepository.checkOut, DatabaseManager.executeTransaction] at hr
    | some t =>
      rw [checkOut_connected] at hr
      simp only [storedBookings, List.mem_map] at hr hinv hst
      obtain ⟨q, hq, rfl⟩ := hr
      by_cases hid : q.id = id
      · have hi := hinv q hq
        have hs := hst q hq hid
        have now := getCurrentDateTime_ne_empty utcOffset clock
        simp only [timestampInvariant, BookingRepository.rowToBooking] at hi
        have hin : q.actual_check_in.getD "" ≠ "" := hi.1.mpr hs
        have cout : Booking.stringToStatus "checked_out" = .CheckedOut := by decide
        simp [timestampInvariant, BookingRepository.rowToBooking, hid, hin, now, cout]
      · simp only [if_neg hid]
        exact hinv q hq

/-- C9, amended, instance: a Confirmed booking with id 1 is checked in at
2026-03-01 12:00:00; the row then stored satisfies the invariant. -/
theorem timestampInvariant_preserved_witness :
    timestampInvariant (BookingRepository.rowToBooking
      { sampleRow 1 1 ⟨2026, 3, 1⟩ ⟨2026, 3, 5⟩ "checked_in" with
          actual_check_in := some "2026-03-01 12:00:00" }) :=
  (timestampInvariant_preserved
    ⟨some ⟨[], [sampleRow 1 1 ⟨2026, 3, 1⟩ ⟨2026, 3, 5⟩ "confirmed"], 1⟩⟩
    (by decide)).2.1 0 1772366400 1 (by decide)
    { sampleRow 1 1 ⟨2026, 3, 1⟩ ⟨2026, 3, 5⟩ "checked_in" with
        actual_check_in := some "2026-03-01 12:00:00" }
    (by decide)

/-! ### Double booking and transactions -/

/-- Two periods that meet the half-open interval test satisfy `OVERLAPS`, whatever the order
of their ends. -/
theorem sqlOverlaps_of_half_open (s1 e1 s2 e2 : CivilDate)
    (h1 : s1.before e2) (h2 : s2.before e1) : sqlOverlaps s1 e1 s2 e2 = true := by
  unfold sqlOverlaps
  by_cases c1 : e1.before s1
  · by_cases c2 : e2.before s2
    · exfalso
      have a := CivilDate.before_trans _ _ _ (CivilDate.before_trans _ _ _ h2 c1) h1
      exact CivilDate.before_asymm _ _ a c2
    · have a : e1.before e2 := CivilDate.before_trans _ _ _ c1 h1
      simp [c1, c2, h2, a]
  · by_cases c2 : e2.before s2
    · have a : s1.before s2 := CivilDate.before_trans _ _ _ h1 c2
      have b : e2.before e1 := CivilDate.before_trans _ _ _ c2 h2
      simp [c1, c2, h1, a, b]
    · simp [c1, c2, h1, h2]

/-- C11, as stated, fails: room 1 holds a confirmed stay 2026-03-01 to 2026-03-05 and no
double booking; `create` of a confirmed stay 2026-03-02 to 2026-03-04 on room 1 succeeds
with id 2, and the store then holds a double booking. -/
theorem create_double_books :
    noDoubleBooking (storedBookings
      ⟨some ⟨[], [sampleRow 1 1 ⟨2026, 3, 1⟩ ⟨2026, 3, 5⟩ "confirmed"], 1⟩⟩) ∧
    (BookingRepository.create ""
      ⟨some ⟨[], [sampleRow 1 1 ⟨2026, 3, 1⟩ ⟨2026, 3, 5⟩ "confirmed"], 1⟩⟩
      (sampleBooking "2026-03-02" "2026-03-04" .Confirmed)).1 = 2 ∧
    ¬ noDoubleBooking (storedBookings (BookingRepository.create ""
      ⟨some ⟨[], [sampleRow 1 1 ⟨2026, 3, 1⟩ ⟨2026, 3, 5⟩ "confirmed"], 1⟩⟩
      (sampleBooking "2026-03-02" "2026-03-04" .Confirmed)).2) := by
  decide

/-- C11, amended: `create` makes no availability check of its own. On a connected store
without double booking, the store is still without double booking after `create` of a
booking with valid dates when the new stay conflicts with no stored blocking booking of its
room, and in particular when `isRoomAvailable` answers true for its room and dates on the
state in which the insert runs. -/
theorem create_keeps_noDoubleBooking (stamp : String) (t : Tables) (booking : Booking)
    (ci co : CivilDate) (hinv : noDoubleBooking t.bookings)
    (hci : DateUtils.calendarDate booking.checkInDate = some ci)
    (hco : DateUtils.calendarDate booking.checkOutDate = some co) :
    ((∀ r ∈ t.bookings, r.room_id = booking.roomId → rowBlocks r →
        ¬ (r.check_in_date.before co ∧ ci.before r.check_out_date)) →
      noDoubleBooking (storedBookings (BookingRepository.create stamp ⟨some t⟩ booking).2)) ∧
    (RoomRepository.isRoomAvailable ⟨some t⟩ booking.roomId booking.checkInDate
        booking.checkOutDate = true →
      noDoubleBooking (storedBookings (BookingRepository.create stamp ⟨some t⟩ booking).2)) := by
  have hcreate : storedBookings (BookingRepository.create stamp ⟨some t⟩ booking).2 =
      t.bookings ++ [BookingRepository.insertedRow stamp ((t.bookingSeq + 1 : Nat) : Int)
        ci co booking] := by
    simp [BookingRepository.create, DatabaseManager.executeTransaction, execStatement,
      DateUtils.sqlDate_of_calendarDate _ _ hci, DateUtils.sqlDate_of_calendarDate _ _ hco,
      bind, Except.bind, pure, Except.pure, storedBookings]
  have hfree : (∀ r ∈ t.bookings, r.room_id = booking.roomId → rowBlocks r →
        ¬ (r.check_in_date.before co ∧ ci.before r.check_out_date)) →
      noDoubleBooking (storedBookings (BookingRepository.create stamp ⟨some t⟩ booking).2) := by
    intro h
    rw [hcreate]
    unfold noDoubleBooking at hinv ⊢
    rw [List.pairwise_append]
    refine ⟨hinv, List.pairwise_singleton _ _, ?_⟩
    intro a ha b hb
    rw [List.mem_singleton] at hb
    subst hb
    rintro ⟨hroom, hblocks, _, hc1, hc2⟩
    exact h a ha hroom hblocks ⟨hc1, hc2⟩
  refine ⟨hfree, ?_⟩
  intro havail
  apply hfree
  intro r hr hroom hblocks hconf
  have hq := (isRoomAvailable_eq t booking.roomId booking.checkInDate booking.checkOutDate
    ci co hci hco).mp havail r hr hroom ((statusBlocks_iff r.status).mpr hblocks)
  rw [sqlOverlaps_of_half_open _ _ _ _ hconf.1 hconf.2] at hq
  exact Bool.noConfusion hq

/-- C11, amended, instance: room 1 holds a confirmed stay 2026-03-01 to 2026-03-05,
`isRoomAvailable` answers true for 2026-03-05 to 2026-03-08, and after `create` of that
stay the store holds no double booking. -/
theorem create_keeps_noDoubleBooking_witness :
    noDoubleBooking (storedBookings (BookingRepository.create ""
      ⟨some ⟨[], [sampleRow 1 1 ⟨2026, 3, 1⟩ ⟨2026, 3, 5⟩ "confirmed"], 1⟩⟩
      (sampleBooking "2026-03-05" "2026-03-08" .Confirmed)).2) :=
  (create_keeps_noDoubleBooking ""
    ⟨[], [sampleRow 1 1 ⟨2026, 3, 1⟩ ⟨2026, 3, 5⟩ "confirmed"], 1⟩
    (sampleBooking "2026-03-05" "2026-03-08" .Confirmed) ⟨2026, 3, 5⟩ ⟨2026, 3, 8⟩
    (by decide) (by decide) (by decide)).2 (by decide)

/-! ### Calendar claims -/

/-- C15: for every integer year, `isLeapYear` is true exactly when the year is divisible by
4 and is not divisible by 100 or is divisible by 400; 2000 and 2024 are leap years, 1900 and
2023 are not. -/
theorem isLeapYear_iff_divisible :
    (∀ year : Int, DateUtils.isLeapYear year = true ↔
      (4 ∣ year ∧ (¬ 100 ∣ year ∨ 400 ∣ year))) ∧
    DateUtils.isLeapYear 2000 = true ∧ DateUtils.isLeapYear 1900 = false ∧
    DateUtils.isLeapYear 2024 = true ∧ DateUtils.isLeapYear 2023 = false := by
  refine ⟨?_, by decide, by decide, by decide, by decide⟩
  intro year
  rw [DateUtils.isLeapYear_iff]
  simp only [Int.dvd_iff_emod_eq_zero]
  omega

/-- The comparison takes one of the values -1, 0, 1, and swapping the arguments negates
it. -/
theorem compareDates_values (utcOffset : Int) (a b : String) :
    (DateUtils.compareDates utcOffset a b = -1 ∨ DateUtils.compareDates utcOffset a b = 0 ∨
      DateUtils.compareDates utcOffset a b = 1) ∧
    DateUtils.compareDates utcOffset b a = - DateUtils.compareDates utcOffset a b := by
  unfold DateUtils.compareDates
  cases DateUtils.parseDate utcOffset a with
  | none => cases DateUtils.parseDate utcOffset b <;> simp
  | some x =>
    cases DateUtils.parseDate utcOffset b with
    | none => simp
    | some y =>
      simp only []
      split_ifs <;> omega

theorem roomStringToStatus_statusToString (r : RoomStatus) :
    Room.stringToStatus (Room.statusToString r) = r := by
  cases r <;> decide

/-- C20: status serialization round-trips with the exact literals, for bookings
(pending, confirmed, checked_in, checked_out, cancelled) and for rooms (available,
occupied, maintenance, reserved). -/
theorem status_round_trip :
    (∀ s : BookingStatus, Booking.stringToStatus (Booking.statusToString s) = s) ∧
    Booking.statusToString .Pending = "pending" ∧
    Booking.statusToString .Confirmed = "confirmed" ∧
    Booking.statusToString .CheckedIn = "checked_in" ∧
    Booking.statusToString .CheckedOut = "checked_out" ∧
    Booking.statusToString .Cancelled = "cancelled" ∧
    (∀ r : RoomStatus, Room.stringToStatus (Room.statusToString r) = r) ∧
    Room.statusToString .Available = "available" ∧
    Room.statusToString .Occupied = "occupied" ∧
    Room.statusToString .Maintenance = "maintenance" ∧
    Room.statusToString .Reserved = "reserved" :=
  ⟨stringToStatus_statusToString, rfl, rfl, rfl, rfl, rfl,
    roomStringToStatus_statusToString, rfl, rfl, rfl, rfl⟩

/-! ### Date text, day numbers and date arithmetic -/

namespace DateUtils

theorem digit_of_isDigit (c : Char) (h : c.isDigit = true) :
    ∃ n : Nat, n < 10 ∧ c = asciiDigit n ∧ digitVal c = n := by
  have hb : 48 ≤ c.toNat ∧ c.toNat ≤ 57 := by
    simp only [Char.isDigit, Bool.and_eq_true, decide_eq_true_eq] at h
    exact ⟨h.1, h.2⟩
  refine ⟨c.toNat - 48, by omega, ?_, ?_⟩
  · unfold asciiDigit
    rw [show 48 + (c.toNat - 48) = c.toNat by omega, Char.ofNat_toNat]
  · unfold digitVal
    omega

theorem asciiDigit_spec (n : Nat) (h : n < 10) :
    (asciiDigit n).isDigit = true ∧ digitVal (asciiDigit n) = n := by
  interval_cases n <;> exact ⟨by decide, by decide⟩

theorem matchesDateRegex_iff (s : String) :
    matchesDateRegex s = true ↔
      ∃ y1 y2 y3 y4 m1 m2 d1 d2 : Nat,
        y1 < 10 ∧ y2 < 10 ∧ y3 < 10 ∧ y4 < 10 ∧ m1 < 10 ∧ m2 < 10 ∧ d1 < 10 ∧ d2 < 10 ∧
        s = dateText y1 y2 y3 y4 m1 m2 d1 d2 := by
  constructor
  · intro h
    unfold matchesDateRegex at h
    split at h
    · next y1 y2 y3 y4 s1 m1 m2 s2 d1 d2 hdata =>
      simp only [Bool.and_eq_true, beq_iff_eq] at h
      obtain ⟨⟨⟨⟨⟨⟨⟨⟨⟨h1, h2⟩, h3⟩, h4⟩, h5⟩, h6⟩, h7⟩, h8⟩, h9⟩, h10⟩ := h
      obtain ⟨a1, b1, rfl, -⟩ := digit_of_isDigit y1 h1
      obtain ⟨a2, b2, rfl, -⟩ := digit_of_isDigit y2 h2
      obtain ⟨a3, b3, rfl, -⟩ := digit_of_isDigit y3 h3
      obtain ⟨a4, b4, rfl, -⟩ := digit_of_isDigit y4 h4
      obtain ⟨a5, b5, rfl, -⟩ := digit_of_isDigit m1 h6
      obtain ⟨a6, b6, rfl, -⟩ := digit_of_isDigit m2 h7
      obtain ⟨a7, b7, rfl, -⟩ := digit_of_isDigit d1 h9
      obtain ⟨a8, b8, rfl, -⟩ := digit_of_isDigit d2 h10
      subst h5 h8
      exact ⟨a1, a2, a3, a4, a5, a6, a7, a8, b1, b2, b3, b4, b5, b6, b7, b8, String.ext hdata⟩
    · exact absurd h (by simp)
  · rintro ⟨y1, y2, y3, y4, m1, m2, d1, d2, h1, h2, h3, h4, h5, h6, h7, h8, rfl⟩
    simp [matchesDateRegex, dateText, (asciiDigit_spec _ h1).1, (asciiDigit_spec _ h2).1,
      (asciiDigit_spec _ h3).1, (asciiDigit_spec _ h4).1, (asciiDigit_spec _ h5).1,
      (asciiDigit_spec _ h6).1, (asciiDigit_spec _ h7).1, (asciiDigit_spec _ h8).1]

theorem getTimeDate_dateText (y1 y2 y3 y4 m1 m2 d1 d2 : Nat)
    (h1 : y1 < 10) (h2 : y2 < 10) (h3 : y3 < 10) (h4 : y4 < 10)
    (h5 : m1 < 10) (h6 : m2 < 10) (h7 : d1 < 10) (h8 : d2 < 10) :
    getTimeDate (dateText y1 y2 y3 y4 m1 m2 d1 d2) =
      if (10 * m1 + m2 : Int) < 1 ∨ (10 * m1 + m2 : Int) > 12 ∨ (10 * d1 + d2 : Int) < 1 ∨
          (10 * d1 + d2 : Int) > 31 then none
      else some ⟨(1000 * y1 + 100 * y2 + 10 * y3 + y4 : Int) - 1900, (10 * m1 + m2 : Int) - 1,
        (10 * d1 + d2 : Int), 0, 0, 0⟩ := by
  simp only [getTimeDate, dateText, (asciiDigit_spec _ h1).2, (asciiDigit_spec _ h2).2,
    (asciiDigit_spec _ h3).2, (asciiDigit_spec _ h4).2, (asciiDigit_spec _ h5).2,
    (asciiDigit_spec _ h6).2, (asciiDigit_spec _ h7).2, (asciiDigit_spec _ h8).2]
  congr 1 <;> simp only [mul_comm]

theorem getDaysInMonth_le (y m : Int) : getDaysInMonth y m ≤ 31 := by
  by_cases hm : 1 ≤ m ∧ m ≤ 12
  · have t := month_table y m hm _ rfl
    have hl : (if isLeapYear y = true then (1 : Int) else 0) ≤ 1 := by split <;> omega
    generalize (if isLeapYear y = true then (1 : Int) else 0) = l at t hl
    generalize getDaysInMonth y m = b at t ⊢
    generalize daysBeforeMonth y m = a at t
    omega
  · have : m < 1 ∨ m > 12 := by omega
    simp [getDaysInMonth, this]

theorem isValidDate_dateText (y1 y2 y3 y4 m1 m2 d1 d2 : Nat)
    (h1 : y1 < 10) (h2 : y2 < 10) (h3 : y3 < 10) (h4 : y4 < 10)
    (h5 : m1 < 10) (h6 : m2 < 10) (h7 : d1 < 10) (h8 : d2 < 10) :
    isValidDate (dateText y1 y2 y3 y4 m1 m2 d1 d2) = true ↔
      dateInRange (1000 * y1 + 100 * y2 + 10 * y3 + y4) (10 * m1 + m2) (10 * d1 + d2) := by
  have hre : matchesDateRegex (dateText y1 y2 y3 y4 m1 m2 d1 d2) = true :=
    (matchesDateRegex_iff _).mpr ⟨y1, y2, y3, y4, m1, m2, d1, d2, h1, h2, h3, h4, h5, h6, h7, h8, rfl⟩
  have hdim := getDaysInMonth_le (1000 * y1 + 100 * y2 + 10 * y3 + y4) (10 * m1 + m2)
  unfold isValidDate dateInRange
  rw [getTimeDate_dateText y1 y2 y3 y4 m1 m2 d1 d2 h1 h2 h3 h4 h5 h6 h7 h8]
  simp only [hre, Bool.not_true, Bool.false_eq_true, if_false]
  by_cases hc : (10 * m1 + m2 : Int) < 1 ∨ (10 * m1 + m2 : Int) > 12 ∨ (10 * d1 + d2 : Int) < 1 ∨
      (10 * d1 + d2 : Int) > 31
  · rw [if_pos hc]
    simp only [Bool.false_eq_true, false_iff]
    omega
  · rw [if_neg hc]
    simp only [sub_add_cancel]
    split_ifs <;> simp <;> omega

/-- A string denotes the calendar date `c` exactly when it is the ten-character text of the
digits of `c` and `c` is a date the program accepts. -/
theorem calendarDate_eq_some_iff (s : String) (c : CivilDate) :
    calendarDate s = some c ↔
      ∃ y1 y2 y3 y4 m1 m2 d1 d2 : Nat,
        y1 < 10 ∧ y2 < 10 ∧ y3 < 10 ∧ y4 < 10 ∧ m1 < 10 ∧ m2 < 10 ∧ d1 < 10 ∧ d2 < 10 ∧
        s = dateText y1 y2 y3 y4 m1 m2 d1 d2 ∧
        c = ⟨1000 * y1 + 100 * y2 + 10 * y3 + y4, 10 * m1 + m2, 10 * d1 + d2⟩ ∧
        dateInRange (1000 * y1 + 100 * y2 + 10 * y3 + y4) (10 * m1 + m2) (10 * d1 + d2) := by
  have key : ∀ (y1 y2 y3 y4 m1 m2 d1 d2 : Nat), y1 < 10 → y2 < 10 → y3 < 10 → y4 < 10 →
      m1 < 10 → m2 < 10 → d1 < 10 → d2 < 10 →
      dateInRange (1000 * y1 + 100 * y2 + 10 * y3 + y4) (10 * m1 + m2) (10 * d1 + d2) →
      calendarDate (dateText y1 y2 y3 y4 m1 m2 d1 d2) =
        some ⟨1000 * y1 + 100 * y2 + 10 * y3 + y4, 10 * m1 + m2, 10 * d1 + d2⟩ := by
    intro y1 y2 y3 y4 m1 m2 d1 d2 h1 h2 h3 h4 h5 h6 h7 h8 hr
    have hv := (isValidDate_dateText y1 y2 y3 y4 m1 m2 d1 d2 h1 h2 h3 h4 h5 h6 h7 h8).mpr hr
    have hdim := getDaysInMonth_le (1000 * y1 + 100 * y2 + 10 * y3 + y4) (10 * m1 + m2)
    unfold calendarDate
    rw [if_pos hv, getTimeDate_dateText y1 y2 y3 y4 m1 m2 d1 d2 h1 h2 h3 h4 h5 h6 h7 h8]
    have hc : ¬ ((10 * m1 + m2 : Int) < 1 ∨ (10 * m1 + m2 : Int) > 12 ∨
        (10 * d1 + d2 : Int) < 1 ∨ (10 * d1 + d2 : Int) > 31) := by
      unfold dateInRange at hr
      omega
    rw [if_neg hc]
    simp
  constructor
  · intro h
    have hv : isValidDate s = true := by
      by_contra hn
      simp [calendarDate, hn] at h
    have hre : matchesDateRegex s = true := by
      by_contra hn
      simp [isValidDate, hn] at hv
    obtain ⟨y1, y2, y3, y4, m1, m2, d1, d2, h1, h2, h3, h4, h5, h6, h7, h8, rfl⟩ :=
      (matchesDateRegex_iff s).mp hre
    have hr := (isValidDate_dateText y1 y2 y3 y4 m1 m2 d1 d2 h1 h2 h3 h4 h5 h6 h7 h8).mp hv
    rw [key y1 y2 y3 y4 m1 m2 d1 d2 h1 h2 h3 h4 h5 h6 h7 h8 hr] at h
    exact ⟨y1, y2, y3, y4, m1, m2, d1, d2, h1, h2, h3, h4, h5, h6, h7, h8, rfl,
      (Option.some.inj h).symm, hr⟩
  · rintro ⟨y1, y2, y3, y4, m1, m2, d1, d2, h1, h2, h3, h4, h5, h6, h7, h8, rfl, rfl, hr⟩
    exact key y1 y2 y3 y4 m1 m2 d1 d2 h1 h2 h3 h4 h5 h6 h7 h8 hr

theorem isValidDate_iff_calendarDate (s : String) :
    isValidDate s = true ↔ ∃ c, calendarDate s = some c := by
  unfold calendarDate
  by_cases hv : isValidDate s = true
  · simp only [hv, if_true, true_iff]
    have hv2 := hv
    unfold isValidDate at hv2
    cases hg : getTimeDate s with
    | none => simp [hg] at hv2
    | some tm => exact ⟨_, rfl⟩
  · simp [hv]

/-- Two valid date strings that denote the same calendar date are the same string. -/
theorem calendarDate_injective (a b : String) (c : CivilDate)
    (ha : calendarDate a = some c) (hb : calendarDate b = some c) : a = b := by
  obtain ⟨y1, y2, y3, y4, m1, m2, d1, d2, h1, h2, h3, h4, h5, h6, h7, h8, rfl, hc, -⟩ :=
    (calendarDate_eq_some_iff a c).mp ha
  obtain ⟨z1, z2, z3, z4, n1, n2, e1, e2, g1, g2, g3, g4, g5, g6, g7, g8, rfl, hc2, -⟩ :=
    (calendarDate_eq_some_iff b c).mp hb
  rw [hc] at hc2
  simp only [CivilDate.mk.injEq] at hc2
  obtain ⟨hy, hm, hd⟩ := hc2
  have q1 : y1 = z1 := by omega
  have q2 : y2 = z2 := by omega
  have q3 : y3 = z3 := by omega
  have q4 : y4 = z4 := by omega
  have q5 : m1 = n1 := by omega
  have q6 : m2 = n2 := by omega
  have q7 : d1 = e1 := by omega
  have q8 : d2 = e2 := by omega
  subst q1 q2 q3 q4 q5 q6 q7 q8
  rfl

theorem succ_div_cases (k : Int) :
    (k % 4 = 3 ∧ (k + 1) / 4 = k / 4 + 1 ∨ k % 4 ≠ 3 ∧ (k + 1) / 4 = k / 4) ∧
    (k % 100 = 99 ∧ (k + 1) / 100 = k / 100 + 1 ∨ k % 100 ≠ 99 ∧ (k + 1) / 100 = k / 100) ∧
    (k % 100 = 99 → k % 4 = 3) := by
  have hmod : k % 100 % 4 = k % 4 := Int.emod_emod_of_dvd k (by norm_num)
  refine ⟨by omega, by omega, by omega⟩

theorem doe_decomposition (n : Nat) (hn : n ≤ 146096) :
    ∃ k u : Int, 0 ≤ k ∧ k ≤ 399 ∧ 0 ≤ u ∧
      u ≤ 364 + (if k % 4 = 3 ∧ (k % 100 ≠ 99 ∨ k = 399) then 1 else 0) ∧
      (n : Int) = 365 * k + k / 4 - k / 100 + u := by
  induction n with
  | zero => exact ⟨0, 0, by omega, by omega, by omega, by simp, by simp⟩
  | succ n ih =>
    obtain ⟨k, u, hk0, hk1, hu0, hu1, hN⟩ := ih (by omega)
    clear ih
    by_cases hlast : u < 364 + (if k % 4 = 3 ∧ (k % 100 ≠ 99 ∨ k = 399) then 1 else 0)
    · exact ⟨k, u + 1, hk0, hk1, by omega, by omega, by push_cast; omega⟩
    · have hk : k ≤ 398 := by
        by_contra hc
        have : k = 399 := by omega
        subst this
        simp at hu1 hlast
        omega
      refine ⟨k + 1, 0, by omega, by omega, by omega, by split <;> omega, ?_⟩
      push_cast
      obtain ⟨h4, h100, himp⟩ := succ_div_cases k
      by_cases hL : k % 4 = 3 ∧ (k % 100 ≠ 99 ∨ k = 399)
      · simp only [if_pos hL] at hu1 hlast
        rcases h4 with ⟨a, b⟩ | ⟨a, b⟩ <;> rcases h100 with ⟨c, d⟩ | ⟨c, d⟩ <;> rw [b, d] <;> omega
      · simp only [if_neg hL] at hu1 hlast
        rcases h4 with ⟨a, b⟩ | ⟨a, b⟩ <;> rcases h100 with ⟨c, d⟩ | ⟨c, d⟩ <;> rw [b, d] <;> omega

theorem yoe_eq (N k u : Int) (hk : 0 ≤ k ∧ k ≤ 399) (hu : 0 ≤ u)
    (hu2 : u ≤ 364 + (if k % 4 = 3 ∧ (k % 100 ≠ 99 ∨ k = 399) then 1 else 0))
    (hN : N = 365 * k + k / 4 - k / 100 + u) :
    (N - N / 1460 + N / 36524 - N / 146096) / 365 = k := by
  have h1 : N / 36524 - N / 146096 = k / 100 := by
    obtain ⟨h, hh, hh0, hh3⟩ : ∃ h : Int, h = k / 100 ∧ 0 ≤ h ∧ h ≤ 3 :=
      ⟨k / 100, rfl, by omega, by omega⟩
    obtain ⟨g, hg, hg0, hg3⟩ : ∃ g : Int, g = N / 146096 ∧ 0 ≤ g ∧ g ≤ 1 :=
      ⟨N / 146096, rfl, by split at hu2 <;> omega, by split at hu2 <;> omega⟩
    rw [← hh, ← hg]
    split at hu2 <;> interval_cases h <;> interval_cases g <;> omega
  have h2 : k / 4 + u - 364 ≤ N / 1460 ∧ N / 1460 ≤ k / 4 + u := by
    split at hu2 <;> omega
  omega

theorem era_div (k era : Int) :
    (k + era * 400) / 4 = k / 4 + 100 * era ∧ (k + era * 400) / 100 = k / 100 + 4 * era ∧
    (k + era * 400) / 400 = k / 400 + era := by
  refine ⟨by omega, by omega, by omega⟩

theorem daysBeforeYear_era (k era : Int) (hk : 0 ≤ k ∧ k ≤ 399) :
    daysBeforeYear (k + era * 400 + 1) =
      365 * k + k / 4 - k / 100 + 146097 * era - 719162 := by
  obtain ⟨h4, h100, h400⟩ := era_div k era
  have h0 : k / 400 = 0 := by omega
  unfold daysBeforeYear
  rw [show k + era * 400 + 1 - 1 = k + era * 400 by ring, h4, h100, h400, h0]
  ring

theorem isLeapYear_era (k era : Int) (hk : 0 ≤ k ∧ k ≤ 399) :
    isLeapYear (k + era * 400 + 1) = true ↔ (k % 4 = 3 ∧ (k % 100 ≠ 99 ∨ k = 399)) := by
  rw [isLeapYear_iff]
  have hm4 : (k + era * 400 + 1) % 4 = (k + 1) % 4 := by omega
  have hm100 : (k + era * 400 + 1) % 100 = (k + 1) % 100 := by omega
  have hm400 : (k + era * 400 + 1) % 400 = (k + 1) % 400 := by omega
  rw [hm4, hm100, hm400]
  omega

/-- The date that lies `u` days after March 1st of year `Y`. -/
theorem from_march (Y u z : Int) (hu0 : 0 ≤ u)
    (hu1 : u ≤ 364 + (if isLeapYear (Y + 1) = true then 1 else 0))
    (hz : z = daysBeforeYear (Y + 1) - 306 + u) (mp : Int) (hmp : mp = (5 * u + 2) / 153) :
    wellFormed ⟨Y + (if (if mp < 10 then mp + 3 else mp - 9) ≤ 2 then 1 else 0),
      if mp < 10 then mp + 3 else mp - 9, u - (153 * mp + 2) / 5 + 1⟩ ∧
    daysFromCivil (Y + (if (if mp < 10 then mp + 3 else mp - 9) ≤ 2 then 1 else 0))
      (if mp < 10 then mp + 3 else mp - 9) (u - (153 * mp + 2) / 5 + 1) = z := by
  have hl1 : 0 ≤ (if isLeapYear (Y + 1) = true then (1 : Int) else 0) ∧
      (if isLeapYear (Y + 1) = true then (1 : Int) else 0) ≤ 1 := by split <;> omega
  have hl0 : 0 ≤ (if isLeapYear Y = true then (1 : Int) else 0) ∧
      (if isLeapYear Y = true then (1 : Int) else 0) ≤ 1 := by split <;> omega
  have hs := daysBeforeYear_succ Y
  have hmp0 : 0 ≤ mp ∧ mp ≤ 11 := by omega
  simp only [wellFormed, daysFromCivil]
  by_cases hlt : mp < 10
  · have hm : 1 ≤ mp + 3 ∧ mp + 3 ≤ 12 := by omega
    have mt := month_table Y (mp + 3) hm _ rfl
    have h2 : ¬ (mp + 3 ≤ 2) := by omega
    simp only [if_pos hlt, if_neg h2, add_zero]
    generalize daysBeforeMonth Y (mp + 3) = a at *
    generalize getDaysInMonth Y (mp + 3) = b at *
    generalize (if isLeapYear Y = true then (1 : Int) else 0) = l0 at *
    generalize (if isLeapYear (Y + 1) = true then (1 : Int) else 0) = l1 at *
    generalize daysBeforeYear (Y + 1) = B at *
    generalize daysBeforeYear Y = A at *
    obtain ⟨hmp0, hmp1⟩ := hmp0
    interval_cases mp <;> omega
  · have hm : 1 ≤ mp - 9 ∧ mp - 9 ≤ 12 := by omega
    have mt := month_table (Y + 1) (mp - 9) hm _ rfl
    have h2 : mp - 9 ≤ 2 := by omega
    simp only [if_neg hlt, if_pos h2]
    generalize daysBeforeMonth (Y + 1) (mp - 9) = a at *
    generalize getDaysInMonth (Y + 1) (mp - 9) = b at *
    generalize (if isLeapYear (Y + 1) = true then (1 : Int) else 0) = l1 at *
    generalize daysBeforeYear (Y + 1) = B at *
    obtain ⟨hmp0, hmp1⟩ := hmp0
    interval_cases mp <;> omega

/-- The conversion of a day number to a date gives a date of the calendar whose day
number it is. -/
theorem civilFromDays_spec (z : Int) :
    wellFormed (civilFromDays z) ∧
    daysFromCivil (civilFromDays z).year (civilFromDays z).month (civilFromDays z).day = z := by
  obtain ⟨era, heraq⟩ : ∃ era : Int, era = (z + 719468) / 146097 := ⟨_, rfl⟩
  obtain ⟨doe, hdoeq⟩ : ∃ doe : Int, doe = z + 719468 - era * 146097 := ⟨_, rfl⟩
  have hdoe : 0 ≤ doe ∧ doe ≤ 146096 := by omega
  obtain ⟨k, u, hk0, hk1, hu0, hu1, hN⟩ := doe_decomposition doe.toNat (by omega)
  rw [Int.toNat_of_nonneg hdoe.1] at hN
  have hyoe := yoe_eq doe k u ⟨hk0, hk1⟩ hu0 hu1 hN
  have hdoy : doe - (365 * k + k / 4 - k / 100) = u := by omega
  have hu2 : u ≤ 364 + (if isLeapYear (k + era * 400 + 1) = true then 1 else 0) := by
    have := isLeapYear_era k era ⟨hk0, hk1⟩
    by_cases hl : isLeapYear (k + era * 400 + 1) = true
    · rw [if_pos hl]; rw [if_pos (this.mp hl)] at hu1; exact hu1
    · rw [if_neg hl]; rw [if_neg (fun c => hl (this.mpr c))] at hu1; exact hu1
  have hz : z = daysBeforeYear (k + era * 400 + 1) - 306 + u := by
    rw [daysBeforeYear_era k era ⟨hk0, hk1⟩]
    omega
  have key := from_march (k + era * 400) u z hu0 hu2 hz _ rfl
  unfold civilFromDays
  simp only [← heraq]
  simp only [← hdoeq]
  simp only [hyoe]
  simp only [hdoy]
  exact key

set_option maxRecDepth 100000 in
theorem zeroPad_year_table : ∀ k : Fin 201,
    zeroPad 1 ((1900 + k.val : Nat) : Int) =
      String.mk [asciiDigit ((1900 + k.val) / 1000), asciiDigit ((1900 + k.val) / 100 % 10),
        asciiDigit ((1900 + k.val) / 10 % 10), asciiDigit ((1900 + k.val) % 10)] := by
  decide

set_option maxRecDepth 100000 in
theorem zeroPad_two_table : ∀ k : Fin 32,
    zeroPad 2 ((k.val : Nat) : Int) =
      String.mk [asciiDigit (k.val / 10), asciiDigit (k.val % 10)] := by
  decide

/-- The text written for a date of the years 1900..2100 is read back as that date. -/
theorem calendarDate_putDate (c : CivilDate) (hw : wellFormed c)
    (hy : 1900 ≤ c.year ∧ c.year ≤ 2100) :
    calendarDate (putDate ⟨c.year - 1900, c.month - 1, c.day, 0, 0, 0⟩) = some c := by
  obtain ⟨y, m, d⟩ := c
  simp only [wellFormed] at hw
  simp only at hy
  have hdim := getDaysInMonth_le y m
  obtain ⟨ky, hky, rfl⟩ : ∃ k : Nat, k < 201 ∧ y = ((1900 + k : Nat) : Int) :=
    ⟨(y - 1900).toNat, by omega, by omega⟩
  obtain ⟨km, hkm, rfl⟩ : ∃ k : Nat, k < 32 ∧ m = ((k : Nat) : Int) :=
    ⟨m.toNat, by omega, by omega⟩
  obtain ⟨kd, hkd, rfl⟩ : ∃ k : Nat, k < 32 ∧ d = ((k : Nat) : Int) :=
    ⟨d.toNat, by omega, by omega⟩
  have ty := zeroPad_year_table ⟨ky, hky⟩
  have tm := zeroPad_two_table ⟨km, hkm⟩
  have td := zeroPad_two_table ⟨kd, hkd⟩
  simp only at ty tm td
  simp only [putDate, sub_add_cancel, ty, tm, td]
  rw [calendarDate_eq_some_iff]
  refine ⟨(1900 + ky) / 1000, (1900 + ky) / 100 % 10, (1900 + ky) / 10 % 10, (1900 + ky) % 10,
    km / 10, km % 10, kd / 10, kd % 10, by omega, by omega, by omega, by omega, by omega,
    by omega, by omega, by omega, rfl, ?_, ?_⟩
  · simp only [CivilDate.mk.injEq]
    refine ⟨by omega, by omega, by omega⟩
  · have e1 : (1000 * (((1900 + ky) / 1000 : Nat) : Int) + 100 * (((1900 + ky) / 100 % 10 : Nat) : Int)
        + 10 * (((1900 + ky) / 10 % 10 : Nat) : Int) + (((1900 + ky) % 10 : Nat) : Int))
        = ((1900 + ky : Nat) : Int) := by omega
    have e2 : (10 * ((km / 10 : Nat) : Int) + ((km % 10 : Nat) : Int)) = (km : Int) := by omega
    have e3 : (10 * ((kd / 10 : Nat) : Int) + ((kd % 10 : Nat) : Int)) = (kd : Int) := by omega
    rw [e1, e2, e3]
    unfold dateInRange
    omega

theorem timePointToTm_midnight (utcOffset days : Int) :
    timePointToTm utcOffset (days * 86400 - utcOffset) =
      ⟨(civilFromDays days).year - 1900, (civilFromDays days).month - 1,
        (civilFromDays days).day, 0, 0, 0⟩ := by
  have h1 : (days * 86400 - utcOffset + utcOffset) / 86400 = days := by omega
  have h2 : (days * 86400 - utcOffset + utcOffset) % 86400 = 0 := by omega
  simp only [timePointToTm, h1, h2]
  rfl

/-- On a valid date, `addDays` writes the date whose day number is `days` more. -/
theorem addDays_of_calendarDate (utcOffset : Int) (s : String) (days : Int) (c : CivilDate)
    (h : calendarDate s = some c) :
    addDays utcOffset s days =
      putDate ⟨(civilFromDays (daysFromCivil c.year c.month c.day + days)).year - 1900,
        (civilFromDays (daysFromCivil c.year c.month c.day + days)).month - 1,
        (civilFromDays (daysFromCivil c.year c.month c.day + days)).day, 0, 0, 0⟩ := by
  obtain ⟨_, _, _, hp⟩ := parseDate_of_calendarDate utcOffset s c h
  unfold addDays formatDate
  rw [hp]
  simp only
  rw [show daysFromCivil c.year c.month c.day * 86400 - utcOffset + 3600 * (24 * days) =
    (daysFromCivil c.year c.month c.day + days) * 86400 - utcOffset by ring]
  rw [timePointToTm_midnight]

/-- On valid dates, `daysBetween` is the difference of the day numbers. -/
theorem daysBetween_of_calendarDate (utcOffset : Int) (a b : String) (ca cb : CivilDate)
    (ha : calendarDate a = some ca) (hb : calendarDate b = some cb) :
    daysBetween utcOffset a b =
      daysFromCivil cb.year cb.month cb.day - daysFromCivil ca.year ca.month ca.day := by
  obtain ⟨_, _, _, hpa⟩ := parseDate_of_calendarDate utcOffset a ca ha
  obtain ⟨_, _, _, hpb⟩ := parseDate_of_calendarDate utcOffset b cb hb
  unfold daysBetween daysBetweenPoints
  rw [hpa, hpb]
  simp only
  rw [show daysFromCivil cb.year cb.month cb.day * 86400 - utcOffset -
      (daysFromCivil ca.year ca.month ca.day * 86400 - utcOffset) =
    (daysFromCivil cb.year cb.month cb.day - daysFromCivil ca.year ca.month ca.day) * 24 * 3600
    by ring]
  rw [Int.mul_tdiv_cancel _ (by norm_num), Int.mul_tdiv_cancel _ (by norm_num)]

theorem matchesDateTimeRegex_iff (s : String) :
    matchesDateTimeRegex s = true ↔
      ∃ y1 y2 y3 y4 m1 m2 d1 d2 h1 h2 n1 n2 x1 x2 : Nat,
        y1 < 10 ∧ y2 < 10 ∧ y3 < 10 ∧ y4 < 10 ∧ m1 < 10 ∧ m2 < 10 ∧ d1 < 10 ∧ d2 < 10 ∧
        h1 < 10 ∧ h2 < 10 ∧ n1 < 10 ∧ n2 < 10 ∧ x1 < 10 ∧ x2 < 10 ∧
        s = dateText y1 y2 y3 y4 m1 m2 d1 d2 ++ " " ++ timeText h1 h2 n1 n2 x1 x2 := by
  constructor
  · intro h
    unfold matchesDateTimeRegex at h
    split at h
    · next y1 y2 y3 y4 s1 m1 m2 s2 d1 d2 sp h1 h2 c1 n1 n2 c2 x1 x2 hdata =>
      simp only [Bool.and_eq_true, beq_iff_eq] at h
      obtain ⟨⟨⟨⟨⟨⟨⟨⟨⟨⟨⟨⟨⟨⟨⟨⟨⟨⟨g1, g2⟩, g3⟩, g4⟩, g5⟩, g6⟩, g7⟩, g8⟩, g9⟩, g10⟩, g11⟩, g12⟩,
        g13⟩, g14⟩, g15⟩, g16⟩, g17⟩, g18⟩, g19⟩ := h
      obtain ⟨a1, b1, rfl, -⟩ := digit_of_isDigit y1 g1
      obtain ⟨a2, b2, rfl, -⟩ := digit_of_isDigit y2 g2
      obtain ⟨a3, b3, rfl, -⟩ := digit_of_isDigit y3 g3
      obtain ⟨a4, b4, rfl, -⟩ := digit_of_isDigit y4 g4
      obtain ⟨a5, b5, rfl, -⟩ := digit_of_isDigit m1 g6
      obtain ⟨a6, b6, rfl, -⟩ := digit_of_isDigit m2 g7
      obtain ⟨a7, b7, rfl, -⟩ := digit_of_isDigit d1 g9
      obtain ⟨a8, b8, rfl, -⟩ := digit_of_isDigit d2 g10
      obtain ⟨a9, b9, rfl, -⟩ := digit_of_isDigit h1 g12
      obtain ⟨a10, b10, rfl, -⟩ := digit_of_isDigit h2 g13
      obtain ⟨a11, b11, rfl, -⟩ := digit_of_isDigit n1 g15
      obtain ⟨a12, b12, rfl, -⟩ := digit_of_isDigit n2 g16
      obtain ⟨a13, b13, rfl, -⟩ := digit_of_isDigit x1 g18
      obtain ⟨a14, b14, rfl, -⟩ := digit_of_isDigit x2 g19
      subst g5 g8 g11 g14 g17
      exact ⟨a1, a2, a3, a4, a5, a6, a7, a8, a9, a10, a11, a12, a13, a14, b1, b2, b3, b4, b5,
        b6, b7, b8, b9, b10, b11, b12, b13, b14, String.ext hdata⟩
    · exact absurd h (by simp)
  · rintro ⟨y1, y2, y3, y4, m1, m2, d1, d2, h1, h2, n1, n2, x1, x2, g1, g2, g3, g4, g5, g6, g7,
      g8, g9, g10, g11, g12, g13, g14, rfl⟩
    simp [matchesDateTimeRegex, dateText, timeText, (asciiDigit_spec _ g1).1,
      (asciiDigit_spec _ g2).1, (asciiDigit_spec _ g3).1, (asciiDigit_spec _ g4).1,
      (asciiDigit_spec _ g5).1, (asciiDigit_spec _ g6).1, (asciiDigit_spec _ g7).1,
      (asciiDigit_spec _ g8).1, (asciiDigit_spec _ g9).1, (asciiDigit_spec _ g10).1,
      (asciiDigit_spec _ g11).1, (asciiDigit_spec _ g12).1, (asciiDigit_spec _ g13).1,
      (asciiDigit_spec _ g14).1]

theorem getTimeDateTime_text (y1 y2 y3 y4 m1 m2 d1 d2 h1 h2 n1 n2 x1 x2 : Nat)
    (g1 : y1 < 10) (g2 : y2 < 10) (g3 : y3 < 10) (g4 : y4 < 10)
    (g5 : m1 < 10) (g6 : m2 < 10) (g7 : d1 < 10) (g8 : d2 < 10)
    (g9 : h1 < 10) (g10 : h2 < 10) (g11 : n1 < 10) (g12 : n2 < 10)
    (g13 : x1 < 10) (g14 : x2 < 10) :
    getTimeDateTime (dateText y1 y2 y3 y4 m1 m2 d1 d2 ++ " " ++ timeText h1 h2 n1 n2 x1 x2) =
      if (10 * m1 + m2 : Int) < 1 ∨ (10 * m1 + m2 : Int) > 12 ∨ (10 * d1 + d2 : Int) < 1 ∨
          (10 * d1 + d2 : Int) > 31 ∨ (10 * h1 + h2 : Int) > 23 ∨ (10 * n1 + n2 : Int) > 59 ∨
          (10 * x1 + x2 : Int) > 60 then none
      else some ⟨(1000 * y1 + 100 * y2 + 10 * y3 + y4 : Int) - 1900, (10 * m1 + m2 : Int) - 1,
        (10 * d1 + d2 : Int), (10 * h1 + h2 : Int), (10 * n1 + n2 : Int),
        (10 * x1 + x2 : Int)⟩ := by
  have hdata : (dateText y1 y2 y3 y4 m1 m2 d1 d2 ++ " " ++ timeText h1 h2 n1 n2 x1 x2).data =
      [asciiDigit y1, asciiDigit y2, asciiDigit y3, asciiDigit y4, '-', asciiDigit m1,
        asciiDigit m2, '-', asciiDigit d1, asciiDigit d2, ' ', asciiDigit h1, asciiDigit h2,
        ':', asciiDigit n1, asciiDigit n2, ':', asciiDigit x1, asciiDigit x2] := rfl
  simp only [getTimeDateTime, hdata, (asciiDigit_spec _ g1).2, (asciiDigit_spec _ g2).2,
    (asciiDigit_spec _ g3).2, (asciiDigit_spec _ g4).2, (asciiDigit_spec _ g5).2,
    (asciiDigit_spec _ g6).2, (asciiDigit_spec _ g7).2, (asciiDigit_spec _ g8).2,
    (asciiDigit_spec _ g9).2, (asciiDigit_spec _ g10).2, (asciiDigit_spec _ g11).2,
    (asciiDigit_spec _ g12).2, (asciiDigit_spec _ g13).2, (asciiDigit_spec _ g14).2]
  congr 1 <;> simp only [mul_comm]

theorem isValidDateTime_text (y1 y2 y3 y4 m1 m2 d1 d2 h1 h2 n1 n2 x1 x2 : Nat)
    (g1 : y1 < 10) (g2 : y2 < 10) (g3 : y3 < 10) (g4 : y4 < 10)
    (g5 : m1 < 10) (g6 : m2 < 10) (g7 : d1 < 10) (g8 : d2 < 10)
    (g9 : h1 < 10) (g10 : h2 < 10) (g11 : n1 < 10) (g12 : n2 < 10)
    (g13 : x1 < 10) (g14 : x2 < 10) :
    isValidDateTime
        (dateText y1 y2 y3 y4 m1 m2 d1 d2 ++ " " ++ timeText h1 h2 n1 n2 x1 x2) = true ↔
      (dateInRange (1000 * y1 + 100 * y2 + 10 * y3 + y4) (10 * m1 + m2) (10 * d1 + d2) ∧
        10 * h1 + h2 ≤ 23 ∧ 10 * n1 + n2 ≤ 59 ∧ 10 * x1 + x2 ≤ 59) := by
  have hre : matchesDateTimeRegex
      (dateText y1 y2 y3 y4 m1 m2 d1 d2 ++ " " ++ timeText h1 h2 n1 n2 x1 x2) = true :=
    (matchesDateTimeRegex_iff _).mpr ⟨y1, y2, y3, y4, m1, m2, d1, d2, h1, h2, n1, n2, x1, x2,
      g1, g2, g3, g4, g5, g6, g7, g8, g9, g10, g11, g12, g13, g14, rfl⟩
  have hdim := getDaysInMonth_le (1000 * y1 + 100 * y2 + 10 * y3 + y4) (10 * m1 + m2)
  unfold isValidDateTime dateInRange
  rw [getTimeDateTime_text y1 y2 y3 y4 m1 m2 d1 d2 h1 h2 n1 n2 x1 x2 g1 g2 g3 g4 g5 g6 g7 g8
    g9 g10 g11 g12 g13 g14]
  simp only [hre, Bool.not_true, Bool.false_eq_true, if_false]
  by_cases hc : (10 * m1 + m2 : Int) < 1 ∨ (10 * m1 + m2 : Int) > 12 ∨ (10 * d1 + d2 : Int) < 1 ∨
      (10 * d1 + d2 : Int) > 31 ∨ (10 * h1 + h2 : Int) > 23 ∨ (10 * n1 + n2 : Int) > 59 ∨
      (10 * x1 + x2 : Int) > 60
  · rw [if_pos hc]
    simp only [Bool.false_eq_true, false_iff]
    omega
  · rw [if_neg hc]
    simp only [sub_add_cancel]
    split_ifs <;> simp <;> omega

theorem isValidDateTime_iff_literal (s : String) :
    isValidDateTime s = true ↔ isDateTimeLiteral s := by
  constructor
  · intro hv
    have hre : matchesDateTimeRegex s = true := by
      by_contra hn
      simp [isValidDateTime, hn] at hv
    obtain ⟨y1, y2, y3, y4, m1, m2, d1, d2, h1, h2, n1, n2, x1, x2, g1, g2, g3, g4, g5, g6,
      g7, g8, g9, g10, g11, g12, g13, g14, rfl⟩ := (matchesDateTimeRegex_iff s).mp hre
    have hr := (isValidDateTime_text y1 y2 y3 y4 m1 m2 d1 d2 h1 h2 n1 n2 x1 x2 g1 g2 g3 g4 g5
      g6 g7 g8 g9 g10 g11 g12 g13 g14).mp hv
    exact ⟨y1, y2, y3, y4, m1, m2, d1, d2, h1, h2, n1, n2, x1, x2, g1, g2, g3, g4, g5, g6, g7,
      g8, g9, g10, g11, g12, g13, g14, rfl, hr.1, hr.2.1, hr.2.2.1, hr.2.2.2⟩
  · rintro ⟨y1, y2, y3, y4, m1, m2, d1, d2, h1, h2, n1, n2, x1, x2, g1, g2, g3, g4, g5, g6, g7,
      g8, g9, g10, g11, g12, g13, g14, rfl, hr, hh, hn, hx⟩
    exact (isValidDateTime_text y1 y2 y3 y4 m1 m2 d1 d2 h1 h2 n1 n2 x1 x2 g1 g2 g3 g4 g5
      g6 g7 g8 g9 g10 g11 g12 g13 g14).mpr ⟨hr, hh, hn, hx⟩

theorem isValidDate_iff_literal (s : String) : isValidDate s = true ↔ isDateLiteral s := by
  constructor
  · intro hv
    have hre : matchesDateRegex s = true := by
      by_contra hn
      simp [isValidDate, hn] at hv
    obtain ⟨y1, y2, y3, y4, m1, m2, d1, d2, h1, h2, h3, h4, h5, h6, h7, h8, rfl⟩ :=
      (matchesDateRegex_iff s).mp hre
    exact ⟨y1, y2, y3, y4, m1, m2, d1, d2, h1, h2, h3, h4, h5, h6, h7, h8, rfl,
      (isValidDate_dateText y1 y2 y3 y4 m1 m2 d1 d2 h1 h2 h3 h4 h5 h6 h7 h8).mp hv⟩
  · rintro ⟨y1, y2, y3, y4, m1, m2, d1, d2, h1, h2, h3, h4, h5, h6, h7, h8, rfl, hr⟩
    exact (isValidDate_dateText y1 y2 y3 y4 m1 m2 d1 d2 h1 h2 h3 h4 h5 h6 h7 h8).mpr hr

theorem parseDate_isSome_iff (utcOffset : Int) (s : String) :
    (parseDate utcOffset s).isSome = true ↔ isValidDate s = true := by
  unfold parseDate
  by_cases hv : isValidDate s = true
  · have hv2 := hv
    unfold isValidDate at hv2
    cases hg : getTimeDate s with
    | none => simp [hg] at hv2
    | some tm => simp [hv]
  · simp [hv]

theorem parseDateTime_isSome_iff (utcOffset : Int) (s : String) :
    (parseDateTime utcOffset s).isSome = true ↔ isValidDateTime s = true := by
  unfold parseDateTime
  by_cases hv : isValidDateTime s = true
  · have hv2 := hv
    unfold isValidDateTime at hv2
    cases hg : getTimeDateTime s with
    | none => simp [hg] at hv2
    | some tm => simp [hv]
  · simp [hv]

end DateUtils

/-- C13: `parseDate` returns a value, and `isValidDate` is true, exactly for the strings of
the form DDDD-DD-DD of ASCII digits with year in 1900..2100, month in 1..12 and day in
1..`getDaysInMonth`; for every other string `parseDate` returns the absent value. It rejects
2026-02-30, 2025-02-29, 2026-13-01, 2026-00-10 and 2023-02-29 and accepts 2024-02-29. -/
theorem parseDate_accepts_iff :
    (∀ (utcOffset : Int) (s : String),
      ((DateUtils.parseDate utcOffset s).isSome = true ↔ DateUtils.isValidDate s = true) ∧
      (DateUtils.isValidDate s = true ↔ DateUtils.isDateLiteral s) ∧
      (¬ DateUtils.isDateLiteral s → DateUtils.parseDate utcOffset s = none)) ∧
    (∀ utcOffset : Int,
      DateUtils.parseDate utcOffset "2026-02-30" = none ∧
      DateUtils.parseDate utcOffset "2025-02-29" = none ∧
      DateUtils.parseDate utcOffset "2026-13-01" = none ∧
      DateUtils.parseDate utcOffset "2026-00-10" = none ∧
      DateUtils.parseDate utcOffset "2023-02-29" = none ∧
      (DateUtils.parseDate utcOffset "2024-02-29").isSome = true) := by
  have hnone : ∀ (utcOffset : Int) (s : String), DateUtils.isValidDate s = false →
      DateUtils.parseDate utcOffset s = none := by
    intro utcOffset s h
    simp [DateUtils.parseDate, h]
  constructor
  · intro utcOffset s
    refine ⟨DateUtils.parseDate_isSome_iff utcOffset s, DateUtils.isValidDate_iff_literal s, ?_⟩
    intro hn
    apply hnone
    rw [← Bool.not_eq_true]
    exact fun hv => hn ((DateUtils.isValidDate_iff_literal s).mp hv)
  · intro utcOffset
    refine ⟨hnone _ _ (by decide), hnone _ _ (by decide), hnone _ _ (by decide),
      hnone _ _ (by decide), hnone _ _ (by decide), ?_⟩
    rw [DateUtils.parseDate_isSome_iff]
    decide

/-- C14: `parseDateTime` returns a value, and `isValidDateTime` is true, exactly for the
strings of the form DDDD-DD-DD DD:DD:DD of ASCII digits whose date part passes the
validation of `parseDate` and whose hour, minute and second are in 0..23, 0..59 and 0..59;
for every other string it returns the absent value. -/
theorem parseDateTime_accepts_iff :
    (∀ (utcOffset : Int) (s : String),
      ((DateUtils.parseDateTime utcOffset s).isSome = true ↔
        DateUtils.isValidDateTime s = true) ∧
      (DateUtils.isValidDateTime s = true ↔ DateUtils.isDateTimeLiteral s) ∧
      (¬ DateUtils.isDateTimeLiteral s → DateUtils.parseDateTime utcOffset s = none)) ∧
    DateUtils.isValidDateTime "2024-02-29 23:59:59" = true ∧
    DateUtils.isValidDateTime "2026-03-01 24:00:00" = false ∧
    DateUtils.isValidDateTime "2026-03-01 12:00:60" = false ∧
    DateUtils.isValidDateTime "2026-02-30 12:00:00" = false ∧
    DateUtils.isValidDateTime "2026-03-01" = false := by
  refine ⟨?_, by decide, by decide, by decide, by decide, by decide⟩
  intro utcOffset s
  refine ⟨DateUtils.parseDateTime_isSome_iff utcOffset s,
    DateUtils.isValidDateTime_iff_literal s, ?_⟩
  intro hn
  have hv : DateUtils.isValidDateTime s = false := by
    rw [← Bool.not_eq_true]
    exact fun hv => hn ((DateUtils.isValidDateTime_iff_literal s).mp hv)
  simp [DateUtils.parseDateTime, hv]

/-! ### Decoding, store errors and projections -/

theorem stringToStatus_eq_confirmed (status : String) :
    Booking.stringToStatus status = .Confirmed ↔ status = "confirmed" := by
  unfold Booking.stringToStatus
  split_ifs with h1 h2 h3 h4 h5 <;> simp_all

theorem stringToStatus_eq_checkedIn (status : String) :
    Booking.stringToStatus status = .CheckedIn ↔ status = "checked_in" := by
  unfold Booking.stringToStatus
  split_ifs with h1 h2 h3 h4 h5 <;> simp_all

/-- C21: decoding is case-sensitive and defaults instead of failing. Every string that is
not one of the five booking literals decodes to Pending, and every string that is not one
of the four room literals decodes to Available; so do `Confirmed`, `CHECKED_IN` and the
empty string decode to Pending. -/
theorem stringToStatus_default :
    (∀ x : String, x ≠ "pending" → x ≠ "confirmed" → x ≠ "checked_in" →
      x ≠ "checked_out" → x ≠ "cancelled" → Booking.stringToStatus x = .Pending) ∧
    (∀ x : String, x ≠ "available" → x ≠ "occupied" → x ≠ "maintenance" →
      x ≠ "reserved" → Room.stringToStatus x = .Available) ∧
    Booking.stringToStatus "Confirmed" = .Pending ∧
    Booking.stringToStatus "CHECKED_IN" = .Pending ∧
    Booking.stringToStatus "" = .Pending ∧
    Room.stringToStatus "Occupied" = .Available := by
  refine ⟨?_, ?_, by decide, by decide, by decide, by decide⟩
  · intro x h1 h2 h3 h4 h5
    simp [Booking.stringToStatus, h1, h2, h3, h4, h5]
  · intro x h1 h2 h3 h4
    simp [Room.stringToStatus, h1, h2, h3, h4]

/-- C21, instance: the text `Cancelled` with a capital letter. -/
theorem stringToStatus_default_witness :
    Booking.stringToStatus "Cancelled" = .Pending :=
  stringToStatus_default.1 "Cancelled" (by decide) (by decide) (by decide) (by decide)
    (by decide)

/-- C23, evaluation of the code. `getActiveBookingsCount` is the number of stored bookings
that are Confirmed or CheckedIn, for every store; but on a store with one booking that
checks in on the current date 2026-03-01 and one that checks out on it,
`getTodayCheckIns` and `getTodayCheckOuts` both return 0. -/
theorem today_counts_return_zero :
    (∀ db : DatabaseManager, BookingRepository.getActiveBookingsCount db =
      ((storedBookings db).filter fun r => (BookingRepository.rowToBooking r).isActive).length) ∧
    DateUtils.getCurrentDate 0 1772366400 = "2026-03-01" ∧
    ((storedBookings
        ⟨some ⟨[], [sampleRow 1 1 ⟨2026, 3, 1⟩ ⟨2026, 3, 5⟩ "confirmed",
          sampleRow 2 2 ⟨2026, 2, 25⟩ ⟨2026, 3, 1⟩ "checked_in"], 2⟩⟩).filter fun r =>
      (BookingRepository.rowToBooking r).checkInDate ==
        DateUtils.getCurrentDate 0 1772366400).length = 1 ∧
    BookingRepository.getTodayCheckIns
        ⟨some ⟨[], [sampleRow 1 1 ⟨2026, 3, 1⟩ ⟨2026, 3, 5⟩ "confirmed",
          sampleRow 2 2 ⟨2026, 2, 25⟩ ⟨2026, 3, 1⟩ "checked_in"], 2⟩⟩ = 0 ∧
    ((storedBookings
        ⟨some ⟨[], [sampleRow 1 1 ⟨2026, 3, 1⟩ ⟨2026, 3, 5⟩ "confirmed",
          sampleRow 2 2 ⟨2026, 2, 25⟩ ⟨2026, 3, 1⟩ "checked_in"], 2⟩⟩).filter fun r =>
      (BookingRepository.rowToBooking r).checkOutDate ==
        DateUtils.getCurrentDate 0 1772366400).length = 1 ∧
    BookingRepository.getTodayCheckOuts
        ⟨some ⟨[], [sampleRow 1 1 ⟨2026, 3, 1⟩ ⟨2026, 3, 5⟩ "confirmed",
          sampleRow 2 2 ⟨2026, 2, 25⟩ ⟨2026, 3, 1⟩ "checked_in"], 2⟩⟩ = 0 := by
  refine ⟨?_, by decide, by decide, rfl, by decide, rfl⟩
  intro db
  obtain ⟨c⟩ := db
  cases c with
  | none => rfl
  | some t =>
    simp only [BookingRepository.getActiveBookingsCount, DatabaseManager.executeReadTransaction,
      storedBookings]
    congr 2
    apply List.filter_congr
    intro r _
    have h1 := stringToStatus_eq_confirmed r.status
    have h2 := stringToStatus_eq_checkedIn r.status
    rw [Bool.eq_iff_iff]
    simp only [BookingRepository.rowToBooking, Booking.isActive, Bool.or_eq_true, beq_iff_eq,
      h1, h2]

/-- C24, evaluation of the code: on a connected store that holds a booking of room 1 made by
guest 1, `findByRoomId 1` and `findByGuestId 1` return the empty list, while `findByStatus`
returns the booking. -/
theorem find_by_room_and_guest_return_empty :
    ((storedBookings
        ⟨some ⟨[], [sampleRow 1 1 ⟨2026, 3, 1⟩ ⟨2026, 3, 5⟩ "confirmed"], 1⟩⟩).filter fun r =>
      (BookingRepository.rowToBooking r).roomId == 1 &&
        (BookingRepository.rowToBooking r).guestId == 1).length = 1 ∧
    BookingRepository.findByRoomId
        ⟨some ⟨[], [sampleRow 1 1 ⟨2026, 3, 1⟩ ⟨2026, 3, 5⟩ "confirmed"], 1⟩⟩ 1 = [] ∧
    BookingRepository.findByGuestId
        ⟨some ⟨[], [sampleRow 1 1 ⟨2026, 3, 1⟩ ⟨2026, 3, 5⟩ "confirmed"], 1⟩⟩ 1 = [] ∧
    (BookingRepository.findByStatus
        ⟨some ⟨[], [sampleRow 1 1 ⟨2026, 3, 1⟩ ⟨2026, 3, 5⟩ "confirmed"], 1⟩⟩
        .Confirmed).length = 1 := by
  decide

/-! ### Card numbers -/

namespace Validators

theorem luhnStep_digit (sum : Int) (alternate : Bool) (k : Nat) (c : Char)
    (hk : k % 2 = 1 ↔ alternate = true) (hc : c.isDigit = true) :
    luhnStep (sum, alternate) c = (sum + (luhnTerm k (c.toNat - 48) : Nat), !alternate) := by
  have hb : 48 ≤ c.toNat ∧ c.toNat ≤ 57 := by
    simp only [Char.isDigit, Bool.and_eq_true, decide_eq_true_eq] at hc
    exact ⟨hc.1, hc.2⟩
  have h0 : ('0'.toNat : Int) = 48 := by decide
  unfold luhnStep luhnTerm
  simp only [h0]
  cases alternate with
  | false =>
    have : k % 2 = 0 := by
      have := hk.not
      simp at this
      omega
    simp only [this, if_true]
    simp
    omega
  | true =>
    have : ¬ (k % 2 = 0) := by
      have := hk.mpr rfl
      omega
    simp only [this, if_false, if_true]
    split_ifs <;> simp <;> omega

theorem foldl_luhnStep (l : List Char) :
    ∀ (sum : Int) (alternate : Bool) (k : Nat), (k % 2 = 1 ↔ alternate = true) →
      (∀ c ∈ l, c.isDigit = true) →
      (l.foldl luhnStep (sum, alternate)).1 =
        sum + (luhnSumFrom k (l.map fun c => c.toNat - 48) : Nat) := by
  induction l with
  | nil => intro sum alternate k _ _; simp [luhnSumFrom]
  | cons c cs ih =>
    intro sum alternate k hk hd
    have hc := hd c (List.mem_cons_self _ _)
    rw [List.foldl_cons, luhnStep_digit sum alternate k c hk hc]
    rw [ih _ _ (k + 1) (by cases alternate <;> simp at hk ⊢ <;> omega)
      (fun x hx => hd x (List.mem_cons_of_mem _ hx))]
    simp only [List.map_cons, luhnSumFrom]
    push_cast
    ring

end Validators

/-- C26: `isValidCreditCard` is the Luhn check. With `ds` the decimal digits of the string,
the result is true exactly when `ds` has 13 to 19 digits and the Luhn sum of `ds`, taken
from the rightmost digit, is divisible by 10; the number 4111 1111 1111 1111 is accepted
and 4111 1111 1111 1112 is rejected. -/
theorem isValidCreditCard_luhn :
    (∀ s : String, Validators.isValidCreditCard s = true ↔
      13 ≤ (Validators.decimalDigits s).length ∧ (Validators.decimalDigits s).length ≤ 19 ∧
        10 ∣ Validators.luhnSum (Validators.decimalDigits s)) ∧
    Validators.isValidCreditCard "4111 1111 1111 1111" = true ∧
    Validators.isValidCreditCard "4111 1111 1111 1112" = false := by
  refine ⟨?_, by decide, by decide⟩
  intro s
  have hfold := Validators.foldl_luhnStep (s.data.filter Char.isDigit).reverse 0 false 0 (by simp)
    (by
      intro c hc
      rw [List.mem_reverse, List.mem_filter] at hc
      exact hc.2)
  unfold Validators.isValidCreditCard
  simp only [hfold, Validators.decimalDigits, Validators.luhnSum, List.length_map, List.map_reverse, zero_add]
  by_cases hlen : (s.data.filter Char.isDigit).length < 13 ∨
      (s.data.filter Char.isDigit).length > 19
  · rw [if_pos hlen]
    simp only [Bool.false_eq_true, false_iff]
    omega
  · rw [if_neg hlen]
    simp only [beq_iff_eq]
    constructor
    · intro h
      refine ⟨by omega, by omega, ?_⟩
      omega
    · intro h
      omega

/-! ### Invalid dates, symmetry and month lengths -/

theorem parseDate_of_invalid (utcOffset : Int) (s : String)
    (h : DateUtils.isValidDate s = false) : DateUtils.parseDate utcOffset s = none := by
  simp [DateUtils.parseDate, h]

theorem compareDates_of_invalid (utcOffset : Int) (a b : String)
    (h : DateUtils.isValidDate a = false ∨ DateUtils.isValidDate b = false) :
    DateUtils.compareDates utcOffset a b = 0 := by
  unfold DateUtils.compareDates
  rcases h with h | h
  · rw [parseDate_of_invalid utcOffset a h]
  · rw [parseDate_of_invalid utcOffset b h]
    cases DateUtils.parseDate utcOffset a <;> rfl

/-- C27: invalid dates silently mean no conflict. When one of two strings is not a valid
date `compareDates` is 0; so `overlaps` is false when the check-in date or the end of the
range is invalid, or the start of the range or the check-out date is invalid. -/
theorem invalid_dates_no_conflict (utcOffset : Int) (a b : String) (booking : Booking)
    (start stop : String) :
    ((DateUtils.isValidDate a = false ∨ DateUtils.isValidDate b = false) →
      DateUtils.compareDates utcOffset a b = 0) ∧
    ((DateUtils.isValidDate booking.checkInDate = false ∨ DateUtils.isValidDate stop = false ∨
        DateUtils.isValidDate start = false ∨
        DateUtils.isValidDate booking.checkOutDate = false) →
      booking.overlaps utcOffset start stop = false) := by
  refine ⟨compareDates_of_invalid utcOffset a b, ?_⟩
  intro h
  unfold Booking.overlaps
  rcases h with h | h | h | h
  · simp [compareDates_of_invalid utcOffset booking.checkInDate stop (Or.inl h)]
  · simp [compareDates_of_invalid utcOffset booking.checkInDate stop (Or.inr h)]
  · simp [compareDates_of_invalid utcOffset start booking.checkOutDate (Or.inl h)]
  · simp [compareDates_of_invalid utcOffset start booking.checkOutDate (Or.inr h)]

/-- C27, instance: a booking whose check-out text is 2026-02-30, asked about a range inside
its stay. -/
theorem invalid_dates_no_conflict_witness :
    (sampleBooking "2026-02-01" "2026-02-30" .Confirmed).overlaps 0
      "2026-02-10" "2026-02-12" = false :=
  (invalid_dates_no_conflict 0 "" "" (sampleBooking "2026-02-01" "2026-02-30" .Confirmed)
    "2026-02-10" "2026-02-12").2 (Or.inr (Or.inr (Or.inr (by decide))))

/-- C30: for every year, `getDaysInMonth` is 0 for a month outside 1..12 and between 28
and 31 otherwise, and the twelve months of a year add up to 366 days in a leap year and to
365 otherwise. -/
theorem getDaysInMonth_range_and_sum (year month : Int) :
    ((month < 1 ∨ month > 12) → DateUtils.getDaysInMonth year month = 0) ∧
    ((1 ≤ month ∧ month ≤ 12) →
      28 ≤ DateUtils.getDaysInMonth year month ∧ DateUtils.getDaysInMonth year month ≤ 31) ∧
    DateUtils.getDaysInMonth year 1 + DateUtils.getDaysInMonth year 2 +
      DateUtils.getDaysInMonth year 3 + DateUtils.getDaysInMonth year 4 +
      DateUtils.getDaysInMonth year 5 + DateUtils.getDaysInMonth year 6 +
      DateUtils.getDaysInMonth year 7 + DateUtils.getDaysInMonth year 8 +
      DateUtils.getDaysInMonth year 9 + DateUtils.getDaysInMonth year 10 +
      DateUtils.getDaysInMonth year 11 + DateUtils.getDaysInMonth year 12 =
      (if DateUtils.isLeapYear year = true then 366 else 365) := by
  refine ⟨?_, ?_, ?_⟩
  · intro h
    simp [DateUtils.getDaysInMonth, h]
  · intro hm
    have t := DateUtils.month_table year month hm _ rfl
    have hl : 0 ≤ (if DateUtils.isLeapYear year = true then (1 : Int) else 0) ∧
        (if DateUtils.isLeapYear year = true then (1 : Int) else 0) ≤ 1 := by
      split <;> omega
    generalize (if DateUtils.isLeapYear year = true then (1 : Int) else 0) = l at t hl
    generalize DateUtils.getDaysInMonth year month = b at t ⊢
    generalize DateUtils.daysBeforeMonth year month = a at t
    omega
  · by_cases h : DateUtils.isLeapYear year = true <;>
      simp [DateUtils.getDaysInMonth, DateUtils.daysInMonth, h]

/-- C30, instance: February of the leap year 2024 and of the year 2023. -/
theorem getDaysInMonth_range_and_sum_witness :
    28 ≤ DateUtils.getDaysInMonth 2024 2 ∧ DateUtils.getDaysInMonth 2024 2 ≤ 31 :=
  (getDaysInMonth_range_and_sum 2024 2).2.1 ⟨by decide, by decide⟩

/-! ## Environment lemmas -/

namespace Env

theorem wrap64_of_fits (n : Int) (h : fits64 n) : wrap64 n = n := by
  unfold fits64 at h
  unfold wrap64
  omega

theorem wrap32_of_small (n : Int) (h : -2147483648 ≤ n ∧ n ≤ 2147483647) : wrap32 n = n := by
  unfold wrap32
  omega

/-- The two outcomes of `parseDate`: nothing, without a call of `mktime`, on an invalid
string; and on a valid one the answer of `mktime` in nanoseconds, with the call recorded. -/
theorem parseDate_cases (lib : CLibrary) (calls : List Tm) (s : String) :
    (HotelManagement.DateUtils.isValidDate s = false ∧
      DateUtils.parseDate lib calls s = (none, calls)) ∨
    (∃ tm, HotelManagement.DateUtils.isValidDate s = true ∧
      HotelManagement.DateUtils.getTimeDate s = some tm ∧
      CLibrary.holdsValidDate tm ∧
      DateUtils.parseDate lib calls s =
        (some (wrap64 (lib.mktime calls tm * 1000000000)), calls ++ [tm])) := by
  unfold DateUtils.parseDate
  by_cases hv : HotelManagement.DateUtils.isValidDate s = true
  · right
    cases hg : HotelManagement.DateUtils.getTimeDate s with
    | none =>
      exfalso
      unfold HotelManagement.DateUtils.isValidDate at hv
      rw [hg] at hv
      by_cases hr : HotelManagement.DateUtils.matchesDateRegex s = true <;> simp [hr] at hv
    | some tm =>
      refine ⟨tm, hv, rfl, ?_, by simp [hv, DateUtils.tmToTimePoint]⟩
      have hc : HotelManagement.DateUtils.calendarDate s =
          some ⟨tm.tm_year + 1900, tm.tm_mon + 1, tm.tm_mday⟩ := by
        simp [HotelManagement.DateUtils.calendarDate, hv, hg]
      obtain ⟨hw, hy1, hy2, _⟩ :=
        HotelManagement.DateUtils.parseDate_of_calendarDate 0 s _ hc
      have hz : tm.tm_hour = 0 ∧ tm.tm_min = 0 ∧ tm.tm_sec = 0 := by
        unfold HotelManagement.DateUtils.getTimeDate at hg
        split at hg
        · simp only at hg
          split at hg
          · simp at hg
          · simp only [Option.some.injEq] at hg
            subst hg
            simp
        · simp at hg
      unfold HotelManagement.DateUtils.wellFormed at hw
      exact ⟨⟨hy1, hy2, hw.1, hw.2.1, hw.2.2.1, hw.2.2.2⟩, hz⟩
  · left
    simp only [Bool.not_eq_true] at hv
    exact ⟨hv, by simp [hv]⟩

/-- Day numbers of the dates of 1900..2100. -/
theorem daysFromCivil_range (c : CivilDate) (hw : HotelManagement.DateUtils.wellFormed c)
    (hy : 1900 ≤ c.year ∧ c.year ≤ 2100) :
    -25567 ≤ HotelManagement.DateUtils.daysFromCivil c.year c.month c.day ∧
    HotelManagement.DateUtils.daysFromCivil c.year c.month c.day ≤ 47846 := by
  have w1900 : HotelManagement.DateUtils.wellFormed ⟨1900, 1, 1⟩ := by
    unfold HotelManagement.DateUtils.wellFormed; decide
  have w2100 : HotelManagement.DateUtils.wellFormed ⟨2100, 12, 31⟩ := by
    unfold HotelManagement.DateUtils.wellFormed; decide
  have e1 : HotelManagement.DateUtils.daysFromCivil 1900 1 1 = -25567 := by decide
  have e2 : HotelManagement.DateUtils.daysFromCivil 2100 12 31 = 47846 := by decide
  have l1 := HotelManagement.DateUtils.daysFromCivil_lt_iff c ⟨1900, 1, 1⟩ hw w1900
  have l2 := HotelManagement.DateUtils.daysFromCivil_lt_iff ⟨2100, 12, 31⟩ c w2100 hw
  have hm := HotelManagement.DateUtils.getDaysInMonth_le c.year c.month
  unfold HotelManagement.DateUtils.wellFormed at hw
  simp only [CivilDate.before] at l1 l2
  constructor
  · by_contra hlt
    have := l1.mp (by omega)
    omega
  · by_contra hgt
    have := l2.mp (by omega)
    omega

/-- In a zone with a fixed offset `parseDate` gives local midnight of the date, in
nanoseconds, whatever was called before. -/
theorem parseDate_fixed (lib : CLibrary) (utcOffset : Int)
    (hz : lib.hasFixedOffset utcOffset) (calls : List Tm) (s : String) (c : CivilDate)
    (h : HotelManagement.DateUtils.calendarDate s = some c) :
    (DateUtils.parseDate lib calls s).1 =
      some ((HotelManagement.DateUtils.daysFromCivil c.year c.month c.day * 86400 - utcOffset)
        * 1000000000) := by
  obtain ⟨hw, hy1, hy2, hp⟩ :=
    HotelManagement.DateUtils.parseDate_of_calendarDate utcOffset s c h
  obtain ⟨hr1, hr2⟩ := daysFromCivil_range c hw ⟨hy1, hy2⟩
  obtain ⟨ho1, ho2, hm, _⟩ := hz
  rcases parseDate_cases lib calls s with ⟨hv, _⟩ | ⟨tm, hv, hg, hd, hq⟩
  · rw [(HotelManagement.DateUtils.isValidDate_iff_calendarDate s).mpr ⟨c, h⟩] at hv
    cases hv
  · rw [hq, hm calls tm hd]
    simp only [HotelManagement.DateUtils.parseDate, hv, hg, Bool.not_true, Bool.false_eq_true,
      if_false, HotelManagement.DateUtils.tmToTimePoint, Option.some.injEq] at hp
    rw [hp, wrap64_of_fits]
    unfold fits64
    omega

theorem parseDate_none_env (lib : CLibrary) (calls : List Tm) (s : String)
    (h : HotelManagement.DateUtils.calendarDate s = none) :
    DateUtils.parseDate lib calls s = (none, calls) := by
  rcases parseDate_cases lib calls s with ⟨_, hq⟩ | ⟨tm, hv, _, _, _⟩
  · exact hq
  · obtain ⟨c, hc⟩ := (HotelManagement.DateUtils.isValidDate_iff_calendarDate s).mp hv
    rw [hc] at h
    cases h

/-- In a zone with a fixed offset the comparison is the one of the fixed-offset model. -/
theorem compareDates_fixed (lib : CLibrary) (utcOffset : Int)
    (hz : lib.hasFixedOffset utcOffset) (calls : List Tm) (a b : String) :
    (DateUtils.compareDates lib calls a b).1 =
      HotelManagement.DateUtils.compareDates utcOffset a b := by
  unfold DateUtils.compareDates HotelManagement.DateUtils.compareDates
  simp only []
  cases ha : HotelManagement.DateUtils.calendarDate a with
  | none =>
    rw [parseDate_none_env lib calls a ha,
      HotelManagement.DateUtils.parseDate_none_of_calendarDate utcOffset a ha]
  | some x =>
    obtain ⟨_, _, _, pa⟩ := HotelManagement.DateUtils.parseDate_of_calendarDate utcOffset a x ha
    have qa := parseDate_fixed lib utcOffset hz calls a x ha
    cases hb : HotelManagement.DateUtils.calendarDate b with
    | none =>
      rw [parseDate_none_env lib _ b hb,
        HotelManagement.DateUtils.parseDate_none_of_calendarDate utcOffset b hb]
      rw [qa, pa]
    | some y =>
      obtain ⟨_, _, _, pb⟩ :=
        HotelManagement.DateUtils.parseDate_of_calendarDate utcOffset b y hb
      have qb := parseDate_fixed lib utcOffset hz
        (DateUtils.parseDate lib calls a).2 b y hb
      rw [qa, qb, pa, pb]
      simp only
      split_ifs <;> omega

/-- In a zone with a fixed offset `overlaps` is the one of the fixed-offset model. -/
theorem overlaps_fixed (lib : CLibrary) (utcOffset : Int)
    (hz : lib.hasFixedOffset utcOffset) (calls : List Tm) (b : HotelManagement.Booking)
    (start stop : String) :
    (Booking.overlaps lib calls b start stop).1 = b.overlaps utcOffset start stop := by
  unfold Booking.overlaps HotelManagement.Booking.overlaps
  simp only [compareDates_fixed lib utcOffset hz]

/-- In a zone with a fixed offset, `daysBetween` on valid dates is the difference of the day
numbers. -/
theorem daysBetween_fixed_days (lib : CLibrary) (utcOffset : Int)
    (hz : lib.hasFixedOffset utcOffset) (calls : List Tm) (a b : String) (x y : CivilDate)
    (ha : HotelManagement.DateUtils.calendarDate a = some x)
    (hb : HotelManagement.DateUtils.calendarDate b = some y) :
    (DateUtils.daysBetween lib calls a b).1 =
      HotelManagement.DateUtils.daysFromCivil y.year y.month y.day -
        HotelManagement.DateUtils.daysFromCivil x.year x.month x.day := by
  obtain ⟨wx, x1, x2, _⟩ :=
    HotelManagement.DateUtils.parseDate_of_calendarDate utcOffset a x ha
  obtain ⟨wy, y1, y2, _⟩ :=
    HotelManagement.DateUtils.parseDate_of_calendarDate utcOffset b y hb
  have qa := parseDate_fixed lib utcOffset hz calls a x ha
  have qb := parseDate_fixed lib utcOffset hz
    (DateUtils.parseDate lib calls a).2 b y hb
  obtain ⟨rx1, rx2⟩ := daysFromCivil_range x wx ⟨x1, x2⟩
  obtain ⟨ry1, ry2⟩ := daysFromCivil_range y wy ⟨y1, y2⟩
  obtain ⟨ho1, ho2, _, _⟩ := hz
  unfold DateUtils.daysBetween
  simp only []
  rw [qa, qb]
  simp only [DateUtils.daysBetweenPoints]
  rw [wrap64_of_fits _ (by unfold fits64; omega)]
  rw [show (HotelManagement.DateUtils.daysFromCivil y.year y.month y.day * 86400 - utcOffset)
        * 1000000000 -
      (HotelManagement.DateUtils.daysFromCivil x.year x.month x.day * 86400 - utcOffset)
        * 1000000000 =
      ((HotelManagement.DateUtils.daysFromCivil y.year y.month y.day -
        HotelManagement.DateUtils.daysFromCivil x.year x.month x.day) * 24) * 3600000000000
    by ring]
  rw [Int.mul_tdiv_cancel _ (by norm_num), Int.mul_tdiv_cancel _ (by norm_num)]

/-- In a zone with a fixed offset `daysBetween` is the one of the fixed-offset model. -/
theorem daysBetween_fixed (lib : CLibrary) (utcOffset : Int)
    (hz : lib.hasFixedOffset utcOffset) (calls : List Tm) (a b : String) :
    (DateUtils.daysBetween lib calls a b).1 =
      HotelManagement.DateUtils.daysBetween utcOffset a b := by
  cases ha : HotelManagement.DateUtils.calendarDate a with
  | none =>
    unfold DateUtils.daysBetween HotelManagement.DateUtils.daysBetween
    simp only []
    rw [parseDate_none_env lib calls a ha,
      HotelManagement.DateUtils.parseDate_none_of_calendarDate utcOffset a ha]
  | some x =>
    cases hb : HotelManagement.DateUtils.calendarDate b with
    | none =>
      unfold DateUtils.daysBetween HotelManagement.DateUtils.daysBetween
      simp only []
      rw [parseDate_none_env lib _ b hb,
        HotelManagement.DateUtils.parseDate_none_of_calendarDate utcOffset b hb]
      cases (DateUtils.parseDate lib calls a).1 <;>
        cases HotelManagement.DateUtils.parseDate utcOffset a <;> rfl
    | some y =>
      rw [daysBetween_fixed_days lib utcOffset hz calls a b x y ha hb,
        HotelManagement.DateUtils.daysBetween_of_calendarDate utcOffset a b x y ha hb]

/-- In a zone with a fixed offset, `addDays` on a valid date writes the date whose day
number is `days` more, when that day is one of 1900..2100. -/
theorem addDays_fixed (lib : CLibrary) (utcOffset : Int)
    (hz : lib.hasFixedOffset utcOffset) (calls : List Tm) (s : String) (days : Int)
    (c : CivilDate) (h : HotelManagement.DateUtils.calendarDate s = some c)
    (hlo : -25567 ≤ HotelManagement.DateUtils.daysFromCivil c.year c.month c.day + days)
    (hhi : HotelManagement.DateUtils.daysFromCivil c.year c.month c.day + days ≤ 47846) :
    (DateUtils.addDays lib calls s days).1 = HotelManagement.DateUtils.addDays utcOffset s days := by
  obtain ⟨hw, hy1, hy2, hp⟩ :=
    HotelManagement.DateUtils.parseDate_of_calendarDate utcOffset s c h
  have q := parseDate_fixed lib utcOffset hz calls s c h
  obtain ⟨hr1, hr2⟩ := daysFromCivil_range c hw ⟨hy1, hy2⟩
  obtain ⟨ho1, ho2, _, hl⟩ := hz
  unfold DateUtils.addDays HotelManagement.DateUtils.addDays
  simp only []
  rw [q, hp]
  simp only [DateUtils.formatDate, HotelManagement.DateUtils.formatDate, DateUtils.timePointToTm]
  rw [wrap32_of_small _ (by omega), wrap64_of_fits (24 * days * 3600000000000)
    (by unfold fits64; omega), wrap64_of_fits _ (by unfold fits64; omega)]
  rw [show (HotelManagement.DateUtils.daysFromCivil c.year c.month c.day * 86400 - utcOffset)
        * 1000000000 + 24 * days * 3600000000000 =
      (HotelManagement.DateUtils.daysFromCivil c.year c.month c.day * 86400 - utcOffset
        + 3600 * (24 * days)) * 1000000000 by ring,
    Int.mul_tdiv_cancel _ (by norm_num), hl _ (by omega) (by omega)]

theorem CLibrary.historyFree_of_fixed (lib : CLibrary) (utcOffset : Int)
    (hz : lib.hasFixedOffset utcOffset) : lib.historyFree := by
  intro c1 c2 tm hd
  rw [hz.2.2.1 c1 tm hd, hz.2.2.1 c2 tm hd]

/-- When `mktime` does not depend on the earlier calls, neither does the value of
`parseDate`. -/
theorem parseDate_historyFree (lib : CLibrary) (h : lib.historyFree) (calls1 calls2 : List Tm)
    (s : String) : (DateUtils.parseDate lib calls1 s).1 = (DateUtils.parseDate lib calls2 s).1 := by
  rcases parseDate_cases lib calls1 s with ⟨_, h1⟩ | ⟨tm1, _, g1, d1, h1⟩ <;>
    rcases parseDate_cases lib calls2 s with ⟨v2, h2⟩ | ⟨tm2, v2, g2, _, h2⟩
  · rw [h1, h2]
  · rw [h1, h2]; simp_all
  · rw [h1, h2]; simp_all
  · rw [h1, h2]
    rw [g1] at g2
    cases g2
    simp only
    rw [h calls1 calls2 tm1 d1]

/-- The value of `compareDates` as a function of the two parsed time points. -/
theorem compareDates_fst (lib : CLibrary) (calls : List Tm) (a b : String) :
    (DateUtils.compareDates lib calls a b).1 =
      match (DateUtils.parseDate lib calls a).1,
        (DateUtils.parseDate lib (DateUtils.parseDate lib calls a).2 b).1 with
      | some v1, some v2 => if v1 < v2 then -1 else if v1 > v2 then 1 else 0
      | _, _ => 0 := by
  unfold DateUtils.compareDates
  simp only []
  cases (DateUtils.parseDate lib calls a).1 <;>
    cases (DateUtils.parseDate lib (DateUtils.parseDate lib calls a).2 b).1 <;> rfl

theorem compareDates_historyFree (lib : CLibrary) (h : lib.historyFree)
    (calls1 calls2 : List Tm) (a b : String) :
    (DateUtils.compareDates lib calls1 a b).1 = (DateUtils.compareDates lib calls2 a b).1 := by
  rw [compareDates_fst, compareDates_fst,
    parseDate_historyFree lib h calls1 calls2 a,
    parseDate_historyFree lib h (DateUtils.parseDate lib calls1 a).2
      (DateUtils.parseDate lib calls2 a).2 b]

/-- The value of `daysBetween` as a function of the two parsed time points. -/
theorem daysBetween_fst (lib : CLibrary) (calls : List Tm) (a b : String) :
    (DateUtils.daysBetween lib calls a b).1 =
      match (DateUtils.parseDate lib calls a).1,
        (DateUtils.parseDate lib (DateUtils.parseDate lib calls a).2 b).1 with
      | some v1, some v2 => DateUtils.daysBetweenPoints v1 v2
      | _, _ => 0 := by
  unfold DateUtils.daysBetween
  simp only []
  cases (DateUtils.parseDate lib calls a).1 <;>
    cases (DateUtils.parseDate lib (DateUtils.parseDate lib calls a).2 b).1 <;> rfl

theorem parseDate_invalid_env (lib : CLibrary) (calls : List Tm) (s : String)
    (h : HotelManagement.DateUtils.isValidDate s = false) :
    DateUtils.parseDate lib calls s = (none, calls) := by
  simp [DateUtils.parseDate, h]

/-- The outcomes of `create` on a connected store, by what the server does. -/
theorem create_on_server (srv : Server) (stamp : String) (t : Tables)
    (booking : HotelManagement.Booking) :
    BookingRepository.create srv stamp ⟨some t⟩ booking =
      match srv.beginFails with
      | some _ => (-1, ⟨some t⟩)
      | none =>
        match srv.execFails with
        | some _ => (-1, ⟨some t⟩)
        | none =>
          match sqlDate srv booking.checkInDate, sqlDate srv booking.checkOutDate with
          | .ok ci, .ok co =>
            match srv.checkInsert t (HotelManagement.BookingRepository.insertedRow stamp
                ((t.bookingSeq : Int) + 1) ci co booking) with
            | .error _ => (-1, ⟨some ⟨t.rooms, t.bookings, t.bookingSeq + 1⟩⟩)
            | .ok _ =>
              if asInt ((t.bookingSeq : Int) + 1) = true then
                match srv.commit with
                | .committed =>
                  (((t.bookingSeq : Int) + 1),
                    ⟨some ⟨t.rooms, t.bookings ++
                      [HotelManagement.BookingRepository.insertedRow stamp
                        ((t.bookingSeq : Int) + 1) ci co booking], t.bookingSeq + 1⟩⟩)
                | .failed _ => (-1, ⟨some ⟨t.rooms, t.bookings, t.bookingSeq + 1⟩⟩)
                | .inDoubt _ true =>
                  (-1, ⟨some ⟨t.rooms, t.bookings ++
                      [HotelManagement.BookingRepository.insertedRow stamp
                        ((t.bookingSeq : Int) + 1) ci co booking], t.bookingSeq + 1⟩⟩)
                | .inDoubt _ false => (-1, ⟨some ⟨t.rooms, t.bookings, t.bookingSeq + 1⟩⟩)
              else (-1, ⟨some ⟨t.rooms, t.bookings, t.bookingSeq + 1⟩⟩)
          | _, _ => (-1, ⟨some t⟩) := by
  unfold BookingRepository.create DatabaseManager.executeTransaction
  simp only []
  cases hb : srv.beginFails with
  | some e => rfl
  | none =>
    simp only [exec, Work.start]
    cases he : srv.execFails with
    | some e => simp [Work.close]
    | none =>
      simp only [BookingRepository.insertStatement]
      generalize ((t.bookingSeq : Int) + 1) = newId
      cases h1 : sqlDate srv booking.checkInDate with
      | error e => simp [Work.close]
      | ok ci =>
        cases h2 : sqlDate srv booking.checkOutDate with
        | error e => simp [Work.close]
        | ok co =>
          simp only []
          cases h3 : srv.checkInsert t (HotelManagement.BookingRepository.insertedRow stamp
              newId ci co booking) with
          | error e => simp [Work.close]
          | ok u =>
            simp only []
            split_ifs with h4
            · cases hc : srv.commit with
              | committed => simp only [Work.commit, hc, Work.close, if_true]
              | failed e => simp only [Work.commit, hc, Work.close, Bool.false_eq_true, if_false]
              | inDoubt e applied =>
                cases applied
                · simp only [Work.commit, hc, Work.close, Bool.false_eq_true, if_false]
                · simp only [Work.commit, hc, Work.close, if_true]
            · simp only [Work.close, Bool.false_eq_true, if_false]

theorem asInt_iff (n : Int) : asInt n = true ↔ -2147483648 ≤ n ∧ n ≤ 2147483647 := by
  cases n with
  | ofNat k =>
    simp only [asInt, Nat.ble_eq, Int.ofNat_eq_coe]
    omega
  | negSucc k =>
    simp only [asInt, Nat.ble_eq, Int.negSucc_eq]
    omega

/-- The outcomes of `checkIn` on a connected store, by what the server does. -/
theorem checkIn_on_server (srv : Server) (utcOffset clock : Int) (t : Tables) (bookingId : Int) :
    BookingRepository.checkIn srv utcOffset clock ⟨some t⟩ bookingId =
      match srv.beginFails with
      | some _ => (false, ⟨some t⟩)
      | none =>
        match srv.execFails with
        | some _ => (false, ⟨some t⟩)
        | none =>
          match srv.commit with
          | .committed =>
            (decide ((t.bookings.filter fun b => b.id == bookingId).length > 0),
              ⟨some ⟨t.rooms, t.bookings.map fun b =>
                if b.id = bookingId then
                  { b with status := "checked_in"
                           actual_check_in := some
                             (HotelManagement.DateUtils.getCurrentDateTime utcOffset clock) }
                else b, t.bookingSeq⟩⟩)
          | .failed _ => (false, ⟨some t⟩)
          | .inDoubt _ true =>
            (false,
              ⟨some ⟨t.rooms, t.bookings.map fun b =>
                if b.id = bookingId then
                  { b with status := "checked_in"
                           actual_check_in := some
                             (HotelManagement.DateUtils.getCurrentDateTime utcOffset clock) }
                else b, t.bookingSeq⟩⟩)
          | .inDoubt _ false => (false, ⟨some t⟩) := by
  unfold BookingRepository.checkIn DatabaseManager.executeTransaction
  simp only []
  cases hb : srv.beginFails with
  | some e => rfl
  | none =>
    simp only [exec, Work.start]
    cases he : srv.execFails with
    | some e => simp [Work.close]
    | none =>
      simp only [BookingRepository.updateStatement]
      cases hc : srv.commit with
      | committed => simp [Work.commit, hc, Work.close]
      | failed e => simp [Work.commit, hc, Work.close]
      | inDoubt e applied =>
        cases applied <;> simp [Work.commit, hc, Work.close]

/-- The outcomes of `checkOut` on a connected store, by what the server does. -/
theorem checkOut_on_server (srv : Server) (utcOffset clock : Int) (t : Tables) (bookingId : Int) :
    BookingRepository.checkOut srv utcOffset clock ⟨some t⟩ bookingId =
      match srv.beginFails with
      | some _ => (false, ⟨some t⟩)
      | none =>
        match srv.execFails with
        | some _ => (false, ⟨some t⟩)
        | none =>
          match srv.commit with
          | .committed =>
            (decide ((t.bookings.filter fun b => b.id == bookingId).length > 0),
              ⟨some ⟨t.rooms, t.bookings.map fun b =>
                if b.id = bookingId then
                  { b with status := "checked_out"
                           actual_check_out := some
                             (HotelManagement.DateUtils.getCurrentDateTime utcOffset clock) }
                else b, t.bookingSeq⟩⟩)
          | .failed _ => (false, ⟨some t⟩)
          | .inDoubt _ true =>
            (false,
              ⟨some ⟨t.rooms, t.bookings.map fun b =>
                if b.id = bookingId then
                  { b with status := "checked_out"
                           actual_check_out := some
                             (HotelManagement.DateUtils.getCurrentDateTime utcOffset clock) }
                else b, t.bookingSeq⟩⟩)
          | .inDoubt _ false => (false, ⟨some t⟩) := by
  unfold BookingRepository.checkOut DatabaseManager.executeTransaction
  simp only []
  cases hb : srv.beginFails with
  | some e => rfl
  | none =>
    simp only [exec, Work.start]
    cases he : srv.execFails with
    | some e => simp [Work.close]
    | none =>
      simp only [BookingRepository.updateStatement]
      cases hc : srv.commit with
      | committed => simp [Work.commit, hc, Work.close]
      | failed e => simp [Work.commit, hc, Work.close]
      | inDoubt e applied =>
        cases applied <;> simp [Work.commit, hc, Work.close]

/-- The conversion of a list of rows fails when the conversion of one of its rows fails. -/
theorem rowsToBookings_error_of_mem (l : List BookingRow) (row : BookingRow) (e : String)
    (hrow : row ∈ l) (he : BookingRepository.rowToBooking row = .error e) :
    ∃ e2, BookingRepository.rowsToBookings l = .error e2 := by
  induction l with
  | nil => cases hrow
  | cons a as ih =>
    unfold BookingRepository.rowsToBookings
    cases ha : BookingRepository.rowToBooking a with
    | error e1 => exact ⟨e1, rfl⟩
    | ok b =>
      have hmem : row ∈ as := by
        rcases List.mem_cons.mp hrow with h | h
        · subst h
          rw [he] at ha
          cases ha
        · exact h
      obtain ⟨e2, h2⟩ := ih hmem
      exact ⟨e2, by simp only [h2]⟩

/-- On a server where nothing fails, `checkIn` is the one of the first part. -/
theorem checkIn_accepting (utcOffset clock : Int) (db : HotelManagement.DatabaseManager)
    (bookingId : Int) :
    BookingRepository.checkIn Server.accepting utcOffset clock db bookingId =
      HotelManagement.BookingRepository.checkIn utcOffset clock db bookingId := by
  obtain ⟨c⟩ := db
  cases c with
  | none => rfl
  | some t => rw [checkIn_on_server]; rfl

/-- On a server where nothing fails, `checkOut` is the one of the first part. -/
theorem checkOut_accepting (utcOffset clock : Int) (db : HotelManagement.DatabaseManager)
    (bookingId : Int) :
    BookingRepository.checkOut Server.accepting utcOffset clock db bookingId =
      HotelManagement.BookingRepository.checkOut utcOffset clock db bookingId := by
  obtain ⟨c⟩ := db
  cases c with
  | none => rfl
  | some t => rw [checkOut_on_server]; rfl

/-- On that server the reading of a date text is the one of the first part. -/
theorem sqlDate_accepting (s : String) :
    sqlDate Server.accepting s = HotelManagement.sqlDate s := by
  unfold sqlDate HotelManagement.sqlDate
  cases h : HotelManagement.DateUtils.matchesDateRegex s <;> simp [Server.accepting]

/-- On a server where nothing fails and whose table accepts every row, `create` is the one
of the first part as long as the new id is an `int`. -/
theorem create_accepting (stamp : String) (t : Tables) (booking : HotelManagement.Booking)
    (h : asInt ((t.bookingSeq : Int) + 1) = true) :
    BookingRepository.create Server.accepting stamp ⟨some t⟩ booking =
      HotelManagement.BookingRepository.create stamp ⟨some t⟩ booking := by
  rw [create_on_server]
  simp only [sqlDate_accepting]
  rcases create_cases stamp ⟨some t⟩ booking with hc | ⟨t2, ci, co, ht, h1, h2, hc⟩
  · rw [hc]
    cases h1 : HotelManagement.sqlDate booking.checkInDate with
    | error e => rfl
    | ok ci =>
      cases h2 : HotelManagement.sqlDate booking.checkOutDate with
      | error e => rfl
      | ok co =>
        exfalso
        simp [HotelManagement.BookingRepository.create,
          HotelManagement.DatabaseManager.executeTransaction, execStatement, h1, h2, bind,
          Except.bind, pure, Except.pure] at hc
        omega
  · simp only [Option.some.injEq] at ht
    subst ht
    rw [hc, h1, h2]
    simp only [Server.accepting, h, if_true]
    simp

end Env

/-! ### Claims that depend on the time zone -/

/-- C12, as stated, fails. When the commit raises, `executeTransaction` does not return the
result of a function that returned normally, and its writes are not in the store; and when
the function has drawn a value from the sequence and then raises, the store is not the one
before the transaction: the value stays drawn. -/
theorem executeTransaction_commit_raises :
    (Env.DatabaseManager.executeTransaction
        { Env.Server.accepting with commit := .failed "could not serialize access" }
        ⟨some ⟨[], [sampleRow 1 1 ⟨2026, 3, 1⟩ ⟨2026, 3, 5⟩ "confirmed"], 1⟩⟩
        (fun t => ((Except.ok 7 : Except String Int), { t with bookings := [] }))).1 =
      .error "could not serialize access" ∧
    (Env.DatabaseManager.executeTransaction
        { Env.Server.accepting with commit := .failed "could not serialize access" }
        ⟨some ⟨[], [sampleRow 1 1 ⟨2026, 3, 1⟩ ⟨2026, 3, 5⟩ "confirmed"], 1⟩⟩
        (fun t => ((Except.ok 7 : Except String Int), { t with bookings := [] }))).2 =
      ⟨some ⟨[], [sampleRow 1 1 ⟨2026, 3, 1⟩ ⟨2026, 3, 5⟩ "confirmed"], 1⟩⟩ ∧
    (Env.DatabaseManager.executeTransaction Env.Server.accepting
        ⟨some ⟨[], [sampleRow 1 1 ⟨2026, 3, 1⟩ ⟨2026, 3, 5⟩ "confirmed"], 1⟩⟩
        (fun t => ((Except.error "failed" : Except String Int),
          { t with bookings := [], bookingSeq := t.bookingSeq + 1 }))).2 =
      ⟨some ⟨[], [sampleRow 1 1 ⟨2026, 3, 1⟩ ⟨2026, 3, 5⟩ "confirmed"], 2⟩⟩ := by
  refine ⟨rfl, by decide, by decide⟩

/-- C12, amended: transaction atomicity. On a connected store: when `BEGIN` raises, the
error is passed on and the store is unchanged. Otherwise, when `func` returns normally and
the commit succeeds, `executeTransaction` returns the result of `func` and the store holds
its writes; when `func` raises, or the commit raises, the error is passed on and the rows
of the store are exactly those before the transaction, whatever `func` had written by then,
and only the values `func` drew from the sequence stay drawn; and when the connection is
lost during the commit, the error is passed on and the store holds either all the writes of
`func` or the rows before the transaction. -/
theorem executeTransaction_all_or_nothing {α : Type} (srv : Env.Server) (t : Tables)
    (func : Tables → Except String α × Tables) :
    (∀ e : String, srv.beginFails = some e →
      Env.DatabaseManager.executeTransaction srv ⟨some t⟩ func = (.error e, ⟨some t⟩)) ∧
    (srv.beginFails = none →
      (∀ (result : α) (written : Tables), func t = (.ok result, written) →
        (srv.commit = .committed →
          Env.DatabaseManager.executeTransaction srv ⟨some t⟩ func =
            (.ok result, ⟨some written⟩)) ∧
        (∀ e : String, srv.commit = .failed e →
          Env.DatabaseManager.executeTransaction srv ⟨some t⟩ func =
            (.error e, ⟨some ⟨t.rooms, t.bookings, written.bookingSeq⟩⟩)) ∧
        (∀ e : String, srv.commit = .inDoubt e true →
          Env.DatabaseManager.executeTransaction srv ⟨some t⟩ func =
            (.error e, ⟨some written⟩)) ∧
        (∀ e : String, srv.commit = .inDoubt e false →
          Env.DatabaseManager.executeTransaction srv ⟨some t⟩ func =
            (.error e, ⟨some ⟨t.rooms, t.bookings, written.bookingSeq⟩⟩))) ∧
      (∀ (e : String) (written : Tables), func t = (.error e, written) →
        Env.DatabaseManager.executeTransaction srv ⟨some t⟩ func =
          (.error e, ⟨some ⟨t.rooms, t.bookings, written.bookingSeq⟩⟩))) := by
  constructor
  · intro e he
    simp only [Env.DatabaseManager.executeTransaction, he]
  · intro hb
    constructor
    · intro result written hf
      refine ⟨?_, ?_, ?_, ?_⟩
      · intro hc
        simp only [Env.DatabaseManager.executeTransaction, hb, Env.Work.start, hf,
          Env.Work.commit, hc, Env.Work.close, if_true]
      · intro e hc
        simp only [Env.DatabaseManager.executeTransaction, hb, Env.Work.start, hf,
          Env.Work.commit, hc, Env.Work.close, Bool.false_eq_true, if_false]
      · intro e hc
        simp only [Env.DatabaseManager.executeTransaction, hb, Env.Work.start, hf,
          Env.Work.commit, hc, Env.Work.close, if_true]
      · intro e hc
        simp only [Env.DatabaseManager.executeTransaction, hb, Env.Work.start, hf,
          Env.Work.commit, hc, Env.Work.close, Bool.false_eq_true, if_false]
    · intro e written hf
      simp only [Env.DatabaseManager.executeTransaction, hb, Env.Work.start, hf,
        Env.Work.close, Bool.false_eq_true, if_false]

/-- C12, amended, instance: on a server where nothing fails, a function that deletes every
booking and then raises leaves the stored booking in place. -/
theorem executeTransaction_all_or_nothing_witness :
    Env.DatabaseManager.executeTransaction Env.Server.accepting
        ⟨some ⟨[], [sampleRow 1 1 ⟨2026, 3, 1⟩ ⟨2026, 3, 5⟩ "confirmed"], 1⟩⟩
        (fun t => ((Except.error "failed" : Except String Int), { t with bookings := [] })) =
      (.error "failed",
        ⟨some ⟨[], [sampleRow 1 1 ⟨2026, 3, 1⟩ ⟨2026, 3, 5⟩ "confirmed"], 1⟩⟩) :=
  ((executeTransaction_all_or_nothing Env.Server.accepting
    ⟨[], [sampleRow 1 1 ⟨2026, 3, 1⟩ ⟨2026, 3, 5⟩ "confirmed"], 1⟩
    (fun t => ((Except.error "failed" : Except String Int), { t with bookings := [] }))).2
    rfl).2 "failed" ⟨[], [], 1⟩ rfl

/-- C10, as stated, fails on a server whose table accepts the row: a booking whose
check-in date is after its check-out date (and which `Booking::isValid` accepts) is
inserted, and its new id is returned. -/
theorem create_accepts_inverted_stay :
    (sampleBooking "2026-03-05" "2026-03-01" .Pending).isValid = true ∧
    ¬ DateUtils.dateBefore (sampleBooking "2026-03-05" "2026-03-01" .Pending).checkInDate
        (sampleBooking "2026-03-05" "2026-03-01" .Pending).checkOutDate ∧
    (Env.BookingRepository.create Env.Server.accepting "" ⟨some ⟨[], [], 0⟩⟩
        (sampleBooking "2026-03-05" "2026-03-01" .Pending)).1 = 1 ∧
    (storedBookings (Env.BookingRepository.create Env.Server.accepting ""
        ⟨some ⟨[], [], 0⟩⟩ (sampleBooking "2026-03-05" "2026-03-01" .Pending)).2).map
      (fun b => (b.check_in_date, b.check_out_date)) =
      [((⟨2026, 3, 5⟩ : CivilDate), (⟨2026, 3, 1⟩ : CivilDate))] := by
  decide

/-- C10, amended: `create` tests none of `guestId`, `roomId`, `numAdults` or the order of
the dates; every rejection is the store's. On a connected store where no call raises, a
booking whose two date texts the server reads, whose row the table accepts and whose new id
is an `int` is inserted as passed and its new, positive id returned. When `create`
returns -1 the rooms and the bookings of the store are those before the call, unless the
connection was lost during a commit that the server had applied. When `create` returns
another value, the store was connected, the server read both dates, the table accepted the
row, and the row was inserted. -/
theorem create_leaves_validation_to_store (srv : Env.Server) (stamp : String)
    (db : DatabaseManager) (booking : Booking) :
    (∀ (t : Tables) (ci co : CivilDate), db.connection = some t →
      srv.beginFails = none → srv.execFails = none → srv.commit = .committed →
      Env.sqlDate srv booking.checkInDate = .ok ci →
      Env.sqlDate srv booking.checkOutDate = .ok co →
      srv.checkInsert t
        (BookingRepository.insertedRow stamp ((t.bookingSeq : Int) + 1) ci co booking)
          = .ok () →
      Env.asInt ((t.bookingSeq : Int) + 1) = true →
      (Env.BookingRepository.create srv stamp db booking).1 > 0 ∧
      Env.BookingRepository.create srv stamp db booking =
        ((t.bookingSeq : Int) + 1,
          ⟨some ⟨t.rooms, t.bookings ++
            [BookingRepository.insertedRow stamp ((t.bookingSeq : Int) + 1) ci co booking],
            t.bookingSeq + 1⟩⟩)) ∧
    ((Env.BookingRepository.create srv stamp db booking).1 = -1 →
      (∃ e, srv.commit = .inDoubt e true) ∨
      ((Env.BookingRepository.create srv stamp db booking).2.connection.map
          (fun t => (t.rooms, t.bookings)) =
        db.connection.map (fun t => (t.rooms, t.bookings)))) ∧
    ((Env.BookingRepository.create srv stamp db booking).1 ≠ -1 →
      ∃ (t : Tables) (ci co : CivilDate), db.connection = some t ∧
        Env.sqlDate srv booking.checkInDate = .ok ci ∧
        Env.sqlDate srv booking.checkOutDate = .ok co ∧
        srv.checkInsert t
          (BookingRepository.insertedRow stamp ((t.bookingSeq : Int) + 1) ci co booking)
            = .ok () ∧
        Env.BookingRepository.create srv stamp db booking =
          ((t.bookingSeq : Int) + 1,
            ⟨some ⟨t.rooms, t.bookings ++
              [BookingRepository.insertedRow stamp ((t.bookingSeq : Int) + 1) ci co booking],
              t.bookingSeq + 1⟩⟩)) := by
  obtain ⟨c⟩ := db
  cases c with
  | none =>
    refine ⟨?_, ?_, ?_⟩
    · intro t ci co ht
      cases ht
    · intro _
      right
      rfl
    · intro h
      exact absurd rfl h
  | some t =>
    rw [Env.create_on_server]
    refine ⟨?_, ?_, ?_⟩
    · intro t1 ci co ht hb he hc h1 h2 h3 h4
      simp only [Option.some.injEq] at ht
      subst ht
      simp only [hb, he, hc, h1, h2, h3, h4, if_true, and_true]
      have := Int.ofNat_nonneg t.bookingSeq
      omega
    · intro hfail
      cases hb : srv.beginFails with
      | some e => right; simp only [hb]
      | none =>
        cases he : srv.execFails with
        | some e => right; simp only [hb, he]
        | none =>
          cases h1 : Env.sqlDate srv booking.checkInDate with
          | error e => right; simp only [hb, he, h1]
          | ok ci =>
            cases h2 : Env.sqlDate srv booking.checkOutDate with
            | error e => right; simp only [hb, he, h1, h2]
            | ok co =>
              cases h3 : srv.checkInsert t (BookingRepository.insertedRow stamp
                  ((t.bookingSeq : Int) + 1) ci co booking) with
              | error e => right; simp only [hb, he, h1, h2, h3, Option.map_some']
              | ok u =>
                cases h4 : Env.asInt ((t.bookingSeq : Int) + 1) with
                | false =>
                  right
                  simp only [hb, he, h1, h2, h3, h4, Bool.false_eq_true, if_false,
                    Option.map_some']
                | true =>
                  cases hc : srv.commit with
                  | committed =>
                    exfalso
                    simp only [hb, he, h1, h2, h3, h4, hc, if_true] at hfail
                    have := Int.ofNat_nonneg t.bookingSeq
                    omega
                  | failed e =>
                    right
                    simp only [hb, he, h1, h2, h3, h4, hc, if_true, Option.map_some']
                  | inDoubt e applied =>
                    cases applied
                    · right
                      simp only [hb, he, h1, h2, h3, h4, hc, if_true, Option.map_some']
                    · left
                      exact ⟨e, by simp⟩
    · intro hok
      cases hb : srv.beginFails with
      | some e => simp only [hb] at hok; exact absurd rfl hok
      | none =>
        cases he : srv.execFails with
        | some e => simp only [hb, he] at hok; exact absurd rfl hok
        | none =>
          cases h1 : Env.sqlDate srv booking.checkInDate with
          | error e => simp only [hb, he, h1] at hok; exact absurd rfl hok
          | ok ci =>
            cases h2 : Env.sqlDate srv booking.checkOutDate with
            | error e => simp only [hb, he, h1, h2] at hok; exact absurd rfl hok
            | ok co =>
              cases h3 : srv.checkInsert t (BookingRepository.insertedRow stamp
                  ((t.bookingSeq : Int) + 1) ci co booking) with
              | error e => simp only [hb, he, h1, h2, h3] at hok; exact absurd rfl hok
              | ok u =>
                cases h4 : Env.asInt ((t.bookingSeq : Int) + 1) with
                | false =>
                  simp only [hb, he, h1, h2, h3, h4, Bool.false_eq_true, if_false] at hok
                  exact absurd rfl hok
                | true =>
                  cases hc : srv.commit with
                  | committed =>
                    refine ⟨t, ci, co, rfl, rfl, rfl, h3, ?_⟩
                    simp only [hb, he, h1, h2, h3, h4, hc, if_true]
                  | failed e =>
                    simp only [hb, he, h1, h2, h3, h4, hc, if_true] at hok
                    exact absurd rfl hok
                  | inDoubt e applied =>
                    cases applied <;>
                      simp only [hb, he, h1, h2, h3, h4, hc, if_true] at hok <;>
                      exact absurd rfl hok

/-- C10, amended, instance: on a server where nothing fails and whose table accepts every
row, a booking with guest 0, room 0, no adult and check-in after check-out is inserted in
an empty store with id 1. -/
theorem create_leaves_validation_to_store_witness :
    (Env.BookingRepository.create Env.Server.accepting "" ⟨some ⟨[], [], 0⟩⟩
      ⟨0, 0, 0, "2026-03-05", "2026-03-01", "", "", 0, 0, .Pending, "", 0, "", ""⟩).1 > 0 :=
  ((create_leaves_validation_to_store Env.Server.accepting "" ⟨some ⟨[], [], 0⟩⟩
    ⟨0, 0, 0, "2026-03-05", "2026-03-01", "", "", 0, 0, .Pending, "", 0, "", ""⟩).1
    ⟨[], [], 0⟩ ⟨2026, 3, 5⟩ ⟨2026, 3, 1⟩ rfl rfl rfl rfl rfl rfl rfl rfl).1

/-- C22: store errors never escape the repositories. When the store is not connected, or
the statement raises, `findById` returns the absent value, `findAll` and `findByStatus`
the empty list, `create` returns -1 and `checkIn` and `checkOut` return false; `create`,
`checkIn` and `checkOut` also return -1 and false when `BEGIN` or the commit raises;
`create` returns -1 when the server cannot read a date text or the table refuses the row;
and `findAll` returns the empty list, and `findById` the absent value, when the conversion
of a row raises. Each function returns a plain value in every case. -/
theorem store_errors_do_not_escape (srv : Env.Server) (db : DatabaseManager) (id : Int)
    (status : BookingStatus) (stamp : String) (booking : Booking)
    (utcOffset clock bookingId : Int) :
    ((db.connection = none ∨ ∃ e, srv.execFails = some e) →
      Env.BookingRepository.findById srv db id = none ∧
      Env.BookingRepository.findAll srv db = [] ∧
      Env.BookingRepository.findByStatus srv db status = [] ∧
      (Env.BookingRepository.create srv stamp db booking).1 = -1 ∧
      (Env.BookingRepository.checkIn srv utcOffset clock db bookingId).1 = false ∧
      (Env.BookingRepository.checkOut srv utcOffset clock db bookingId).1 = false) ∧
    (((∃ e, srv.beginFails = some e) ∨ srv.commit ≠ .committed) →
      (Env.BookingRepository.create srv stamp db booking).1 = -1 ∧
      (Env.BookingRepository.checkIn srv utcOffset clock db bookingId).1 = false ∧
      (Env.BookingRepository.checkOut srv utcOffset clock db bookingId).1 = false) ∧
    ((∃ e, Env.sqlDate srv booking.checkInDate = .error e ∨
        Env.sqlDate srv booking.checkOutDate = .error e) →
      (Env.BookingRepository.create srv stamp db booking).1 = -1) ∧
    (∀ (t : Tables) (ci co : CivilDate) (e : String), db.connection = some t →
      Env.sqlDate srv booking.checkInDate = .ok ci →
      Env.sqlDate srv booking.checkOutDate = .ok co →
      srv.checkInsert t
        (BookingRepository.insertedRow stamp ((t.bookingSeq : Int) + 1) ci co booking)
          = .error e →
      (Env.BookingRepository.create srv stamp db booking).1 = -1) ∧
    (∀ (t : Tables) (row : BookingRow) (e : String), db.connection = some t →
      row ∈ t.bookings → Env.BookingRepository.rowToBooking row = .error e →
      Env.BookingRepository.findAll srv db = []) ∧
    (∀ (t : Tables) (row : BookingRow) (rest : List BookingRow) (e : String),
      db.connection = some t → (t.bookings.filter fun b => b.id == id) = row :: rest →
      Env.BookingRepository.rowToBooking row = .error e →
      Env.BookingRepository.findById srv db id = none) := by
  obtain ⟨c⟩ := db
  refine ⟨?_, ?_, ?_, ?_, ?_, ?_⟩
  · intro h
    cases c with
    | none => exact ⟨rfl, rfl, rfl, rfl, rfl, rfl⟩
    | some t =>
      rcases h with h | ⟨e, he⟩
      · cases h
      · refine ⟨?_, ?_, ?_, ?_, ?_, ?_⟩
        · simp [Env.BookingRepository.findById, DatabaseManager.executeReadTransaction, he]
        · simp [Env.BookingRepository.findAll, DatabaseManager.executeReadTransaction, he]
        · simp [Env.BookingRepository.findByStatus, DatabaseManager.executeReadTransaction, he]
        · rw [Env.create_on_server]
          cases srv.beginFails <;> simp [he]
        · rw [Env.checkIn_on_server]
          cases srv.beginFails <;> simp [he]
        · rw [Env.checkOut_on_server]
          cases srv.beginFails <;> simp [he]
  · intro h
    cases c with
    | none => exact ⟨rfl, rfl, rfl⟩
    | some t =>
      refine ⟨?_, ?_, ?_⟩
      · rw [Env.create_on_server]
        rcases h with ⟨e, hb⟩ | hc
        · simp [hb]
        · cases hb : srv.beginFails with
          | some e => rfl
          | none =>
            cases he : srv.execFails with
            | some e => rfl
            | none =>
              cases h1 : Env.sqlDate srv booking.checkInDate with
              | error e => rfl
              | ok ci =>
                cases h2 : Env.sqlDate srv booking.checkOutDate with
                | error e => rfl
                | ok co =>
                  simp only []
                  cases h3 : srv.checkInsert t (BookingRepository.insertedRow stamp
                      ((t.bookingSeq : Int) + 1) ci co booking) with
                  | error e => rfl
                  | ok u =>
                    simp only []
                    split_ifs
                    · cases h4 : srv.commit with
                      | committed => exact absurd h4 hc
                      | failed e => rfl
                      | inDoubt e applied => cases applied <;> rfl
                    · rfl
      · rw [Env.checkIn_on_server]
        rcases h with ⟨e, hb⟩ | hc
        · simp [hb]
        · cases hb : srv.beginFails with
          | some e => rfl
          | none =>
            cases he : srv.execFails with
            | some e => rfl
            | none =>
              cases h4 : srv.commit with
              | committed => exact absurd h4 hc
              | failed e => rfl
              | inDoubt e applied => cases applied <;> rfl
      · rw [Env.checkOut_on_server]
        rcases h with ⟨e, hb⟩ | hc
        · simp [hb]
        · cases hb : srv.beginFails with
          | some e => rfl
          | none =>
            cases he : srv.execFails with
            | some e => rfl
            | none =>
              cases h4 : srv.commit with
              | committed => exact absurd h4 hc
              | failed e => rfl
              | inDoubt e applied => cases applied <;> rfl
  · intro h
    cases c with
    | none => rfl
    | some t =>
      rw [Env.create_on_server]
      obtain ⟨e, h⟩ := h
      cases hb : srv.beginFails with
      | some e => rfl
      | none =>
        cases he : srv.execFails with
        | some e => rfl
        | none =>
          rcases h with h | h
          · simp only [h]
          · cases h1 : Env.sqlDate srv booking.checkInDate with
            | error e => rfl
            | ok ci => simp only [h]
  · intro t ci co e ht h1 h2 h3
    simp only at ht
    subst ht
    rw [Env.create_on_server]
    cases hb : srv.beginFails with
    | some e => rfl
    | none =>
      cases he : srv.execFails with
      | some e => rfl
      | none => simp only [h1, h2, h3]
  · intro t row e ht hrow hconv
    simp only at ht
    subst ht
    unfold Env.BookingRepository.findAll DatabaseManager.executeReadTransaction
    simp only []
    cases he : srv.execFails with
    | some e => rfl
    | none =>
      have hmem : row ∈ (t.bookings.insertionSort fun a b =>
          ¬ a.check_in_date.before b.check_in_date) :=
        (List.perm_insertionSort _ _).mem_iff.mpr hrow
      obtain ⟨e2, h2⟩ := Env.rowsToBookings_error_of_mem _ row e hmem hconv
      simp only [h2]
  · intro t row rest e ht hrow hconv
    simp only at ht
    subst ht
    unfold Env.BookingRepository.findById DatabaseManager.executeReadTransaction
    simp only []
    cases he : srv.execFails with
    | some e => rfl
    | none => simp only [hrow, hconv, Except.map]

/-- C22, instance: on a connected store that holds booking 1, with a server whose statements
raise, `findById` returns the absent value and `checkIn` returns false. -/
theorem store_errors_do_not_escape_witness :
    Env.BookingRepository.findById
      { Env.Server.accepting with execFails := some "server closed the connection" }
      ⟨some ⟨[], [sampleRow 1 1 ⟨2026, 3, 1⟩ ⟨2026, 3, 5⟩ "confirmed"], 1⟩⟩ 1 = none ∧
    (Env.BookingRepository.checkIn
      { Env.Server.accepting with execFails := some "server closed the connection" }
      0 1772366400
      ⟨some ⟨[], [sampleRow 1 1 ⟨2026, 3, 1⟩ ⟨2026, 3, 5⟩ "confirmed"], 1⟩⟩ 1).1 = false :=
  ⟨((store_errors_do_not_escape
      { Env.Server.accepting with execFails := some "server closed the connection" }
      ⟨some ⟨[], [sampleRow 1 1 ⟨2026, 3, 1⟩ ⟨2026, 3, 5⟩ "confirmed"], 1⟩⟩ 1 .Confirmed ""
      (sampleBooking "2026-03-01" "2026-03-05" .Confirmed) 0 1772366400 1).1
      (Or.inr ⟨_, rfl⟩)).1,
    ((store_errors_do_not_escape
      { Env.Server.accepting with execFails := some "server closed the connection" }
      ⟨some ⟨[], [sampleRow 1 1 ⟨2026, 3, 1⟩ ⟨2026, 3, 5⟩ "confirmed"], 1⟩⟩ 1 .Confirmed ""
      (sampleBooking "2026-03-01" "2026-03-05" .Confirmed) 0 1772366400 1).1
      (Or.inr ⟨_, rfl⟩)).2.2.2.2.1⟩

end HotelManagement
